import Mathlib

/-! desktop-hud: the authenticated request gateway of `app.go`

A shallow embedding of `src/app.go`: the two session globals, `authFetch`, and the
endpoint wrappers bound to the UI, followed by theorems about them.

Conventions of the embedding.

* Go `string`s are Lean `String`s; Go `[]byte` values (request bodies, file contents)
  are `List UInt8`.
* A Go `map[string]T` is an association list; the order in which a `range` loop
  visits a map is chosen by the environment (`Env.order`).
* Everything the program obtains from outside (the JSON decoding of an envelope, the
  random multipart boundary, URL parsing, the HTTP round trip) is a field of `Env`.
* The package-level variables `SessionId` and `UserId` live in `World`, together with
  the list of requests handed to the HTTP client so far.
-/

set_option autoImplicit false

namespace DesktopHud

/-! ## Bytes and text -/

/-- The bytes of a Go string (UTF-8). -/
def bytesOf (s : String) : List UInt8 :=
  s.data.flatMap String.utf8EncodeChar

/-- One lower-case hexadecimal digit. -/
def hexDigit (n : Nat) : Char :=
  if n < 10 then Char.ofNat (48 + n) else Char.ofNat (87 + n)

/-- Two lower-case hexadecimal digits of a byte, as `%x` prints a byte slice. -/
def hexByte (b : UInt8) : List Char :=
  [hexDigit (b.toNat / 16), hexDigit (b.toNat % 16)]

/-! ## `net/textproto`: canonical header keys -/

/-- The table `isTokenTable` of `net/textproto`: the bytes allowed in a header name. -/
def validHeaderFieldByte (c : Char) : Bool :=
  c.isAlphanum || c ∈ [ '!', '#', '$', '%', '&', Char.ofNat 39, '*', '+', '-', '.',
    '^', '_', Char.ofNat 96, '|', '~' ]

/-- The loop of `canonicalMIMEHeaderKey`: upper case at the start and after each dash,
lower case elsewhere. -/
def canonLoop : Bool → List Char → List Char
  | _, [] => []
  | upper, c :: cs =>
    let c1 := if upper && c.isLower then c.toUpper
              else if !upper && c.isUpper then c.toLower else c
    c1 :: canonLoop (c1 == '-') cs

/-- `textproto.CanonicalMIMEHeaderKey`: a key holding a byte that is not a token byte
is returned unchanged, any other key is canonicalised. -/
def CanonicalMIMEHeaderKey (s : String) : String :=
  if s.data.all validHeaderFieldByte then String.mk (canonLoop true s.data) else s

/-! ## `net/http`: headers -/

/-- `http.Header`, a `map[string][]string`. -/
abbrev Header := List (String × List String)

/-- `h[key]` on the raw map. -/
def Header.values (h : Header) (key : String) : Option (List String) :=
  match h with
  | [] => none
  | (k, vs) :: rest => if k = key then some vs else Header.values rest key

/-- `Header.Set`: `h[CanonicalMIMEHeaderKey(key)] = []string{value}`. -/
def Header.Set (h : Header) (key value : String) : Header :=
  (CanonicalMIMEHeaderKey key, [value]) ::
    h.filter (fun e => e.1 != CanonicalMIMEHeaderKey key)

/-- `Header.Get`: the first value stored under the canonical form of `key`, or `""`. -/
def Header.Get (h : Header) (key : String) : String :=
  match Header.values h (CanonicalMIMEHeaderKey key) with
  | some (v :: _) => v
  | _ => ""

/-- `Header.Values`: every value stored under the canonical form of `key`. -/
def Header.Values (h : Header) (key : String) : List String :=
  (Header.values h (CanonicalMIMEHeaderKey key)).getD []

/-! ## `encoding/json`: the values the program marshals and decodes -/

/-- A Go value as `encoding/json` sees it. `map` is a `map[string]interface{}` (what a
JSON object decodes to), `struct` a struct value with its JSON field names in
declaration order, `float64` a number carried as its JSON text, and `chan` stands
for the values `json.Marshal` rejects (channels, functions, complex numbers). -/
inductive GoValue where
  | nil
  | bool (b : Bool)
  | int (n : Int)
  | float64 (text : String)
  | string (s : String)
  | slice (xs : List GoValue)
  | map (entries : List (String × GoValue))
  | struct (fields : List (String × GoValue))
  | chan
  deriving Inhabited

/-- Four hexadecimal digits, as in a JSON unicode escape. -/
def hex4 (n : Nat) : List Char :=
  [hexDigit (n / 4096 % 16), hexDigit (n / 256 % 16), hexDigit (n / 16 % 16), hexDigit (n % 16)]

/-- How `encoding/json` writes one character of a string (HTML escaping on). -/
def escapeJSONChar (c : Char) : List Char :=
  if c = '"' then ['\\', '"']
  else if c = '\\' then ['\\', '\\']
  else if c = '\n' then ['\\', 'n']
  else if c = '\r' then ['\\', 'r']
  else if c = '\t' then ['\\', 't']
  else if c = Char.ofNat 8 then ['\\', 'b']
  else if c = Char.ofNat 12 then ['\\', 'f']
  else if c.toNat < 32 || c = '<' || c = '>' || c = '&' || c.toNat = 0x2028 || c.toNat = 0x2029
    then '\\' :: 'u' :: hex4 c.toNat
  else [c]

/-- A JSON string literal. -/
def quoteJSON (s : String) : String :=
  String.mk ('"' :: s.data.flatMap escapeJSONChar ++ ['"'])

/-- Object members joined between braces. -/
def renderObject (members : List (String × String)) : String :=
  "\x7b" ++ ",".intercalate (members.map (fun m => quoteJSON m.1 ++ ":" ++ m.2)) ++ "\x7d"

/-- Byte-wise order of two keys, `strings.Compare(a, b) <= 0`. -/
def keyLE : List Char → List Char → Bool
  | [], _ => true
  | _ :: _, [] => false
  | a :: as, b :: bs => a.toNat < b.toNat || (a.toNat == b.toNat && keyLE as bs)

/-- Insert a member into a list of members sorted by key. -/
def insertMember (m : String × String) : List (String × String) → List (String × String)
  | [] => [m]
  | x :: xs => if keyLE m.1.data x.1.data then m :: x :: xs else x :: insertMember m xs

/-- The members of a map in the order `encoding/json` writes them: sorted by key. -/
def sortMembers : List (String × String) → List (String × String)
  | [] => []
  | m :: ms => insertMember m (sortMembers ms)

mutual
/-- `json.Marshal` as text: map keys are written in sorted order, struct fields in
declaration order; an unsupported value anywhere fails the whole call. -/
def marshalValue : GoValue → Except String String
  | .nil => .ok "null"
  | .bool b => .ok (if b then "true" else "false")
  | .int n => .ok (toString n)
  | .float64 t => .ok t
  | .string s => .ok (quoteJSON s)
  | .slice xs => (marshalList xs).map (fun ps => "[" ++ ",".intercalate ps ++ "]")
  | .map es =>
    (marshalMembers es).map (fun ms => renderObject (sortMembers ms))
  | .struct fs => (marshalMembers fs).map renderObject
  | .chan => .error "json: unsupported type: chan int"
/-- The elements of a slice, marshalled in order. -/
def marshalList : List GoValue → Except String (List String)
  | [] => .ok []
  | v :: vs =>
    match marshalValue v with
    | .error e => .error e
    | .ok s => (marshalList vs).map (fun ps => s :: ps)
/-- The members of a map or struct, each value marshalled. -/
def marshalMembers : List (String × GoValue) → Except String (List (String × String))
  | [] => .ok []
  | (k, v) :: rest =>
    match marshalValue v with
    | .error e => .error e
    | .ok s => (marshalMembers rest).map (fun ms => (k, s) :: ms)
end

/-- `json.Marshal`: the bytes of the JSON text, or the encoder's error. -/
def jsonMarshal (v : GoValue) : Except String (List UInt8) :=
  (marshalValue v).map bytesOf

/-- `m[key]` on a `map[string]interface{}` that may be nil: a missing key, and any
key of the nil map, reads as the nil interface. -/
def mapIndex (m : Option (List (String × GoValue))) (key : String) : GoValue :=
  match m with
  | none => .nil
  | some es => (es.lookup key).getD .nil

/-- `json.NewDecoder(body).Decode(&result)` for `var result map[string]interface{}`,
given what the body holds (`.error` when its first JSON value is malformed or
missing). Returns the map left in `result` and the error of `Decode`: an object
fills the map, `null` leaves it nil without error, any other value is a type error. -/
def decodeMap (body : Except String GoValue) :
    Option (List (String × GoValue)) × Option String :=
  match body with
  | .error e => (none, some e)
  | .ok (.map es) => (some es, none)
  | .ok .nil => (none, none)
  | .ok _ => (none,
      some "json: cannot unmarshal value into Go value of type map[string]interface \x7b\x7d")

/-! ## `encoding/json`: filling a request structure -/

/-- How `json.Unmarshal` stores one member of a JSON object into a struct of type
`α`: the JSON name of the field and the store into it. -/
structure FieldStore (α : Type) where
  name : String
  store : GoValue → α → Except String α

/-- A request structure of `app.go` as `json.Unmarshal` sees it: its zero value
(`default`) and the fields it can fill. -/
class RequestStruct (α : Type) extends Inhabited α where
  fields : List (FieldStore α)

/-- The error of storing a JSON value of the wrong type into a field. -/
def typeError (field goType : String) : String :=
  "json: cannot unmarshal value into Go struct field " ++ field ++ " of type " ++ goType

/-- Storing into a `string` field: a JSON string is stored, `null` changes nothing,
any other value is a type error. -/
def storeString (field : String) (v : GoValue) (old : String) : Except String String :=
  match v with
  | .string s => .ok s
  | .nil => .ok old
  | _ => .error (typeError field "string")

/-- Storing into a `bool` field. -/
def storeBool (field : String) (v : GoValue) (old : Bool) : Except String Bool :=
  match v with
  | .bool b => .ok b
  | .nil => .ok old
  | _ => .error (typeError field "bool")

/-- The range check of `strconv.ParseInt(s, 10, 64)`: an `int` holds 64 bits. -/
def fitsInt (field : String) (n : Int) : Except String Int :=
  if -9223372036854775808 ≤ n ∧ n ≤ 9223372036854775807 then .ok n
  else .error (typeError field "int")

/-- Storing into an `int` field: the number must be written as an integer and fit in
64 bits. -/
def storeInt (field : String) (v : GoValue) (old : Int) : Except String Int :=
  match v with
  | .int n => fitsInt field n
  | .float64 text =>
    match text.toInt? with
    | some n => fitsInt field n
    | none => .error (typeError field "int")
  | .nil => .ok old
  | _ => .error (typeError field "int")

/-- The elements of a JSON array stored into a `[]string`. -/
def storeElements (field : String) : List GoValue → Except String (List String)
  | [] => .ok []
  | v :: vs =>
    match storeString field v "" with
    | .error e => .error e
    | .ok s => (storeElements field vs).map (fun ss => s :: ss)

/-- Storing into a `[]string` field: `null` gives the nil slice. -/
def storeStrings (field : String) (v : GoValue) : Except String (Option (List String)) :=
  match v with
  | .slice xs => (storeElements field xs).map some
  | .nil => .ok none
  | _ => .error (typeError field "[]string")

/-- The value of one character of the standard base64 alphabet. -/
def base64Value (c : Char) : Option Nat :=
  if c.isUpper then some (c.toNat - 65)
  else if c.isLower then some (c.toNat - 71)
  else if c.isDigit then some (c.toNat + 4)
  else if c = '+' then some 62
  else if c = '/' then some 63
  else none

/-- Standard base64 decoding with padding, as `encoding/json` applies it to a JSON
string stored into a `[]byte`. -/
def base64Decode : List Char → Option (List UInt8)
  | [] => some []
  | [a, b, '=', '='] =>
    match base64Value a, base64Value b with
    | some x, some y => some [UInt8.ofNat (x * 4 + y / 16)]
    | _, _ => none
  | [a, b, c, '='] =>
    match base64Value a, base64Value b, base64Value c with
    | some x, some y, some z =>
      some [UInt8.ofNat (x * 4 + y / 16), UInt8.ofNat (y % 16 * 16 + z / 4)]
    | _, _, _ => none
  | a :: b :: c :: d :: rest =>
    match base64Value a, base64Value b, base64Value c, base64Value d, base64Decode rest with
    | some x, some y, some z, some t, some bytes =>
      some (UInt8.ofNat (x * 4 + y / 16) :: UInt8.ofNat (y % 16 * 16 + z / 4) ::
        UInt8.ofNat (z % 4 * 64 + t) :: bytes)
    | _, _, _, _, _ => none
  | _ => none

/-- Storing into a `[]byte` field: a JSON string holding base64 text. -/
def storeBytes (field : String) (v : GoValue) (old : List UInt8) :
    Except String (List UInt8) :=
  match v with
  | .string s =>
    match base64Decode s.data with
    | some bytes => .ok bytes
    | none => .error "illegal base64 data"
  | .nil => .ok old
  | _ => .error (typeError field "[]uint8")

/-- A key folded for the comparison of a member key with a field name, as `foldName`
of `encoding/json` compares them when one side is ASCII, which every field name of
this program is: ASCII letters in lower case, and the two other characters that fold
to an ASCII letter, U+017F (long s) and U+212A (Kelvin sign), as `s` and `k`. -/
def foldKey (key : String) : List Char :=
  key.data.map (fun c =>
    if c = Char.ofNat 0x17F then 's' else if c = Char.ofNat 0x212A then 'k' else c.toLower)

/-- The members of a JSON object stored one after the other: a member is stored
into the field whose JSON name equals its key up to letter case, and a member with
no such field is skipped. -/
def fillStruct {α : Type} (fields : List (FieldStore α)) :
    List (String × GoValue) → α → Except String α
  | [], r => .ok r
  | kv :: rest, r =>
    match fields.find? (fun f => foldKey f.name == foldKey kv.1) with
    | none => fillStruct fields rest r
    | some f =>
      match f.store kv.2 r with
      | .error e => .error e
      | .ok r1 => fillStruct fields rest r1

/-- `json.Unmarshal` into a zero-valued request structure, given what the envelope
holds as JSON (`.error` when it is not valid JSON): an object fills the structure,
`null` leaves the zero value, any other value is a type error. -/
def unmarshalValue {α : Type} [RequestStruct α] (envelope : Except String GoValue) :
    Except String α :=
  match envelope with
  | .error e => .error e
  | .ok (.map members) => fillStruct RequestStruct.fields members default
  | .ok .nil => .ok default
  | .ok _ => .error "json: cannot unmarshal value into Go value of a struct type"

/-! ## `mime/multipart`: the form writer -/

/-- The Go type `File` of `app.go`. -/
structure File where
  Name : String
  Data : List UInt8
  deriving Inhabited, DecidableEq

/-- The Go type `MultipartData` of `app.go`. -/
structure MultipartData where
  Fields : List (String × String)
  Files : List (String × File)
  deriving Inhabited

/-- `randomBoundary`: thirty random bytes printed with `%x`. -/
def randomBoundary (rand : Nat → UInt8) : String :=
  String.mk ((List.range 30).flatMap (fun i => hexByte (rand i)))

/-- `escapeQuotes`: a backslash before every backslash and double quote, and `%0A`
and `%0D` in place of LF and CR. -/
def escapeQuotes (s : String) : String :=
  String.mk (s.data.flatMap (fun c =>
    if c = '\\' || c = '"' then ['\\', c]
    else if c = '\n' then ['%', '0', 'A']
    else if c = '\r' then ['%', '0', 'D']
    else [c]))

/-- A `multipart.Writer` over a byte buffer: its boundary, the bytes written so far,
and whether a part has been started (`lastpart != nil`). -/
structure Writer where
  boundary : String
  buf : List UInt8
  lastpart : Bool

/-- `multipart.NewWriter` on an empty buffer. -/
def NewWriter (rand : Nat → UInt8) : Writer :=
  { boundary := randomBoundary rand, buf := [], lastpart := false }

/-- `Writer.CreatePart`: the delimiter line (preceded by CRLF after a previous part),
the header lines, and an empty line. `header` lists the lines in the order written,
which is the sorted order of the keys. -/
def Writer.CreatePart (w : Writer) (header : List (String × String)) : Writer :=
  let delim := if w.lastpart then "\r\n--" ++ w.boundary ++ "\r\n" else "--" ++ w.boundary ++ "\r\n"
  let lines := header.map (fun kv => kv.1 ++ ": " ++ kv.2 ++ "\r\n")
  { w with buf := w.buf ++ bytesOf (delim ++ String.join lines ++ "\r\n"), lastpart := true }

/-- Writing to the part returned by `CreatePart`. -/
def Writer.Write (w : Writer) (data : List UInt8) : Writer :=
  { w with buf := w.buf ++ data }

/-- `Writer.WriteField`: a form field part followed by its value. -/
def Writer.WriteField (w : Writer) (fieldname value : String) : Writer :=
  (w.CreatePart [("Content-Disposition",
      "form-data; name=\"" ++ escapeQuotes fieldname ++ "\"")]).Write (bytesOf value)

/-- `Writer.CreateFormFile`: a file part header. -/
def Writer.CreateFormFile (w : Writer) (fieldname filename : String) : Writer :=
  w.CreatePart [("Content-Disposition",
      "form-data; name=\"" ++ escapeQuotes fieldname ++ "\"; filename=\"" ++
        escapeQuotes filename ++ "\""),
    ("Content-Type", "application/octet-stream")]

/-- `Writer.Close`: the closing delimiter. -/
def Writer.Close (w : Writer) : Writer :=
  { w with buf := w.buf ++ bytesOf ("\r\n--" ++ w.boundary ++ "--\r\n") }

/-- `Writer.FormDataContentType`: the boundary is quoted when it holds one of the
characters `()<>@,;:\"/[]?= `. -/
def Writer.FormDataContentType (w : Writer) : String :=
  let special : List Char :=
    ['(', ')', '<', '>', '@', ',', ';', ':', '\\', '"', '/', '[', ']', '?', '=', ' ']
  let b := if w.boundary.data.any (fun c => c ∈ special) then "\"" ++ w.boundary ++ "\""
           else w.boundary
  "multipart/form-data; boundary=" ++ b

/-! ## `net/http`: requests, responses and the environment -/

/-- The part of an `http.Request` the program determines. A request created with a
nil body reader has the empty body. -/
structure Request where
  Method : String
  URL : String
  Header : Header
  Body : List UInt8
  deriving Inhabited, DecidableEq

/-- An `http.Cookie` of a response. -/
structure Cookie where
  Name : String
  Value : String
  deriving Inhabited, DecidableEq

/-- The part of an `http.Response` the program reads: the status line text, the
cookies of `Cookies()`, and what `Body` holds when read as JSON (`.error` when its
first JSON value is malformed or missing). -/
structure Response where
  Status : String
  Cookies : List Cookie
  Body : Except String GoValue
  deriving Inhabited

/-- What the program receives from outside. `Unmarshal α s` is
`json.Unmarshal([]byte(s), &v)` for a zero-valued `v` of type `α`; `rand` is the
output of `crypto/rand`; `order` is the order in which `range` visits a map;
`parseURL` is the error of `url.Parse`, if any; `Do` is `http.Client.Do`. -/
structure Env where
  Unmarshal : (α : Type) → [RequestStruct α] → String → Except String α
  rand : Nat → UInt8
  order : (α : Type) → List (String × α) → List (String × α)
  order_perm : ∀ (α : Type) (m : List (String × α)), (order α m).Perm m
  parseURL : String → Option String
  Do : Request → Except String Response

/-- The package-level variables `SessionId` and `UserId`, and the requests handed to
the HTTP client so far. -/
structure World where
  SessionId : String
  UserId : String
  calls : List Request
  deriving Inhabited, DecidableEq

/-- `http.NewRequest`: an empty method means `GET`; the method must consist of token
bytes and the URL must parse. The new request has no header. -/
def NewRequest (env : Env) (method url : String) (body : List UInt8) :
    Except String Request :=
  let method := if method = "" then "GET" else method
  if !(method.data.all validHeaderFieldByte) then
    .error ("net/http: invalid method " ++ method.quote)
  else
    match env.parseURL url with
    | some e => .error e
    | none => .ok { Method := method, URL := url, Header := [], Body := body }

/-- The third argument of `authFetch`, a Go `interface{}`: nil, a `MultipartData`, or
any other value. -/
inductive Payload where
  | none
  | multipart (d : MultipartData)
  | value (v : GoValue)
  deriving Inhabited

/-- The multipart form `authFetch` writes for a `MultipartData`: every field, every
file, then the closing delimiter. -/
def writeForm (env : Env) (d : MultipartData) : Writer :=
  let writer := NewWriter env.rand
  let writer := (env.order String d.Fields).foldl
    (fun wr kv => wr.WriteField kv.1 kv.2) writer
  let writer := (env.order File d.Files).foldl
    (fun wr kf => (wr.CreateFormFile kf.1 kf.2.Name).Write kf.2.Data) writer
  writer.Close

/-- The encoding step of `authFetch` (lines 32 to 81): the request with its body and
its `Content-Type`, or the error returned before anything is sent. -/
def encodeRequest (env : Env) (method url : String) (body : Payload) :
    Except String Request :=
  match body with
  | .multipart multipartBody =>
    let writer := writeForm env multipartBody
    match NewRequest env method url writer.buf with
    | .error e => .error ("error creating request: " ++ e)
    | .ok req =>
      .ok { req with Header := req.Header.Set "Content-Type" writer.FormDataContentType }
  | .none =>
    match NewRequest env method url [] with
    | .error e => .error ("error creating request: " ++ e)
    | .ok req => .ok { req with Header := req.Header.Set "Content-Type" "application/json" }
  | .value v =>
    match jsonMarshal v with
    | .error e => .error ("error marshaling body: " ++ e)
    | .ok jsonBody =>
      match NewRequest env method url jsonBody with
      | .error e => .error ("error creating request: " ++ e)
      | .ok req => .ok { req with Header := req.Header.Set "Content-Type" "application/json" }

/-- The headers `authFetch` sets after the encoding step (lines 83 to 88): the two
authentication headers from the session variables, then every caller override. -/
def authHeaders (env : Env) (w : World) (headers : List (String × String))
    (header : Header) : Header :=
  let header := header.Set "Authorization" ("Bearer " ++ w.SessionId)
  let header := header.Set "X-User-ID" w.UserId
  (env.order String headers).foldl (fun h kv => h.Set kv.1 kv.2) header

/-- The request `authFetch` hands to `client.Do` (lines 29 to 88), or the error it
returns before sending anything. -/
def authFetchRequest (env : Env) (w : World) (method url : String) (body : Payload)
    (headers : List (String × String)) : Except String Request :=
  match encodeRequest env method url body with
  | .error e => .error e
  | .ok req => .ok { req with Header := authHeaders env w headers req.Header }

/-- `authFetch`: build the request, hand it to the client, return the response or the
wrapped error. The session variables are only read. -/
def authFetch (env : Env) (method url : String) (body : Payload)
    (headers : List (String × String)) (w : World) : Except String Response × World :=
  match authFetchRequest env w method url body headers with
  | .error e => (.error e, w)
  | .ok req =>
    match env.Do req with
    | .error e => (.error ("error sending request: " ++ e), { w with calls := w.calls ++ [req] })
    | .ok resp => (.ok resp, { w with calls := w.calls ++ [req] })

/-! ## The request structures of `app.go`

Each structure lists the fields of the Go struct; `toValue` is the value
`json.Marshal` sees, with the names of the `json` tags. A `[]string` that may be nil
is an `Option (List String)`. -/

/-- A `[]string` as `encoding/json` sees it: the nil slice is written `null`. -/
def stringsValue : Option (List String) → GoValue
  | none => .nil
  | some xs => .slice (xs.map GoValue.string)

/-- The Go struct `SigninRequest`. -/
structure SigninRequest where
  Username : String
  Password : String
  deriving Inhabited

/-- The JSON view of a `SigninRequest`. -/
def SigninRequest.toValue (r : SigninRequest) : GoValue :=
  .struct [("username", .string r.Username), ("password", .string r.Password)]

/-- The Go struct `generalRequest`. -/
structure generalRequest where
  UserID : String
  deriving Inhabited

/-- The JSON view of a `generalRequest`. -/
def generalRequest.toValue (r : generalRequest) : GoValue :=
  .struct [("user_id", .string r.UserID)]

/-- The Go struct `MessagesRequest`. -/
structure MessagesRequest where
  ChannelId : String
  UserID : String
  deriving Inhabited

/-- The JSON view of a `MessagesRequest`. -/
def MessagesRequest.toValue (r : MessagesRequest) : GoValue :=
  .struct [("channel_id", .string r.ChannelId), ("user_id", .string r.UserID)]

/-- The Go struct `ServerRequest`. -/
structure ServerRequest where
  UserId : String
  ServerId : String
  deriving Inhabited

/-- The JSON view of a `ServerRequest`. -/
def ServerRequest.toValue (r : ServerRequest) : GoValue :=
  .struct [("user_id", .string r.UserId), ("server_id", .string r.ServerId)]

/-- The Go struct `TypingRequest`. -/
structure TypingRequest where
  UserId : String
  ChannelId : String
  DisplayName : String
  Status : String
  deriving Inhabited

/-- The JSON view of a `TypingRequest`. -/
def TypingRequest.toValue (r : TypingRequest) : GoValue :=
  .struct [("user_id", .string r.UserId), ("channel_id", .string r.ChannelId),
    ("display_name", .string r.DisplayName), ("status", .string r.Status)]

/-- The Go struct `SyncNotifRequest`. -/
structure SyncNotifRequest where
  UserId : String
  Channels : GoValue
  deriving Inhabited

/-- The JSON view of a `SyncNotifRequest`. -/
def SyncNotifRequest.toValue (r : SyncNotifRequest) : GoValue :=
  .struct [("user_id", .string r.UserId), ("channels", r.Channels)]

/-- The Go struct `CreateInviteReq`. -/
structure CreateInviteReq where
  UserId : String
  ServerId : String
  deriving Inhabited

/-- The JSON view of a `CreateInviteReq`. -/
def CreateInviteReq.toValue (r : CreateInviteReq) : GoValue :=
  .struct [("user_id", .string r.UserId), ("server_id", .string r.ServerId)]

/-- The Go struct `ServerActionsReq`. -/
structure ServerActionsReq where
  UserId : String
  ServerId : String
  deriving Inhabited

/-- The JSON view of a `ServerActionsReq`. -/
def ServerActionsReq.toValue (r : ServerActionsReq) : GoValue :=
  .struct [("user_id", .string r.UserId), ("server_id", .string r.ServerId)]

/-- The Go struct `JoinServerReq`. -/
structure JoinServerReq where
  User : GoValue
  InviteId : String
  deriving Inhabited

/-- The JSON view of a `JoinServerReq`. -/
def JoinServerReq.toValue (r : JoinServerReq) : GoValue :=
  .struct [("user", r.User), ("invite_id", .string r.InviteId)]

/-- The Go struct `CreateServerReq`. -/
structure CreateServerReq where
  UserId : String
  Name : String
  deriving Inhabited

/-- The JSON view of a `CreateServerReq`. -/
def CreateServerReq.toValue (r : CreateServerReq) : GoValue :=
  .struct [("user_id", .string r.UserId), ("name", .string r.Name)]

/-- The Go struct `CatReq`. -/
structure CatReq where
  ServerId : String
  CategoryName : String
  deriving Inhabited

/-- The JSON view of a `CatReq`. -/
def CatReq.toValue (r : CatReq) : GoValue :=
  .struct [("server_id", .string r.ServerId), ("category_name", .string r.CategoryName)]

/-- The Go struct `DelFriendReq`. -/
structure DelFriendReq where
  UserId : String
  FriendId : String
  deriving Inhabited

/-- The JSON view of a `DelFriendReq`. -/
def DelFriendReq.toValue (r : DelFriendReq) : GoValue :=
  .struct [("user_id", .string r.UserId), ("friend_id", .string r.FriendId)]

/-- The Go struct `FriendReq`. -/
structure FriendReq where
  ID : String
  RequestId : String
  deriving Inhabited

/-- The JSON view of a `FriendReq`. -/
def FriendReq.toValue (r : FriendReq) : GoValue :=
  .struct [("id", .string r.ID), ("request_id", .string r.RequestId)]

/-- The Go struct `AddFriendReq`. -/
structure AddFriendReq where
  InitiatorId : String
  InitiatorUsername : String
  ReceiverUsername : String
  deriving Inhabited

/-- The JSON view of a `AddFriendReq`. -/
def AddFriendReq.toValue (r : AddFriendReq) : GoValue :=
  .struct [("initiator_id", .string r.InitiatorId),
    ("initiator_username", .string r.InitiatorUsername),
    ("receiver_username", .string r.ReceiverUsername)]

/-- The Go struct `DelMessageReq`. -/
structure DelMessageReq where
  ChannelId : String
  MessageId : String
  PrivateMessage : Bool
  AuthorId : String
  deriving Inhabited

/-- The JSON view of a `DelMessageReq`. -/
def DelMessageReq.toValue (r : DelMessageReq) : GoValue :=
  .struct [("channel_id", .string r.ChannelId), ("message_id", .string r.MessageId),
    ("private_message", .bool r.PrivateMessage), ("author_id", .string r.AuthorId)]

/-- The Go struct `EditMessageReq`. -/
structure EditMessageReq where
  ChannelId : String
  MessageId : String
  PrivateMessage : Bool
  AuthorId : String
  Content : String
  Mentions : Option (List String)
  deriving Inhabited

/-- The JSON view of a `EditMessageReq`. -/
def EditMessageReq.toValue (r : EditMessageReq) : GoValue :=
  .struct [("channel_id", .string r.ChannelId), ("message_id", .string r.MessageId),
    ("private_message", .bool r.PrivateMessage), ("author_id", .string r.AuthorId),
    ("content", .string r.Content), ("mentions", stringsValue r.Mentions)]

/-- The Go struct `NameColorReq`. -/
structure NameColorReq where
  UserId : String
  UsernameColor : String
  deriving Inhabited

/-- The JSON view of a `NameColorReq`. -/
def NameColorReq.toValue (r : NameColorReq) : GoValue :=
  .struct [("user_id", .string r.UserId), ("username_color", .string r.UsernameColor)]

/-- The Go struct `DelChanReq`. -/
structure DelChanReq where
  ChannelId : String
  CategoryName : String
  ServerId : String
  deriving Inhabited

/-- The JSON view of a `DelChanReq`. -/
def DelChanReq.toValue (r : DelChanReq) : GoValue :=
  .struct [("channel_id", .string r.ChannelId), ("category_name", .string r.CategoryName),
    ("server_id", .string r.ServerId)]

/-- The Go struct `CreateChanReq`. -/
structure CreateChanReq where
  Name : String
  ChannelType : String
  CategoryName : String
  ServerId : String
  deriving Inhabited

/-- The JSON view of a `CreateChanReq`. -/
def CreateChanReq.toValue (r : CreateChanReq) : GoValue :=
  .struct [("name", .string r.Name), ("channel_type", .string r.ChannelType),
    ("category_name", .string r.CategoryName), ("server_id", .string r.ServerId)]

/-- The Go struct `DPNameReq`. -/
structure DPNameReq where
  UserId : String
  DPName : String
  deriving Inhabited

/-- The JSON view of a `DPNameReq`. -/
def DPNameReq.toValue (r : DPNameReq) : GoValue :=
  .struct [("user_id", .string r.UserId), ("display_name", .string r.DPName)]

/-- The Go struct `UserNameReq`. -/
structure UserNameReq where
  UserId : String
  Name : String
  deriving Inhabited

/-- The JSON view of a `UserNameReq`. -/
def UserNameReq.toValue (r : UserNameReq) : GoValue :=
  .struct [("user_id", .string r.UserId), ("username", .string r.Name)]

/-- The Go struct `ChangeEmailReq`. -/
structure ChangeEmailReq where
  UserId : String
  Email : String
  deriving Inhabited

/-- The JSON view of a `ChangeEmailReq`. -/
def ChangeEmailReq.toValue (r : ChangeEmailReq) : GoValue :=
  .struct [("user_id", .string r.UserId), ("email", .string r.Email)]

/-- The Go struct `AvatarChangeRequest`; it is only decoded, never marshalled. -/
structure AvatarChangeRequest where
  FileData : List UInt8
  FileName : String
  CropY : Int
  CropX : Int
  CropWidth : Int
  CropHeight : Int
  OldAvatar : String
  ServerID : String
  Friends : Option (List String)
  deriving Inhabited

/-! ## How `json.Unmarshal` fills each request structure -/

instance : RequestStruct SigninRequest where
  fields := [
    ⟨"username", fun v r =>
      (storeString "SigninRequest.username" v r.Username).map (fun x => { r with Username := x })⟩,
    ⟨"password", fun v r =>
      (storeString "SigninRequest.password" v r.Password).map (fun x => { r with Password := x })⟩]

instance : RequestStruct generalRequest where
  fields := [
    ⟨"user_id", fun v r =>
      (storeString "generalRequest.user_id" v r.UserID).map (fun x => { r with UserID := x })⟩]

instance : RequestStruct MessagesRequest where
  fields := [
    ⟨"channel_id", fun v r =>
      (storeString "MessagesRequest.channel_id" v r.ChannelId).map (fun x => { r with ChannelId := x })⟩,
    ⟨"user_id", fun v r =>
      (storeString "MessagesRequest.user_id" v r.UserID).map (fun x => { r with UserID := x })⟩]

instance : RequestStruct ServerRequest where
  fields := [
    ⟨"user_id", fun v r =>
      (storeString "ServerRequest.user_id" v r.UserId).map (fun x => { r with UserId := x })⟩,
    ⟨"server_id", fun v r =>
      (storeString "ServerRequest.server_id" v r.ServerId).map (fun x => { r with ServerId := x })⟩]

instance : RequestStruct TypingRequest where
  fields := [
    ⟨"user_id", fun v r =>
      (storeString "TypingRequest.user_id" v r.UserId).map (fun x => { r with UserId := x })⟩,
    ⟨"channel_id", fun v r =>
      (storeString "TypingRequest.channel_id" v r.ChannelId).map (fun x => { r with ChannelId := x })⟩,
    ⟨"display_name", fun v r =>
      (storeString "TypingRequest.display_name" v r.DisplayName).map (fun x => { r with DisplayName := x })⟩,
    ⟨"status", fun v r =>
      (storeString "TypingRequest.status" v r.Status).map (fun x => { r with Status := x })⟩]

instance : RequestStruct SyncNotifRequest where
  fields := [
    ⟨"user_id", fun v r =>
      (storeString "SyncNotifRequest.user_id" v r.UserId).map (fun x => { r with UserId := x })⟩,
    ⟨"channels", fun v r =>
      .ok { r with Channels := v }⟩]

instance : RequestStruct CreateInviteReq where
  fields := [
    ⟨"user_id", fun v r =>
      (storeString "CreateInviteReq.user_id" v r.UserId).map (fun x => { r with UserId := x })⟩,
    ⟨"server_id", fun v r =>
      (storeString "CreateInviteReq.server_id" v r.ServerId).map (fun x => { r with ServerId := x })⟩]

instance : RequestStruct ServerActionsReq where
  fields := [
    ⟨"user_id", fun v r =>
      (storeString "ServerActionsReq.user_id" v r.UserId).map (fun x => { r with UserId := x })⟩,
    ⟨"server_id", fun v r =>
      (storeString "ServerActionsReq.server_id" v r.ServerId).map (fun x => { r with ServerId := x })⟩]

instance : RequestStruct JoinServerReq where
  fields := [
    ⟨"user", fun v r =>
      .ok { r with User := v }⟩,
    ⟨"invite_id", fun v r =>
      (storeString "JoinServerReq.invite_id" v r.InviteId).map (fun x => { r with InviteId := x })⟩]

instance : RequestStruct CreateServerReq where
  fields := [
    ⟨"user_id", fun v r =>
      (storeString "CreateServerReq.user_id" v r.UserId).map (fun x => { r with UserId := x })⟩,
    ⟨"name", fun v r =>
      (storeString "CreateServerReq.name" v r.Name).map (fun x => { r with Name := x })⟩]

instance : RequestStruct CatReq where
  fields := [
    ⟨"server_id", fun v r =>
      (storeString "CatReq.server_id" v r.ServerId).map (fun x => { r with ServerId := x })⟩,
    ⟨"category_name", fun v r =>
      (storeString "CatReq.category_name" v r.CategoryName).map (fun x => { r with CategoryName := x })⟩]

instance : RequestStruct DelFriendReq where
  fields := [
    ⟨"user_id", fun v r =>
      (storeString "DelFriendReq.user_id" v r.UserId).map (fun x => { r with UserId := x })⟩,
    ⟨"friend_id", fun v r =>
      (storeString "DelFriendReq.friend_id" v r.FriendId).map (fun x => { r with FriendId := x })⟩]

instance : RequestStruct FriendReq where
  fields := [
    ⟨"id", fun v r =>
      (storeString "FriendReq.id" v r.ID).map (fun x => { r with ID := x })⟩,
    ⟨"request_id", fun v r =>
      (storeString "FriendReq.request_id" v r.RequestId).map (fun x => { r with RequestId := x })⟩]

instance : RequestStruct AddFriendReq where
  fields := [
    ⟨"initiator_id", fun v r =>
      (storeString "AddFriendReq.initiator_id" v r.InitiatorId).map (fun x => { r with InitiatorId := x })⟩,
    ⟨"initiator_username", fun v r =>
      (storeString "AddFriendReq.initiator_username" v r.InitiatorUsername).map (fun x => { r with InitiatorUsername := x })⟩,
    ⟨"receiver_username", fun v r =>
      (storeString "AddFriendReq.receiver_username" v r.ReceiverUsername).map (fun x => { r with ReceiverUsername := x })⟩]

instance : RequestStruct DelMessageReq where
  fields := [
    ⟨"channel_id", fun v r =>
      (storeString "DelMessageReq.channel_id" v r.ChannelId).map (fun x => { r with ChannelId := x })⟩,
    ⟨"message_id", fun v r =>
      (storeString "DelMessageReq.message_id" v r.MessageId).map (fun x => { r with MessageId := x })⟩,
    ⟨"private_message", fun v r =>
      (storeBool "DelMessageReq.private_message" v r.PrivateMessage).map (fun x => { r with PrivateMessage := x })⟩,
    ⟨"author_id", fun v r =>
      (storeString "DelMessageReq.author_id" v r.AuthorId).map (fun x => { r with AuthorId := x })⟩]

instance : RequestStruct EditMessageReq where
  fields := [
    ⟨"channel_id", fun v r =>
      (storeString "EditMessageReq.channel_id" v r.ChannelId).map (fun x => { r with ChannelId := x })⟩,
    ⟨"message_id", fun v r =>
      (storeString "EditMessageReq.message_id" v r.MessageId).map (fun x => { r with MessageId := x })⟩,
    ⟨"private_message", fun v r =>
      (storeBool "EditMessageReq.private_message" v r.PrivateMessage).map (fun x => { r with PrivateMessage := x })⟩,
    ⟨"author_id", fun v r =>
      (storeString "EditMessageReq.author_id" v r.AuthorId).map (fun x => { r with AuthorId := x })⟩,
    ⟨"content", fun v r =>
      (storeString "EditMessageReq.content" v r.Content).map (fun x => { r with Content := x })⟩,
    ⟨"mentions", fun v r =>
      (storeStrings "EditMessageReq.mentions" v).map (fun x => { r with Mentions := x })⟩]

instance : RequestStruct NameColorReq where
  fields := [
    ⟨"user_id", fun v r =>
      (storeString "NameColorReq.user_id" v r.UserId).map (fun x => { r with UserId := x })⟩,
    ⟨"username_color", fun v r =>
      (storeString "NameColorReq.username_color" v r.UsernameColor).map (fun x => { r with UsernameColor := x })⟩]

instance : RequestStruct DelChanReq where
  fields := [
    ⟨"channel_id", fun v r =>
      (storeString "DelChanReq.channel_id" v r.ChannelId).map (fun x => { r with ChannelId := x })⟩,
    ⟨"category_name", fun v r =>
      (storeString "DelChanReq.category_name" v r.CategoryName).map (fun x => { r with CategoryName := x })⟩,
    ⟨"server_id", fun v r =>
      (storeString "DelChanReq.server_id" v r.ServerId).map (fun x => { r with ServerId := x })⟩]

instance : RequestStruct CreateChanReq where
  fields := [
    ⟨"name", fun v r =>
      (storeString "CreateChanReq.name" v r.Name).map (fun x => { r with Name := x })⟩,
    ⟨"channel_type", fun v r =>
      (storeString "CreateChanReq.channel_type" v r.ChannelType).map (fun x => { r with ChannelType := x })⟩,
    ⟨"category_name", fun v r =>
      (storeString "CreateChanReq.category_name" v r.CategoryName).map (fun x => { r with CategoryName := x })⟩,
    ⟨"server_id", fun v r =>
      (storeString "CreateChanReq.server_id" v r.ServerId).map (fun x => { r with ServerId := x })⟩]

instance : RequestStruct DPNameReq where
  fields := [
    ⟨"user_id", fun v r =>
      (storeString "DPNameReq.user_id" v r.UserId).map (fun x => { r with UserId := x })⟩,
    ⟨"display_name", fun v r =>
      (storeString "DPNameReq.display_name" v r.DPName).map (fun x => { r with DPName := x })⟩]

instance : RequestStruct UserNameReq where
  fields := [
    ⟨"user_id", fun v r =>
      (storeString "UserNameReq.user_id" v r.UserId).map (fun x => { r with UserId := x })⟩,
    ⟨"username", fun v r =>
      (storeString "UserNameReq.username" v r.Name).map (fun x => { r with Name := x })⟩]

instance : RequestStruct ChangeEmailReq where
  fields := [
    ⟨"user_id", fun v r =>
      (storeString "ChangeEmailReq.user_id" v r.UserId).map (fun x => { r with UserId := x })⟩,
    ⟨"email", fun v r =>
      (storeString "ChangeEmailReq.email" v r.Email).map (fun x => { r with Email := x })⟩]

instance : RequestStruct AvatarChangeRequest where
  fields := [
    ⟨"fileData", fun v r =>
      (storeBytes "AvatarChangeRequest.fileData" v r.FileData).map (fun x => { r with FileData := x })⟩,
    ⟨"fileName", fun v r =>
      (storeString "AvatarChangeRequest.fileName" v r.FileName).map (fun x => { r with FileName := x })⟩,
    ⟨"cropY", fun v r =>
      (storeInt "AvatarChangeRequest.cropY" v r.CropY).map (fun x => { r with CropY := x })⟩,
    ⟨"cropX", fun v r =>
      (storeInt "AvatarChangeRequest.cropX" v r.CropX).map (fun x => { r with CropX := x })⟩,
    ⟨"cropWidth", fun v r =>
      (storeInt "AvatarChangeRequest.cropWidth" v r.CropWidth).map (fun x => { r with CropWidth := x })⟩,
    ⟨"cropHeight", fun v r =>
      (storeInt "AvatarChangeRequest.cropHeight" v r.CropHeight).map (fun x => { r with CropHeight := x })⟩,
    ⟨"oldAvatar", fun v r =>
      (storeString "AvatarChangeRequest.oldAvatar" v r.OldAvatar).map (fun x => { r with OldAvatar := x })⟩,
    ⟨"serverId", fun v r =>
      (storeString "AvatarChangeRequest.serverId" v r.ServerID).map (fun x => { r with ServerID := x })⟩,
    ⟨"friends", fun v r =>
      (storeStrings "AvatarChangeRequest.friends" v).map (fun x => { r with Friends := x })⟩]

/-! ## The endpoint wrappers

Every wrapper is a function from the state before the call to what the call returns
and the state after it. -/

/-- What a call of a wrapper does: it returns a `map[string]interface{}` (`none` is
the nil map) or it panics. -/
inductive Outcome where
  | ret (result : Option (List (String × GoValue)))
  | panic (msg : String)
  deriving Inhabited

/-- The panic of a failed type assertion `.(map[string]interface{})`. -/
def notAMap : String :=
  "interface conversion: interface \x7b\x7d is not map[string]interface \x7b\x7d"

/-- The panic of a failed type assertion `.(string)`. -/
def notAString : String :=
  "interface conversion: interface \x7b\x7d is not string"

/-- The map literal with the keys `status` and `message`. -/
def statusMessage (status : Int) (message : String) : Option (List (String × GoValue)) :=
  some [("status", .int status), ("message", .string message)]

/-- The map returned when the envelope does not decode. -/
def invalidRequest (message : String) : Option (List (String × GoValue)) :=
  statusMessage 400 message

/-- The end of the later wrappers: a `Decode` error is reported as a map with the key
`error`, otherwise the decoded map is returned. -/
def decodeChecked (body : Except String GoValue) : Option (List (String × GoValue)) :=
  match decodeMap body with
  | (_, some _) => some [("error", .string "Failed to parse response")]
  | (result, none) => result

/-- The assignment `m[key] = value` on a map. -/
def mapAssign {α : Type} (m : List (String × α)) (key : String) (value : α) :
    List (String × α) :=
  m.filter (fun e => e.1 != key) ++ [(key, value)]

/-- `http.Post`: a POST request with the given content type, sent with the default
client. -/
def httpPost (env : Env) (url contentType : String) (body : List UInt8) (w : World) :
    Except String Response × World :=
  match NewRequest env "POST" url body with
  | .error e => (.error e, w)
  | .ok req =>
    let req := { req with Header := req.Header.Set "Content-Type" contentType }
    match env.Do req with
    | .error e => (.error e, { w with calls := w.calls ++ [req] })
    | .ok resp => (.ok resp, { w with calls := w.calls ++ [req] })

/-- `App.SignIn` (line 125). The first cookie, when there is one, is stored in
`SessionId` before the body is looked at; the two type assertions of lines 161 and
162 panic on a value of another type. -/
def SignIn (env : Env) (request : String) (w : World) : Outcome × World :=
  match env.Unmarshal SigninRequest request with
  | .error _ => (.ret (invalidRequest "Invalid request format"), w)
  | .ok _ =>
    match httpPost env "https://localhost:8080/auth/signin" "application/json"
        (bytesOf request) w with
    | (.error _, w) =>
      (.ret (some [("status", .int 500), ("name", .string "unexpected"),
        ("message", .string "Please check your login information and try again.")]), w)
    | (.ok response, w) =>
      let w := match response.Cookies with
        | cookie :: _ => { w with SessionId := cookie.Value }
        | [] => w
      let result := (decodeMap response.Body).1
      if response.Status != "200 OK" then (.ret result, w)
      else
        match mapIndex result "user" with
        | .map userInfos =>
          match mapIndex (some userInfos) "id" with
          | .string id => (.ret result, { w with UserId := id })
          | _ => (.panic notAString, w)
        | _ => (.panic notAMap, w)

/-- `App.AuthVerify` (line 167). -/
def AuthVerify (env : Env) (w : World) : Outcome × World :=
  match authFetch env "GET" "https://localhost:8080/auth/verify" .none [] w with
  | (.error _, w) => (.ret (statusMessage 500 "Failed to signin"), w)
  | (.ok response, w) =>
    let result := (decodeMap response.Body).1
    match mapIndex result "message" with
    | .string "success" =>
      match mapIndex result "user" with
      | .map userInfos =>
        match mapIndex (some userInfos) "id" with
        | .string id => (.ret result, { w with UserId := id })
        | _ => (.panic notAString, w)
      | _ => (.panic notAMap, w)
    | _ => (.ret result, w)

/-- `App.GetFriends` (line 192). -/
def GetFriends (env : Env) (request : String) (w : World) : Outcome × World :=
  match env.Unmarshal generalRequest request with
  | .error _ => (.ret (invalidRequest "Invalid request format"), w)
  | .ok req =>
    let url := "https://localhost:8080/api/v1/friends/" ++ req.UserID
    match authFetch env "GET" url .none [] w with
    | (.error _, w) => (.ret (statusMessage 500 "Failed to fetch friends"), w)
    | (.ok response, w) => (.ret (decodeMap response.Body).1, w)

/-- `App.GetServers` (line 217). -/
def GetServers (env : Env) (request : String) (w : World) : Outcome × World :=
  match env.Unmarshal generalRequest request with
  | .error _ => (.ret (invalidRequest "Invalid request format"), w)
  | .ok req =>
    let url := "https://localhost:8080/api/v1/servers/" ++ req.UserID
    match authFetch env "GET" url .none [] w with
    | (.error _, w) => (.ret (statusMessage 500 "Failed to fetch servers"), w)
    | (.ok response, w) => (.ret (decodeMap response.Body).1, w)

/-- `App.GetMessages` (line 247). -/
def GetMessages (env : Env) (request : String) (w : World) : Outcome × World :=
  match env.Unmarshal MessagesRequest request with
  | .error _ => (.ret (invalidRequest "Invalid request format"), w)
  | .ok req =>
    let channelUrl := "https://localhost:8080/api/v1/messages/" ++ req.ChannelId
    let friendUrl :=
      "https://localhost:8080/api/v1/messages/" ++ req.ChannelId ++ "/private/" ++ req.UserID
    let fetched :=
      if req.UserID = "" then authFetch env "GET" channelUrl .none [] w
      else authFetch env "GET" friendUrl .none [] w
    match fetched with
    | (.error _, w) => (.ret (statusMessage 500 "Failed to fetch messages"), w)
    | (.ok response, w) => (.ret (decodeMap response.Body).1, w)

/-- `App.GetServer` (line 291). -/
def GetServer (env : Env) (request : String) (w : World) : Outcome × World :=
  match env.Unmarshal ServerRequest request with
  | .error _ => (.ret (invalidRequest "Invalid request format"), w)
  | .ok req =>
    let url := "https://localhost:8080/api/v1/server/" ++ req.UserId ++ "/" ++ req.ServerId
    match authFetch env "GET" url .none [] w with
    | (.error _, w) => (.ret (statusMessage 500 "Failed to fetch messages"), w)
    | (.ok response, w) => (.ret (decodeMap response.Body).1, w)

/-- `App.IndicateTyping` (line 325). -/
def IndicateTyping (env : Env) (request : String) (w : World) : Outcome × World :=
  match env.Unmarshal TypingRequest request with
  | .error _ => (.ret (invalidRequest "Invalid request format"), w)
  | .ok _ =>
    let url := "https://localhost:8080/api/v1/channels/typing"
    match authFetch env "POST" url .none [] w with
    | (.error _, w) => (.ret (statusMessage 500 "Failed to indicate typing"), w)
    | (.ok response, w) => (.ret (decodeMap response.Body).1, w)

/-- `App.SyncNotifications` (line 357). -/
def SyncNotifications (env : Env) (request : String) (w : World) : Outcome × World :=
  match env.Unmarshal SyncNotifRequest request with
  | .error _ => (.ret (invalidRequest "Invalid request format"), w)
  | .ok req =>
    let url := "https://localhost:8080/api/v1/notifications/message_update"
    match authFetch env "POST" url (.value req.toValue) [] w with
    | (.error _, w) => (.ret (statusMessage 500 "Failed to sync notifications"), w)
    | (.ok response, w) => (.ret (decodeMap response.Body).1, w)

/-- `App.GetNotifications` (line 384). -/
def GetNotifications (env : Env) (request : String) (w : World) : Outcome × World :=
  match env.Unmarshal generalRequest request with
  | .error _ => (.ret (invalidRequest "Invalid request format"), w)
  | .ok req =>
    let url := "https://localhost:8080/api/v1/notifications/" ++ req.UserID
    match authFetch env "GET" url .none [] w with
    | (.error _, w) => (.ret (statusMessage 500 "Failed to fetch notifications"), w)
    | (.ok response, w) => (.ret (decodeMap response.Body).1, w)

/-- `App.CreateInvitation` (line 416). -/
def CreateInvitation (env : Env) (request : String) (w : World) : Outcome × World :=
  match env.Unmarshal CreateInviteReq request with
  | .error _ => (.ret (invalidRequest "Invalid request format"), w)
  | .ok _ =>
    let url := "https://localhost:8080/api/v1/invites/create"
    match authFetch env "POST" url .none [] w with
    | (.error _, w) => (.ret (statusMessage 500 "Failed to create invitation"), w)
    | (.ok response, w) => (.ret (decodeMap response.Body).1, w)

/-- `App.GetProfile` (line 443). -/
def GetProfile (env : Env) (request : String) (w : World) : Outcome × World :=
  match env.Unmarshal generalRequest request with
  | .error _ => (.ret (invalidRequest "Invalid request format"), w)
  | .ok req =>
    let url := "https://localhost:8080/api/v1/user/" ++ req.UserID
    match authFetch env "GET" url .none [] w with
    | (.error _, w) => (.ret (statusMessage 500 "Failed to get profile"), w)
    | (.ok response, w) => (.ret (decodeMap response.Body).1, w)

/-- `App.DeleteServer` (line 474). -/
def DeleteServer (env : Env) (request : String) (w : World) : Outcome × World :=
  match env.Unmarshal ServerActionsReq request with
  | .error _ => (.ret (invalidRequest "Invalid request format"), w)
  | .ok req =>
    let url := "https://localhost:8080/api/v1/server/delete"
    match authFetch env "POST" url (.value req.toValue) [] w with
    | (.error _, w) => (.ret (statusMessage 500 "Failed to delete server"), w)
    | (.ok response, w) => (.ret (decodeMap response.Body).1, w)

/-- `App.QuitServer` (line 500). -/
def QuitServer (env : Env) (request : String) (w : World) : Outcome × World :=
  match env.Unmarshal ServerActionsReq request with
  | .error _ => (.ret (invalidRequest "Invalid request format"), w)
  | .ok req =>
    let url := "https://localhost:8080/api/v1/server/leave"
    match authFetch env "POST" url (.value req.toValue) [] w with
    | (.error _, w) => (.ret (statusMessage 500 "Failed to quit server"), w)
    | (.ok response, w) => (.ret (decodeMap response.Body).1, w)

/-- `App.JoinServer` (line 531). -/
def JoinServer (env : Env) (request : String) (w : World) : Outcome × World :=
  match env.Unmarshal JoinServerReq request with
  | .error _ => (.ret (invalidRequest "Invalid request format"), w)
  | .ok req =>
    let url := "https://localhost:8080/api/v1/server/join"
    match authFetch env "POST" url (.value req.toValue) [] w with
    | (.error _, w) => (.ret (statusMessage 500 "Failed to join server"), w)
    | (.ok response, w) => (.ret (decodeMap response.Body).1, w)

/-- `App.CreateServer` (line 562). -/
def CreateServer (env : Env) (request : String) (w : World) : Outcome × World :=
  match env.Unmarshal CreateServerReq request with
  | .error _ => (.ret (invalidRequest "Invalid request format"), w)
  | .ok req =>
    let url := "https://localhost:8080/api/v1/server/create"
    match authFetch env "POST" url (.value req.toValue) [] w with
    | (.error _, w) => (.ret (statusMessage 500 "Failed to create server"), w)
    | (.ok response, w) => (.ret (decodeMap response.Body).1, w)

/-- `App.CreateCategory` (line 593). -/
def CreateCategory (env : Env) (request : String) (w : World) : Outcome × World :=
  match env.Unmarshal CatReq request with
  | .error _ => (.ret (invalidRequest "Invalid request format"), w)
  | .ok req =>
    let url := "https://localhost:8080/api/v1/category/create"
    match authFetch env "POST" url (.value req.toValue) [] w with
    | (.error _, w) => (.ret (statusMessage 500 "Failed to create category"), w)
    | (.ok response, w) => (.ret (decodeMap response.Body).1, w)

/-- `App.DeleteCategory` (line 619). -/
def DeleteCategory (env : Env) (request : String) (w : World) : Outcome × World :=
  match env.Unmarshal CatReq request with
  | .error _ => (.ret (invalidRequest "Invalid request format"), w)
  | .ok req =>
    let url := "https://localhost:8080/api/v1/category/delete"
    match authFetch env "POST" url (.value req.toValue) [] w with
    | (.error _, w) => (.ret (statusMessage 500 "Failed to delete category"), w)
    | (.ok response, w) => (.ret (decodeMap response.Body).1, w)

/-- `App.DeleteFriend` (line 650). -/
def DeleteFriend (env : Env) (request : String) (w : World) : Outcome × World :=
  match env.Unmarshal DelFriendReq request with
  | .error _ => (.ret (invalidRequest "Invalid request format"), w)
  | .ok req =>
    let url := "https://localhost:8080/api/v1/friends/delete"
    match authFetch env "POST" url (.value req.toValue) [] w with
    | (.error _, w) => (.ret (statusMessage 500 "Failed to delete friend"), w)
    | (.ok response, w) => (.ret (decodeMap response.Body).1, w)

/-- `App.AcceptFriend` (line 681). -/
def AcceptFriend (env : Env) (request : String) (w : World) : Outcome × World :=
  match env.Unmarshal FriendReq request with
  | .error _ => (.ret (invalidRequest "Invalid request format"), w)
  | .ok req =>
    let url := "https://localhost:8080/api/v1/friends/accept"
    match authFetch env "POST" url (.value req.toValue) [] w with
    | (.error _, w) => (.ret (statusMessage 500 "Failed to accept friend request"), w)
    | (.ok response, w) => (.ret (decodeMap response.Body).1, w)

/-- `App.RefuseFriend` (line 707). -/
def RefuseFriend (env : Env) (request : String) (w : World) : Outcome × World :=
  match env.Unmarshal FriendReq request with
  | .error _ => (.ret (invalidRequest "Invalid request format"), w)
  | .ok req =>
    let url := "https://localhost:8080/api/v1/friends/refuse"
    match authFetch env "POST" url (.value req.toValue) [] w with
    | (.error _, w) => (.ret (statusMessage 500 "Failed to refuse friend request"), w)
    | (.ok response, w) => (.ret (decodeMap response.Body).1, w)

/-- `App.AddFriend` (line 739). -/
def AddFriend (env : Env) (request : String) (w : World) : Outcome × World :=
  match env.Unmarshal AddFriendReq request with
  | .error _ => (.ret (invalidRequest "Invalid request format"), w)
  | .ok req =>
    let url := "https://localhost:8080/api/v1/friends/add"
    match authFetch env "POST" url (.value req.toValue) [] w with
    | (.error _, w) => (.ret (statusMessage 500 "Failed to refuse friend request"), w)
    | (.ok response, w) => (.ret (decodeMap response.Body).1, w)

/-- The form `App.CreateMessage` writes: the field `body`, then one file part
`file-i` for the attachment of index `i`, then the closing delimiter. -/
def messageForm (env : Env) (jsonData : String) (files : List File) : Writer :=
  let writer := NewWriter env.rand
  let writer := writer.WriteField "body" jsonData
  let writer := files.enum.foldl
    (fun wr ifile => (wr.CreateFormFile ("file-" ++ toString ifile.1) ifile.2.Name).Write
      ifile.2.Data) writer
  writer.Close

/-- `App.CreateMessage` (line 770). It builds and sends its own request and returns
the nil map once the request was sent; `serverId` is not used. -/
def CreateMessage (env : Env) (author : GoValue) (channelId content : String)
    (mentions : Option (List String)) (replyTo : String) (privateMessage : Bool)
    (_serverId : String) (files : List File) (w : World) : Outcome × World :=
  let url := "https://localhost:8080/api/v1/messages/create"
  let jsonBody : GoValue := .map [("author", author), ("channel_id", .string channelId),
    ("content", .string content), ("mentions", stringsValue mentions),
    ("reply", .string replyTo), ("private_message", .bool privateMessage)]
  match marshalValue jsonBody with
  | .error _ => (.ret (statusMessage 400 "Failed to marshal JSON body"), w)
  | .ok jsonData =>
    let writer := messageForm env jsonData files
    match NewRequest env "POST" url writer.buf with
    | .error _ => (.ret (statusMessage 400 "Failed to create request"), w)
    | .ok req =>
      let header := req.Header.Set "Content-Type" writer.FormDataContentType
      let header := header.Set "Authorization" ("Bearer " ++ w.SessionId)
      let header := header.Set "X-User-ID" w.UserId
      let req := { req with Header := header }
      match env.Do req with
      | .error _ =>
        (.ret (statusMessage 500 "Failed to send request"), { w with calls := w.calls ++ [req] })
      | .ok _ => (.ret none, { w with calls := w.calls ++ [req] })

/-- `App.DeleteMessage` (line 858). -/
def DeleteMessage (env : Env) (request : String) (w : World) : Outcome × World :=
  match env.Unmarshal DelMessageReq request with
  | .error _ => (.ret (invalidRequest "Invalid request format"), w)
  | .ok req =>
    let url := "https://localhost:8080/api/v1/messages/delete"
    match authFetch env "DELETE" url (.value req.toValue) [] w with
    | (.error _, w) => (.ret (statusMessage 500 "Failed to delete message"), w)
    | (.ok response, w) => (.ret (decodeMap response.Body).1, w)

/-- `App.EditMessage` (line 893). -/
def EditMessage (env : Env) (request : String) (w : World) : Outcome × World :=
  match env.Unmarshal EditMessageReq request with
  | .error _ => (.ret (invalidRequest "Invalid request format"), w)
  | .ok req =>
    let url := "https://localhost:8080/api/v1/messages/edit"
    match authFetch env "PUT" url (.value req.toValue) [] w with
    | (.error _, w) => (.ret (statusMessage 500 "Failed to refuse friend request"), w)
    | (.ok response, w) => (.ret (decodeMap response.Body).1, w)

/-- The form `App.ChangeBanner` builds (lines 922 to 936). -/
def bannerForm (fileData : List UInt8) (fileName : String)
    (cropY cropX cropWidth cropHeight : Int) (oldBanner : String) : MultipartData :=
  { Fields := [("cropY", toString cropY), ("cropX", toString cropX),
      ("cropWidth", toString cropWidth), ("cropHeight", toString cropHeight),
      ("old_banner", oldBanner)],
    Files := [("banner", { Name := fileName, Data := fileData })] }

/-- `App.ChangeBanner` (line 919). -/
def ChangeBanner (env : Env) (fileData : List UInt8) (fileName : String)
    (cropY cropX cropWidth cropHeight : Int) (oldBanner : String) (w : World) :
    Outcome × World :=
  let url := "https://localhost:8080/api/v1/user/change_banner"
  let body := bannerForm fileData fileName cropY cropX cropWidth cropHeight oldBanner
  match authFetch env "POST" url (.multipart body) [] w with
  | (.error e, w) => (.ret (statusMessage 500 ("Failed to change banner: " ++ e)), w)
  | (.ok response, w) => (.ret (decodeChecked response.Body), w)

/-- The form `App.ChangeAvatar` builds from the decoded request (lines 980 to 1002):
`server_id` is added when it is not empty, `friends` when the list is not empty. -/
def avatarForm (req : AvatarChangeRequest) : MultipartData :=
  let fields := [("cropY", toString req.CropY), ("cropX", toString req.CropX),
    ("cropWidth", toString req.CropWidth), ("cropHeight", toString req.CropHeight),
    ("old_avatar", req.OldAvatar)]
  let fields := if req.ServerID != "" then mapAssign fields "server_id" req.ServerID
    else fields
  let fields :=
    match req.Friends with
    | some (f :: fs) =>
      match marshalValue (stringsValue (some (f :: fs))) with
      | .ok friendsJSON => mapAssign fields "friends" friendsJSON
      | .error _ => mapAssign fields "friends" ""
    | _ => fields
  { Fields := fields, Files := [("avatar", { Name := req.FileName, Data := req.FileData })] }

/-- `App.ChangeAvatar` (line 968). -/
def ChangeAvatar (env : Env) (requestJSON : String) (w : World) : Outcome × World :=
  match env.Unmarshal AvatarChangeRequest requestJSON with
  | .error e => (.ret (invalidRequest ("Invalid request format: " ++ e)), w)
  | .ok req =>
    let url := "https://localhost:8080/api/v1/user/change_avatar"
    let body := avatarForm req
    match authFetch env "POST" url (.multipart body) [] w with
    | (.error e, w) => (.ret (statusMessage 500 ("Failed to change banner: " ++ e)), w)
    | (.ok response, w) => (.ret (decodeChecked response.Body), w)

/-- `App.ChangeNameColor` (line 1027). -/
def ChangeNameColor (env : Env) (requestJSON : String) (w : World) : Outcome × World :=
  match env.Unmarshal NameColorReq requestJSON with
  | .error e => (.ret (invalidRequest ("Invalid request format: " ++ e)), w)
  | .ok req =>
    let url := "https://localhost:8080/api/v1/user/change_name_color"
    match authFetch env "POST" url (.value req.toValue) [] w with
    | (.error e, w) => (.ret (statusMessage 500 ("Failed to change name color: " ++ e)), w)
    | (.ok response, w) => (.ret (decodeChecked response.Body), w)

/-- `App.DeleteChannel` (line 1063). -/
def DeleteChannel (env : Env) (requestJSON : String) (w : World) : Outcome × World :=
  match env.Unmarshal DelChanReq requestJSON with
  | .error e => (.ret (invalidRequest ("Invalid request format: " ++ e)), w)
  | .ok req =>
    let url := "https://localhost:8080/api/v1/channels/delete"
    match authFetch env "POST" url (.value req.toValue) [] w with
    | (.error e, w) => (.ret (statusMessage 500 ("Failed to delete channel: " ++ e)), w)
    | (.ok response, w) => (.ret (decodeChecked response.Body), w)

/-- `App.CreateChannel` (line 1100). -/
def CreateChannel (env : Env) (requestJSON : String) (w : World) : Outcome × World :=
  match env.Unmarshal CreateChanReq requestJSON with
  | .error e => (.ret (invalidRequest ("Invalid request format: " ++ e)), w)
  | .ok req =>
    let url := "https://localhost:8080/api/v1/channels/create"
    match authFetch env "POST" url (.value req.toValue) [] w with
    | (.error e, w) => (.ret (statusMessage 500 ("Failed to create channel: " ++ e)), w)
    | (.ok response, w) => (.ret (decodeChecked response.Body), w)

/-- `App.ChangeDPName` (line 1135). -/
def ChangeDPName (env : Env) (requestJSON : String) (w : World) : Outcome × World :=
  match env.Unmarshal DPNameReq requestJSON with
  | .error e => (.ret (invalidRequest ("Invalid request format: " ++ e)), w)
  | .ok req =>
    let url := "https://localhost:8080/api/v1/user/change_name"
    match authFetch env "POST" url (.value req.toValue) [] w with
    | (.error e, w) => (.ret (statusMessage 500 ("Failed to change dp name: " ++ e)), w)
    | (.ok response, w) => (.ret (decodeChecked response.Body), w)

/-- `App.ChangeUsername` (line 1170). -/
def ChangeUsername (env : Env) (requestJSON : String) (w : World) : Outcome × World :=
  match env.Unmarshal UserNameReq requestJSON with
  | .error e => (.ret (invalidRequest ("Invalid request format: " ++ e)), w)
  | .ok req =>
    let url := "https://localhost:8080/api/v1/user/change_username"
    match authFetch env "POST" url (.value req.toValue) [] w with
    | (.error e, w) => (.ret (statusMessage 500 ("Failed to change username: " ++ e)), w)
    | (.ok response, w) => (.ret (decodeChecked response.Body), w)

/-- `App.ChangeEmail` (line 1205). -/
def ChangeEmail (env : Env) (requestJSON : String) (w : World) : Outcome × World :=
  match env.Unmarshal ChangeEmailReq requestJSON with
  | .error e => (.ret (invalidRequest ("Invalid request format: " ++ e)), w)
  | .ok req =>
    let url := "https://localhost:8080/api/v1/user/change_email"
    match authFetch env "POST" url (.value req.toValue) [] w with
    | (.error e, w) => (.ret (statusMessage 500 ("Failed to change email: " ++ e)), w)
    | (.ok response, w) => (.ret (decodeChecked response.Body), w)

/-- `App.LogoutHudori` (line 1235): the two session variables are cleared after the
request was sent and the response body decoded. -/
def LogoutHudori (env : Env) (w : World) : Outcome × World :=
  let url := "https://localhost:8080/api/v1/user/logout"
  match authFetch env "POST" url .none [] w with
  | (.error e, w) => (.ret (statusMessage 500 ("Failed to logout: " ++ e)), w)
  | (.ok response, w) =>
    match decodeMap response.Body with
    | (_, some _) => (.ret (some [("error", .string "Failed to parse response")]), w)
    | (result, none) => (.ret result, { w with SessionId := "", UserId := "" })

/-- `App.IsAuthenticated` (line 1259). -/
def IsAuthenticated (w : World) : Outcome × World :=
  if w.SessionId = "" && w.UserId = "" then (.ret (some [("status", .string "401")]), w)
  else (.ret (some [("status", .string "200")]), w)

/-- `App.GenerateRoomToken` (line 1271); the format string of line 1272 ends in a
closing brace. -/
def GenerateRoomToken (env : Env) (channelId userId : String) (w : World) :
    Outcome × World :=
  let url := "https://localhost:8080/api/v1/rtc/" ++ channelId ++ "/" ++ userId ++ "\x7d"
  match authFetch env "POST" url .none [] w with
  | (.error e, w) => (.ret (statusMessage 500 ("Failed to create room token: " ++ e)), w)
  | (.ok response, w) => (.ret (decodeChecked response.Body), w)

/-! ## Definitions used to state the properties -/

/-- The value of the last override, in the order given, whose key has the canonical
form `key`. -/
def lastOverride (key : String) : List (String × String) → Option String
  | [] => none
  | kv :: rest =>
    match lastOverride key rest with
    | some v => some v
    | none => if CanonicalMIMEHeaderKey kv.1 = key then some kv.2 else none

/-- One part of a form: its header lines and its content. -/
abbrev FormPart := List (String × String) × List UInt8

/-- The part `WriteField` writes for a field. -/
def fieldPart (kv : String × String) : FormPart :=
  ([("Content-Disposition", "form-data; name=\"" ++ escapeQuotes kv.1 ++ "\"")], bytesOf kv.2)

/-- The part `CreateFormFile` and the write that follows produce for a file. -/
def filePart (kf : String × File) : FormPart :=
  ([("Content-Disposition", "form-data; name=\"" ++ escapeQuotes kf.1 ++ "\"; filename=\"" ++
      escapeQuotes kf.2.Name ++ "\""),
    ("Content-Type", "application/octet-stream")], kf.2.Data)

/-- The bytes of a sequence of parts delimited by `boundary`; `started` tells whether
a part precedes them. -/
def partsBytes (boundary : String) : Bool → List FormPart → List UInt8
  | _, [] => []
  | started, p :: ps =>
    bytesOf ((if started then "\r\n--" else "--") ++ boundary ++ "\r\n" ++
      String.join (p.1.map (fun kv => kv.1 ++ ": " ++ kv.2 ++ "\r\n")) ++ "\r\n") ++ p.2 ++
    partsBytes boundary true ps

/-- A multipart form body with the given boundary: the parts, then the closing
delimiter. -/
def formBody (boundary : String) (parts : List FormPart) : List UInt8 :=
  partsBytes boundary false parts ++ bytesOf ("\r\n--" ++ boundary ++ "--\r\n")

/-- Both session variables are empty or both are non-empty. -/
def paired (w : World) : Prop :=
  (w.SessionId = "" ∧ w.UserId = "") ∨ (w.SessionId ≠ "" ∧ w.UserId ≠ "")

/-- The error of `json.Unmarshal` into a value of type `α`, if any. -/
def unmarshalError (env : Env) (α : Type) [RequestStruct α] (request : String) :
    Option String :=
  match env.Unmarshal α request with
  | .error e => some e
  | .ok _ => none

/-- The wrappers that take a JSON string envelope. -/
inductive EnvelopeWrapper where
  | signIn
  | getFriends
  | getServers
  | getMessages
  | getServer
  | indicateTyping
  | syncNotifications
  | getNotifications
  | createInvitation
  | getProfile
  | deleteServer
  | quitServer
  | joinServer
  | createServer
  | createCategory
  | deleteCategory
  | deleteFriend
  | acceptFriend
  | refuseFriend
  | addFriend
  | deleteMessage
  | editMessage
  | changeAvatar
  | changeNameColor
  | deleteChannel
  | createChannel
  | changeDPName
  | changeUsername
  | changeEmail
  deriving DecidableEq, Repr

/-- The wrapper function of each name. -/
def EnvelopeWrapper.run : EnvelopeWrapper → Env → String → World → Outcome × World
  | .signIn => DesktopHud.SignIn
  | .getFriends => DesktopHud.GetFriends
  | .getServers => DesktopHud.GetServers
  | .getMessages => DesktopHud.GetMessages
  | .getServer => DesktopHud.GetServer
  | .indicateTyping => DesktopHud.IndicateTyping
  | .syncNotifications => DesktopHud.SyncNotifications
  | .getNotifications => DesktopHud.GetNotifications
  | .createInvitation => DesktopHud.CreateInvitation
  | .getProfile => DesktopHud.GetProfile
  | .deleteServer => DesktopHud.DeleteServer
  | .quitServer => DesktopHud.QuitServer
  | .joinServer => DesktopHud.JoinServer
  | .createServer => DesktopHud.CreateServer
  | .createCategory => DesktopHud.CreateCategory
  | .deleteCategory => DesktopHud.DeleteCategory
  | .deleteFriend => DesktopHud.DeleteFriend
  | .acceptFriend => DesktopHud.AcceptFriend
  | .refuseFriend => DesktopHud.RefuseFriend
  | .addFriend => DesktopHud.AddFriend
  | .deleteMessage => DesktopHud.DeleteMessage
  | .editMessage => DesktopHud.EditMessage
  | .changeAvatar => DesktopHud.ChangeAvatar
  | .changeNameColor => DesktopHud.ChangeNameColor
  | .deleteChannel => DesktopHud.DeleteChannel
  | .createChannel => DesktopHud.CreateChannel
  | .changeDPName => DesktopHud.ChangeDPName
  | .changeUsername => DesktopHud.ChangeUsername
  | .changeEmail => DesktopHud.ChangeEmail

/-- The error of decoding the envelope into the request structure of the wrapper. -/
def EnvelopeWrapper.decodeError (wr : EnvelopeWrapper) (env : Env) (request : String) :
    Option String :=
  match wr with
  | .signIn => unmarshalError env SigninRequest request
  | .getFriends => unmarshalError env generalRequest request
  | .getServers => unmarshalError env generalRequest request
  | .getMessages => unmarshalError env MessagesRequest request
  | .getServer => unmarshalError env ServerRequest request
  | .indicateTyping => unmarshalError env TypingRequest request
  | .syncNotifications => unmarshalError env SyncNotifRequest request
  | .getNotifications => unmarshalError env generalRequest request
  | .createInvitation => unmarshalError env CreateInviteReq request
  | .getProfile => unmarshalError env generalRequest request
  | .deleteServer => unmarshalError env ServerActionsReq request
  | .quitServer => unmarshalError env ServerActionsReq request
  | .joinServer => unmarshalError env JoinServerReq request
  | .createServer => unmarshalError env CreateServerReq request
  | .createCategory => unmarshalError env CatReq request
  | .deleteCategory => unmarshalError env CatReq request
  | .deleteFriend => unmarshalError env DelFriendReq request
  | .acceptFriend => unmarshalError env FriendReq request
  | .refuseFriend => unmarshalError env FriendReq request
  | .addFriend => unmarshalError env AddFriendReq request
  | .deleteMessage => unmarshalError env DelMessageReq request
  | .editMessage => unmarshalError env EditMessageReq request
  | .changeAvatar => unmarshalError env AvatarChangeRequest request
  | .changeNameColor => unmarshalError env NameColorReq request
  | .deleteChannel => unmarshalError env DelChanReq request
  | .createChannel => unmarshalError env CreateChanReq request
  | .changeDPName => unmarshalError env DPNameReq request
  | .changeUsername => unmarshalError env UserNameReq request
  | .changeEmail => unmarshalError env ChangeEmailReq request

/-- The wrappers whose message for an envelope that does not decode ends with the
text of the decoder's error. -/
def EnvelopeWrapper.appendsError : EnvelopeWrapper → Bool
  | .changeAvatar => true
  | .changeNameColor => true
  | .deleteChannel => true
  | .createChannel => true
  | .changeDPName => true
  | .changeUsername => true
  | .changeEmail => true
  | _ => false

/-- The three calls that write the session variables. -/
inductive SessionCall where
  | signIn (request : String)
  | authVerify
  | logoutHudori

/-- The wrapper function of each call. -/
def SessionCall.run : SessionCall → Env → World → Outcome × World
  | .signIn request, env, w => SignIn env request w
  | .authVerify, env, w => AuthVerify env w
  | .logoutHudori, env, w => LogoutHudori env w

/-- The user id of a response body: `result["user"]["id"]` when `user` is an object
and `id` a string. -/
def userIdOf (body : Except String GoValue) : Option String :=
  match mapIndex (decodeMap body).1 "user" with
  | .map userInfos =>
    match mapIndex (some userInfos) "id" with
    | .string id => some id
    | _ => none
  | _ => none

/-- The responses on which a sign-in changes nothing or sets both variables to
non-empty values: either the status is not `200 OK` and there is no cookie, or the
status is `200 OK`, the first cookie has a non-empty value and the body has a user
object with a non-empty string id. -/
def signInWhole (resp : Response) : Prop :=
  (resp.Status ≠ "200 OK" ∧ resp.Cookies = []) ∨
  (resp.Status = "200 OK" ∧ (∃ c cs, resp.Cookies = c :: cs ∧ c.Value ≠ "") ∧
    ∃ id, userIdOf resp.Body = some id ∧ id ≠ "")

/-- The responses on which a verification changes nothing or refreshes the user id of
a non-empty session with a non-empty id. -/
def verifyWhole (w : World) (resp : Response) : Prop :=
  mapIndex (decodeMap resp.Body).1 "message" ≠ .string "success" ∨
  (w.SessionId ≠ "" ∧ ∃ id, userIdOf resp.Body = some id ∧ id ≠ "")

/-- The condition under which a call keeps the pairing of the session variables:
always for `LogoutHudori`; for `SignIn` (when the envelope decodes) and `AuthVerify`,
whenever a response arrives it is one of the responses above. -/
def SessionCall.whole : SessionCall → Env → World → Prop
  | .signIn request, env, w =>
    unmarshalError env SigninRequest request = none →
      ∀ resp w1, httpPost env "https://localhost:8080/auth/signin" "application/json"
        (bytesOf request) w = (.ok resp, w1) → signInWhole resp
  | .authVerify, env, w =>
    ∀ resp w1, authFetch env "GET" "https://localhost:8080/auth/verify" .none [] w =
      (.ok resp, w1) → verifyWhole w resp
  | .logoutHudori, _, _ => True

/-- The method, URL and payload a wrapper with an envelope passes to `authFetch`;
`none` when the envelope does not decode, and for `SignIn`, which posts with
`http.Post`. -/
def EnvelopeWrapper.fetch (wr : EnvelopeWrapper) (env : Env) (request : String) :
    Option (String × String × Payload) :=
  match wr with
  | .signIn => none
  | .getFriends =>
    match env.Unmarshal generalRequest request with
    | .error _ => none
    | .ok req =>
      some ("GET", "https://localhost:8080/api/v1/friends/" ++ req.UserID,
        .none)
  | .getServers =>
    match env.Unmarshal generalRequest request with
    | .error _ => none
    | .ok req =>
      some ("GET", "https://localhost:8080/api/v1/servers/" ++ req.UserID,
        .none)
  | .getMessages =>
    match env.Unmarshal MessagesRequest request with
    | .error _ => none
    | .ok req =>
      some ("GET", if req.UserID = "" then "https://localhost:8080/api/v1/messages/" ++ req.ChannelId
        else "https://localhost:8080/api/v1/messages/" ++ req.ChannelId ++ "/private/" ++ req.UserID,
        .none)
  | .getServer =>
    match env.Unmarshal ServerRequest request with
    | .error _ => none
    | .ok req =>
      some ("GET", "https://localhost:8080/api/v1/server/" ++ req.UserId ++ "/" ++ req.ServerId,
        .none)
  | .indicateTyping =>
    match env.Unmarshal TypingRequest request with
    | .error _ => none
    | .ok _ =>
      some ("POST", "https://localhost:8080/api/v1/channels/typing",
        .none)
  | .syncNotifications =>
    match env.Unmarshal SyncNotifRequest request with
    | .error _ => none
    | .ok req =>
      some ("POST", "https://localhost:8080/api/v1/notifications/message_update",
        .value req.toValue)
  | .getNotifications =>
    match env.Unmarshal generalRequest request with
    | .error _ => none
    | .ok req =>
      some ("GET", "https://localhost:8080/api/v1/notifications/" ++ req.UserID,
        .none)
  | .createInvitation =>
    match env.Unmarshal CreateInviteReq request with
    | .error _ => none
    | .ok _ =>
      some ("POST", "https://localhost:8080/api/v1/invites/create",
        .none)
  | .getProfile =>
    match env.Unmarshal generalRequest request with
    | .error _ => none
    | .ok req =>
      some ("GET", "https://localhost:8080/api/v1/user/" ++ req.UserID,
        .none)
  | .deleteServer =>
    match env.Unmarshal ServerActionsReq request with
    | .error _ => none
    | .ok req =>
      some ("POST", "https://localhost:8080/api/v1/server/delete",
        .value req.toValue)
  | .quitServer =>
    match env.Unmarshal ServerActionsReq request with
    | .error _ => none
    | .ok req =>
      some ("POST", "https://localhost:8080/api/v1/server/leave",
        .value req.toValue)
  | .joinServer =>
    match env.Unmarshal JoinServerReq request with
    | .error _ => none
    | .ok req =>
      some ("POST", "https://localhost:8080/api/v1/server/join",
        .value req.toValue)
  | .createServer =>
    match env.Unmarshal CreateServerReq request with
    | .error _ => none
    | .ok req =>
      some ("POST", "https://localhost:8080/api/v1/server/create",
        .value req.toValue)
  | .createCategory =>
    match env.Unmarshal CatReq request with
    | .error _ => none
    | .ok req =>
      some ("POST", "https://localhost:8080/api/v1/category/create",
        .value req.toValue)
  | .deleteCategory =>
    match env.Unmarshal CatReq request with
    | .error _ => none
    | .ok req =>
      some ("POST", "https://localhost:8080/api/v1/category/delete",
        .value req.toValue)
  | .deleteFriend =>
    match env.Unmarshal DelFriendReq request with
    | .error _ => none
    | .ok req =>
      some ("POST", "https://localhost:8080/api/v1/friends/delete",
        .value req.toValue)
  | .acceptFriend =>
    match env.Unmarshal FriendReq request with
    | .error _ => none
    | .ok req =>
      some ("POST", "https://localhost:8080/api/v1/friends/accept",
        .value req.toValue)
  | .refuseFriend =>
    match env.Unmarshal FriendReq request with
    | .error _ => none
    | .ok req =>
      some ("POST", "https://localhost:8080/api/v1/friends/refuse",
        .value req.toValue)
  | .addFriend =>
    match env.Unmarshal AddFriendReq request with
    | .error _ => none
    | .ok req =>
      some ("POST", "https://localhost:8080/api/v1/friends/add",
        .value req.toValue)
  | .deleteMessage =>
    match env.Unmarshal DelMessageReq request with
    | .error _ => none
    | .ok req =>
      some ("DELETE", "https://localhost:8080/api/v1/messages/delete",
        .value req.toValue)
  | .editMessage =>
    match env.Unmarshal EditMessageReq request with
    | .error _ => none
    | .ok req =>
      some ("PUT", "https://localhost:8080/api/v1/messages/edit",
        .value req.toValue)
  | .changeAvatar =>
    match env.Unmarshal AvatarChangeRequest request with
    | .error _ => none
    | .ok req =>
      some ("POST", "https://localhost:8080/api/v1/user/change_avatar",
        .multipart (avatarForm req))
  | .changeNameColor =>
    match env.Unmarshal NameColorReq request with
    | .error _ => none
    | .ok req =>
      some ("POST", "https://localhost:8080/api/v1/user/change_name_color",
        .value req.toValue)
  | .deleteChannel =>
    match env.Unmarshal DelChanReq request with
    | .error _ => none
    | .ok req =>
      some ("POST", "https://localhost:8080/api/v1/channels/delete",
        .value req.toValue)
  | .createChannel =>
    match env.Unmarshal CreateChanReq request with
    | .error _ => none
    | .ok req =>
      some ("POST", "https://localhost:8080/api/v1/channels/create",
        .value req.toValue)
  | .changeDPName =>
    match env.Unmarshal DPNameReq request with
    | .error _ => none
    | .ok req =>
      some ("POST", "https://localhost:8080/api/v1/user/change_name",
        .value req.toValue)
  | .changeUsername =>
    match env.Unmarshal UserNameReq request with
    | .error _ => none
    | .ok req =>
      some ("POST", "https://localhost:8080/api/v1/user/change_username",
        .value req.toValue)
  | .changeEmail =>
    match env.Unmarshal ChangeEmailReq request with
    | .error _ => none
    | .ok req =>
      some ("POST", "https://localhost:8080/api/v1/user/change_email",
        .value req.toValue)

/-- A call of a wrapper that goes through `authFetch`, with its arguments. -/
inductive FetchCall where
  | envelope (wr : EnvelopeWrapper) (request : String)
  | authVerify
  | changeBanner (fileData : List UInt8) (fileName : String)
      (cropY cropX cropWidth cropHeight : Int) (oldBanner : String)
  | logoutHudori
  | generateRoomToken (channelId userId : String)

/-- The wrapper function of each call. -/
def FetchCall.run : FetchCall → Env → World → Outcome × World
  | .envelope wr request, env, w => wr.run env request w
  | .authVerify, env, w => AuthVerify env w
  | .changeBanner fileData fileName cropY cropX cropWidth cropHeight oldBanner, env, w =>
    ChangeBanner env fileData fileName cropY cropX cropWidth cropHeight oldBanner w
  | .logoutHudori, env, w => LogoutHudori env w
  | .generateRoomToken channelId userId, env, w => GenerateRoomToken env channelId userId w

/-- The method, URL and payload of the `authFetch` call a wrapper makes, if it makes
one. -/
def FetchCall.fetch : FetchCall → Env → Option (String × String × Payload)
  | .envelope wr request, env => wr.fetch env request
  | .authVerify, _ => some ("GET", "https://localhost:8080/auth/verify", .none)
  | .changeBanner fileData fileName cropY cropX cropWidth cropHeight oldBanner, _ =>
    some ("POST", "https://localhost:8080/api/v1/user/change_banner",
      .multipart (bannerForm fileData fileName cropY cropX cropWidth cropHeight oldBanner))
  | .logoutHudori, _ => some ("POST", "https://localhost:8080/api/v1/user/logout", .none)
  | .generateRoomToken channelId userId, _ =>
    some ("POST", "https://localhost:8080/api/v1/rtc/" ++ channelId ++ "/" ++ userId ++ "\x7d", .none)

/-- The part of `messageForm` sent for the attachment of index `i`. -/
def attachmentPart (ifile : Nat × File) : FormPart :=
  filePart ("file-" ++ toString ifile.1, ifile.2)

/-- The map `App.CreateMessage` marshals into the field `body`. -/
def messageBody (author : GoValue) (channelId content : String)
    (mentions : Option (List String)) (replyTo : String) (privateMessage : Bool) : GoValue :=
  .map [("author", author), ("channel_id", .string channelId),
    ("content", .string content), ("mentions", stringsValue mentions),
    ("reply", .string replyTo), ("private_message", .bool privateMessage)]

/-- The request `App.CreateMessage` hands to the client for a marshalled `body`. -/
def messageRequest (env : Env) (w : World) (jsonData : String) (files : List File) :
    Request :=
  { Method := "POST", URL := "https://localhost:8080/api/v1/messages/create",
    Header := ((Header.Set [] "Content-Type"
      ("multipart/form-data; boundary=" ++ randomBoundary env.rand)).Set "Authorization"
        ("Bearer " ++ w.SessionId)).Set "X-User-ID" w.UserId,
    Body := formBody (randomBoundary env.rand)
      (fieldPart ("body", jsonData) :: files.enum.map attachmentPart) }

/-! ## `mime/multipart`, `mime`, `net/textproto`: reading a form back

What `http.Request.ParseMultipartForm` does with a request: `mime.ParseMediaType` on
the `Content-Type`, `multipart.NewReader` with the `boundary` parameter, and
`Reader.ReadForm`. Go strings and byte slices are lists of bytes. The buffered
reader is the list of the bytes not yet read, so a scan sees all of them at once.

Kept from the Go code: the limit of 1000 parts of `ReadForm`. Left out: the limits
on memory and on the size and number of header lines (`maxMemory` is taken as large
as needed), the parameters of RFC 2231 (a key with a star is read and then dropped),
white space outside ASCII, and `Content-Transfer-Encoding: quoted-printable`. The
form writer produces none of these. File names are cut with the rules of
`filepath.Base` for slash-separated paths. -/

/-- The line end of the format, CR LF. -/
def crlf : List UInt8 := [13, 10]

/-- `bytes.Index` as a cut: the bytes before and after the first occurrence of
`pat`. -/
def splitAtFirst (pat : List UInt8) : List UInt8 → Option (List UInt8 × List UInt8)
  | [] => if pat.isEmpty then some ([], []) else none
  | x :: xs =>
    if pat.isPrefixOf (x :: xs) then some ([], (x :: xs).drop pat.length)
    else (splitAtFirst pat xs).map (fun r => (x :: r.1, r.2))

/-- An error of the reader: `io.EOF`, or any other error with its text. -/
inductive ReadError where
  | EOF
  | failed (msg : String)
  deriving DecidableEq, Repr

/-- `bufio.Reader.ReadSlice` with the delimiter LF: the bytes up to and including
the first LF and the bytes after it; `none` when no LF is left (the Go call then
returns what is left together with `io.EOF`). -/
def readSlice (buf : List UInt8) : Option (List UInt8 × List UInt8) :=
  (splitAtFirst [10] buf).map (fun r => (r.1 ++ [10], r.2))

/-- `skipLWSPChar`: leading spaces and tabs dropped. -/
def skipLWSPChar : List UInt8 → List UInt8
  | [] => []
  | b :: rest => if b = 32 ∨ b = 9 then skipLWSPChar rest else b :: rest

/-- `trim` of `net/textproto`: spaces and tabs dropped at both ends. -/
def trim (s : List UInt8) : List UInt8 :=
  (skipLWSPChar (skipLWSPChar s).reverse).reverse

/-- `bufio.Reader.ReadLine` as `readLineSlice` uses it: the next line without its
line end (LF, or CR LF) and the bytes after it; what is left without an LF is the
last line; `none` (`io.EOF`) when nothing is left. -/
def readLineSlice (buf : List UInt8) : Option (List UInt8 × List UInt8) :=
  match buf with
  | [] => none
  | _ :: _ =>
    match splitAtFirst [10] buf with
    | none => some (buf, [])
    | some (line, rest) =>
      some (if line.getLast? = some 13 then line.dropLast else line, rest)

/-- The loop of `readContinuedLineSlice`: while the next line starts with a space or
a tab, its leading white space is skipped and the trimmed line is added after one
space. Returns the whole line and the bytes after it. -/
def readContinuation : Nat → List UInt8 → List UInt8 → List UInt8 × List UInt8
  | 0, line, buf => (line, buf)
  | fuel + 1, line, buf =>
    match buf with
    | [] => (line, buf)
    | c :: _ =>
      if c = 32 ∨ c = 9 then
        match readLineSlice (skipLWSPChar buf) with
        | none => (line ++ [32], skipLWSPChar buf)
        | some (next, rest) => readContinuation fuel (line ++ [32] ++ trim next) rest
      else (line, buf)

/-- `validHeaderFieldByte` of `net/textproto` on a byte: a letter, a digit, or one
of the characters of a token. -/
def validFieldByte (c : UInt8) : Bool :=
  (48 ≤ c && c ≤ 57) || (65 ≤ c && c ≤ 90) || (97 ≤ c && c ≤ 122) ||
    c ∈ [33, 35, 36, 37, 38, 39, 42, 43, 45, 46, 94, 95, 96, 124, 126]

/-- `validHeaderValueByte`: a printable ASCII byte, a space, a tab, or a byte from
`0x80` on. -/
def validHeaderValueByte (c : UInt8) : Bool :=
  (33 ≤ c && c ≤ 126) || c = 32 || c = 9 || 128 ≤ c

/-- The second loop of `canonicalMIMEHeaderKey` on bytes: upper case at the start
and after each dash, lower case elsewhere. -/
def canonBytes : Bool → List UInt8 → List UInt8
  | _, [] => []
  | upper, c :: cs =>
    let c1 := if upper && (97 ≤ c && c ≤ 122) then c - 32
              else if !upper && (65 ≤ c && c ≤ 90) then c + 32 else c
    c1 :: canonBytes (c1 == 45) cs

/-- `canonicalMIMEHeaderKey` on the bytes of a header line before the colon: `none`
for a key with a byte that is neither a token byte nor a space; a key with a space
is returned unchanged; any other key is canonicalised. -/
def canonicalMIMEHeaderKey (a : List UInt8) : Option (List UInt8) :=
  if a.all (fun c => validFieldByte c || c = 32) then
    if a.any (fun c => !validFieldByte c) then some a else some (canonBytes true a)
  else none

/-- A map from byte strings to slices, as the list of its entries in the order in
which the keys were first stored. -/
abbrev SliceMap (β : Type) := List (List UInt8 × List β)

/-- The statement `m[key] = append(m[key], v)`. -/
def SliceMap.append {β : Type} : SliceMap β → List UInt8 → β → SliceMap β
  | [], key, v => [(key, [v])]
  | (k, vs) :: rest, key, v =>
    if k = key then (k, vs ++ [v]) :: rest else (k, vs) :: SliceMap.append rest key v

/-- `textproto.MIMEHeader`. -/
abbrev MIMEHeader := SliceMap (List UInt8)

/-- `MIMEHeader.Get` for a key given in canonical form: the first value stored under
the key, or the empty string. -/
def MIMEHeader.Get (h : MIMEHeader) (key : List UInt8) : List UInt8 :=
  match List.lookup key h with
  | some (v :: _) => v
  | _ => []

/-- The loop of `readMIMEHeader`: header lines are read up to the empty line. A
line must hold a colon, a key that `canonicalMIMEHeaderKey` accepts and a value of
valid bytes; the value is stored without its leading spaces and tabs. Returns the
header and the bytes after the empty line; the end of the input before the empty
line is `io.EOF`. -/
def readMIMEHeaderLoop : Nat → MIMEHeader → List UInt8 →
    Except ReadError (MIMEHeader × List UInt8)
  | 0, _, _ => .error (.failed "message too large")
  | fuel + 1, m, buf =>
    match readLineSlice buf with
    | none => .error .EOF
    | some (first, rest) =>
      if first.isEmpty then .ok (m, rest)
      else if !(first.contains 58) then
        .error (.failed "malformed MIME header: missing colon")
      else
        let kvrest := readContinuation rest.length (trim first) rest
        match splitAtFirst [58] kvrest.1 with
        | none => .error (.failed "malformed MIME header line")
        | some (k, v) =>
          match canonicalMIMEHeaderKey k with
          | none => .error (.failed "malformed MIME header line")
          | some key =>
            if !(v.all validHeaderValueByte) then
              .error (.failed "malformed MIME header line")
            else if key.isEmpty then readMIMEHeaderLoop fuel m kvrest.2
            else readMIMEHeaderLoop fuel (SliceMap.append m key (skipLWSPChar v)) kvrest.2

/-- `readMIMEHeader`: the first line must not start with a space or a tab. -/
def readMIMEHeader (buf : List UInt8) : Except ReadError (MIMEHeader × List UInt8) :=
  match buf with
  | c :: _ =>
    if c = 32 ∨ c = 9 then .error (.failed "malformed MIME header initial line")
    else readMIMEHeaderLoop (buf.length + 1) [] buf
  | [] => readMIMEHeaderLoop 1 [] buf

/-- A `multipart.Reader`: the bytes not yet read, the line end in use (`nl`), the
two dashes and the boundary (`dashBoundary`), and the number of parts read. -/
structure Reader where
  buf : List UInt8
  nl : List UInt8
  dashBoundary : List UInt8
  partsRead : Nat
  deriving DecidableEq, Repr

/-- `multipart.NewReader`. -/
def NewReader (body boundary : List UInt8) : Reader :=
  { buf := body, nl := crlf, dashBoundary := 45 :: 45 :: boundary, partsRead := 0 }

/-- The field `nlDashBoundary`: the line end, two dashes and the boundary. -/
def Reader.nlDashBoundary (r : Reader) : List UInt8 :=
  r.nl ++ r.dashBoundary

/-- `Reader.isBoundaryDelimiterLine`: two dashes, the boundary, spaces and tabs,
and the line end. Before the first part a line ending in a bare LF is accepted and
switches the reader to that line end; the reader is returned as the call leaves
it. -/
def Reader.isBoundaryDelimiterLine (r : Reader) (line : List UInt8) : Bool × Reader :=
  if r.dashBoundary.isPrefixOf line then
    let rest := skipLWSPChar (line.drop r.dashBoundary.length)
    let r1 := if r.partsRead = 0 ∧ rest = [10] then { r with nl := r.nl.drop 1 } else r
    (rest = r1.nl, r1)
  else (false, r)

/-- `Reader.isFinalBoundary`: two dashes, the boundary, two dashes, spaces and
tabs, and then nothing or the line end. -/
def Reader.isFinalBoundary (r : Reader) (line : List UInt8) : Bool :=
  if (r.dashBoundary ++ [45, 45]).isPrefixOf line then
    let rest := skipLWSPChar (line.drop (r.dashBoundary.length + 2))
    rest.isEmpty || rest = r.nl
  else false

/-- The loop of `Reader.nextPart`: lines are read up to a delimiter line, after
which the header of the part is read. Returns the header and the reader placed at
the body of the part; `io.EOF` after the final delimiter. -/
def Reader.nextPartLoop : Nat → Bool → Reader → Except ReadError (MIMEHeader × Reader)
  | 0, _, _ => .error (.failed "multipart: NextPart")
  | fuel + 1, expectNewPart, r =>
    match readSlice r.buf with
    | none =>
      if r.isFinalBoundary r.buf then .error .EOF
      else .error (.failed "multipart: NextPart: EOF")
    | some (line, rest) =>
      let r1 := (r.isBoundaryDelimiterLine line).2
      if (r.isBoundaryDelimiterLine line).1 then
        match readMIMEHeader rest with
        | .error e => .error e
        | .ok (header, rest1) =>
          .ok (header, { r1 with buf := rest1, partsRead := r1.partsRead + 1 })
      else if r1.isFinalBoundary line then .error .EOF
      else if expectNewPart then .error (.failed "multipart: expecting a new Part")
      else if r1.partsRead = 0 then Reader.nextPartLoop fuel false { r1 with buf := rest }
      else if line = r1.nl then Reader.nextPartLoop fuel true { r1 with buf := rest }
      else .error (.failed "multipart: unexpected line in Next()")

/-- `Reader.nextPart`, called once the body of the part before has been read to its
end. -/
def Reader.nextPart (r : Reader) : Except ReadError (MIMEHeader × Reader) :=
  if r.dashBoundary = [45, 45] then .error (.failed "multipart: boundary is empty")
  else Reader.nextPartLoop (r.buf.length + 1) false r

/-- `matchAfterPrefix`, on the bytes that follow the prefix up to the end of the
input: the prefix is a boundary when nothing, a space, a tab, CR, LF or two dashes
follow it. -/
def matchAfterPrefix (after : List UInt8) : Bool :=
  match after with
  | [] => true
  | c :: rest =>
    if c = 32 ∨ c = 9 ∨ c = 13 ∨ c = 10 then true
    else if c = 45 then
      match rest with
      | [] => false
      | d :: _ => d = 45
    else false

/-- The search of `scanUntilBoundary` once bytes of the body have been read: the
body runs to the first `nlDashBoundary` that `matchAfterPrefix` accepts; one that it
does not accept is part of the body and the search goes on after it. Returns the
body and the bytes from the boundary on; `none` when the input ends first
(`io.ErrUnexpectedEOF`). -/
def scanUntilBoundary (nlDashBoundary : List UInt8) :
    Nat → List UInt8 → Option (List UInt8 × List UInt8)
  | 0, _ => none
  | fuel + 1, buf =>
    match splitAtFirst nlDashBoundary buf with
    | none => none
    | some (data, after) =>
      if matchAfterPrefix after then some (data, nlDashBoundary ++ after)
      else
        (scanUntilBoundary nlDashBoundary fuel after).map
          (fun r => (data ++ (nlDashBoundary ++ r.1), r.2))

/-- The body of the current part read to its end, as `io.Copy` from the `Part` reads
it. At the start of the body `dashBoundary` alone already counts as a boundary when
`matchAfterPrefix` accepts it. -/
def Reader.readBody (r : Reader) : Option (List UInt8 × Reader) :=
  if r.dashBoundary.isPrefixOf r.buf then
    let after := r.buf.drop r.dashBoundary.length
    if matchAfterPrefix after then some ([], r)
    else
      (scanUntilBoundary r.nlDashBoundary (after.length + 1) after).map
        (fun x => (r.dashBoundary ++ x.1, { r with buf := x.2 }))
  else
    (scanUntilBoundary r.nlDashBoundary (r.buf.length + 1) r.buf).map
      (fun x => (x.1, { r with buf := x.2 }))

/-- An upper-case ASCII letter turned into lower case. -/
def lowerByte (b : UInt8) : UInt8 :=
  if 65 ≤ b ∧ b ≤ 90 then b + 32 else b

/-- `isTSpecial` of package `mime`: the bytes `()<>@,;:\"/[]?=`. -/
def isTSpecial (b : UInt8) : Bool :=
  b ∈ [40, 41, 60, 62, 64, 44, 59, 58, 92, 34, 47, 91, 93, 63, 61]

/-- `isTokenChar`: printable ASCII other than space and the `tspecials`. -/
def isTokenChar (b : UInt8) : Bool :=
  32 < b && b < 127 && !isTSpecial b

/-- `consumeToken`: the longest token at the start, and what follows it. -/
def consumeToken : List UInt8 → List UInt8 × List UInt8
  | [] => ([], [])
  | b :: rest =>
    if isTokenChar b then ((consumeToken rest).1.cons b, (consumeToken rest).2)
    else ([], b :: rest)

/-- The loop of `consumeValue` on a quoted string, after its opening quote: the
closing quote ends it, a backslash before one of the `tspecials` is dropped, a CR or
LF or the end of the input is an error. Returns the value and what follows the
closing quote. -/
def consumeQuoted : List UInt8 → Option (List UInt8 × List UInt8)
  | [] => none
  | [b] => if b = 34 then some ([], []) else none
  | b :: c :: rest =>
    if b = 34 then some ([], c :: rest)
    else if b = 92 ∧ isTSpecial c then (consumeQuoted rest).map (fun r => (c :: r.1, r.2))
    else if b = 13 ∨ b = 10 then none
    else (consumeQuoted (c :: rest)).map (fun r => (b :: r.1, r.2))

/-- `consumeValue`: a token or a quoted string; on an error the value is empty and
nothing is consumed. -/
def consumeValue (v : List UInt8) : List UInt8 × List UInt8 :=
  match v with
  | [] => ([], [])
  | c :: rest =>
    if c = 34 then
      match consumeQuoted rest with
      | some r => r
      | none => ([], v)
    else consumeToken v

/-- The ASCII part of `unicode.IsSpace`: tab, LF, VT, FF, CR, space. -/
def isSpace (b : UInt8) : Bool :=
  b = 9 || b = 10 || b = 11 || b = 12 || b = 13 || b = 32

/-- `strings.TrimLeftFunc(v, unicode.IsSpace)`. -/
def trimLeftSpace (v : List UInt8) : List UInt8 :=
  v.dropWhile isSpace

/-- `strings.TrimSpace`. -/
def trimSpace (v : List UInt8) : List UInt8 :=
  ((v.dropWhile isSpace).reverse.dropWhile isSpace).reverse

/-- `consumeMediaParam`: a semicolon, a token as the key (put in lower case), an
equals sign and a value. Returns the key, the value and the rest; on an error the
key is empty and the rest is the input. -/
def consumeMediaParam (v : List UInt8) : List UInt8 × List UInt8 × List UInt8 :=
  match trimLeftSpace v with
  | [] => ([], [], v)
  | s :: rest =>
    if s = 59 then
      let param := consumeToken (trimLeftSpace rest)
      if param.1.isEmpty then ([], [], v)
      else
        match trimLeftSpace param.2 with
        | [] => ([], [], v)
        | e :: rest1 =>
          if e = 61 then
            let value := consumeValue (trimLeftSpace rest1)
            if value.1.isEmpty ∧ value.2 = trimLeftSpace rest1 then ([], [], v)
            else (param.1.map lowerByte, value.1, value.2)
          else ([], [], v)
    else ([], [], v)

/-- `checkMediaTypeDisposition`: a token, or a token, a slash and a token. -/
def checkMediaTypeDisposition (s : List UInt8) : Bool :=
  let typ := consumeToken s
  if typ.1.isEmpty then false
  else
    match typ.2 with
    | [] => true
    | c :: rest =>
      if c = 47 then
        let subtype := consumeToken rest
        !subtype.1.isEmpty && subtype.2.isEmpty
      else false

/-- The loop of `ParseMediaType` over the parameters. A key stored before with
another value is an error; a key with a star is set aside (RFC 2231, left out). A
lone trailing semicolon is ignored. -/
def mediaParams : Nat → List UInt8 → List (List UInt8 × List UInt8) →
    Option (List (List UInt8 × List UInt8))
  | 0, _, _ => none
  | fuel + 1, v, params =>
    match trimLeftSpace v with
    | [] => some params
    | c :: v1 =>
      let kvr := consumeMediaParam (c :: v1)
      if kvr.1.isEmpty then
        if trimSpace kvr.2.2 = [59] then some params else none
      else if kvr.1.contains 42 then mediaParams fuel kvr.2.2 params
      else
        match List.lookup kvr.1 params with
        | some old =>
          if old = kvr.2.1 then mediaParams fuel kvr.2.2 params else none
        | none => mediaParams fuel kvr.2.2 (params ++ [(kvr.1, kvr.2.1)])

/-- `mime.ParseMediaType`: the media type, in lower case and without white space
around it, and the parameters; `none` on an error. -/
def ParseMediaType (v : List UInt8) :
    Option (List UInt8 × List (List UInt8 × List UInt8)) :=
  let base := v.takeWhile (fun b => b != 59)
  let mediatype := trimSpace (base.map lowerByte)
  if checkMediaTypeDisposition mediatype then
    (mediaParams (v.length + 1) (v.drop base.length) []).map (fun ps => (mediatype, ps))
  else none

/-- `Part.FormName`: the parameter `name` of a `Content-Disposition` of type
`form-data`; the empty string when the header does not parse. -/
def FormName (header : MIMEHeader) : List UInt8 :=
  match ParseMediaType (header.Get (bytesOf "Content-Disposition")) with
  | none => []
  | some (disposition, params) =>
    if disposition = bytesOf "form-data" then (List.lookup (bytesOf "name") params).getD []
    else []

/-- `filepath.Base` for slash-separated paths: the last element of the path, `.` for
the empty path, `/` for a path of slashes only. -/
def Base (path : List UInt8) : List UInt8 :=
  if path.isEmpty then [46]
  else
    let stripped := (path.reverse.dropWhile (fun b => b == 47)).reverse
    let last := (stripped.reverse.takeWhile (fun b => b != 47)).reverse
    if last.isEmpty then [47] else last

/-- `Part.FileName`: the base name of the parameter `filename`, or the empty string
when the parameter is missing or empty. -/
def FileName (header : MIMEHeader) : List UInt8 :=
  match ParseMediaType (header.Get (bytesOf "Content-Disposition")) with
  | none => []
  | some (_, params) =>
    let filename := (List.lookup (bytesOf "filename") params).getD []
    if filename.isEmpty then [] else Base filename

/-- The fields of `multipart.FileHeader` the round trip is about: the file name and
the content. -/
structure FileHeader where
  Filename : List UInt8
  content : List UInt8
  deriving DecidableEq, Repr

/-- `multipart.Form`: the values and the files, by form name. -/
structure Form where
  Value : SliceMap (List UInt8)
  File : SliceMap FileHeader
  deriving DecidableEq, Repr

/-- The loop of `Reader.ReadForm`: every part read counts against `maxParts`; a part
without a form name is skipped, a part without a file name is stored as a value, any
other part as a file. -/
def Reader.readFormLoop : Nat → Nat → Reader → Form → Except ReadError Form
  | 0, _, _, _ => .error (.failed "multipart: message too large")
  | fuel + 1, maxParts, r, form =>
    match r.nextPart with
    | .error .EOF => .ok form
    | .error e => .error e
    | .ok (header, r1) =>
      if maxParts = 0 then .error (.failed "multipart: message too large")
      else
        match r1.readBody with
        | none => .error (.failed "unexpected EOF")
        | some (body, r2) =>
          if (FormName header).isEmpty then Reader.readFormLoop fuel (maxParts - 1) r2 form
          else if (FileName header).isEmpty then
            Reader.readFormLoop fuel (maxParts - 1) r2
              { form with Value := form.Value.append (FormName header) body }
          else
            Reader.readFormLoop fuel (maxParts - 1) r2
              { form with
                File := form.File.append (FormName header) ⟨FileName header, body⟩ }

/-- `Reader.ReadForm` on a body with the given boundary. -/
def ReadForm (boundary body : List UInt8) : Except ReadError Form :=
  Reader.readFormLoop (body.length + 1) 1000 (NewReader body boundary) ⟨[], []⟩

/-- The boundary a `Content-Type` value announces, as `Request.multipartReader`
takes it: the parameter `boundary` of the media type `multipart/form-data`. -/
def boundaryOf (contentType : String) : Option (List UInt8) :=
  match ParseMediaType (bytesOf contentType) with
  | some (mediaType, params) =>
    if mediaType = bytesOf "multipart/form-data" then List.lookup (bytesOf "boundary") params
    else none
  | none => none

/-- A field of a `MultipartData` as the entry of `Form.Value` it should be read back
as. -/
def valueEntry (kv : String × String) : List UInt8 × List (List UInt8) :=
  (bytesOf kv.1, [bytesOf kv.2])

/-- A file of a `MultipartData` as the entry of `Form.File` it should be read back
as. -/
def fileEntry (kf : String × File) : List UInt8 × List FileHeader :=
  (bytesOf kf.1, [⟨bytesOf kf.2.Name, kf.2.Data⟩])

/-- A name that is read back as written: it is not empty and holds only bytes valid
in a header value, so no control character other than the tab. -/
def plainName (name : String) : Prop :=
  bytesOf name ≠ [] ∧ ∀ b ∈ bytesOf name, validHeaderValueByte b = true

/-- A file name that is read back as written: a plain name without a slash. -/
def plainFileName (name : String) : Prop :=
  plainName name ∧ (47 : UInt8) ∉ bytesOf name

/-- The delimiter between parts: CR LF, two dashes and the boundary. -/
def delimiter (boundary : List UInt8) : List UInt8 :=
  13 :: 10 :: 45 :: 45 :: boundary

/-- A content that cannot be taken for a delimiter: the line end before the content
followed by the content does not contain the delimiter. -/
def clearOf (boundary : List UInt8) (content : List UInt8) : Prop :=
  ¬ delimiter boundary <:+: crlf ++ content

/-- `escapeQuotes` on the bytes of a string. -/
def escapeBytes (l : List UInt8) : List UInt8 :=
  l.flatMap (fun b =>
    if b = 92 ∨ b = 34 then [92, b]
    else if b = 10 then [37, 48, 65]
    else if b = 13 then [37, 48, 68]
    else [b])

/-- The bytes of a boundary: the digits `0` to `9` and the letters `a` to `f`. -/
def isHexByte (b : UInt8) : Bool :=
  (48 ≤ b && b ≤ 57) || (97 ≤ b && b ≤ 102)

/-- A part of a written form: its name, its file name when it is a file, and its
content. -/
structure WrittenPart where
  name : List UInt8
  filename : Option (List UInt8)
  content : List UInt8
  deriving DecidableEq, Repr

/-- The part written for a field of a `MultipartData`. -/
def fieldWritten (kv : String × String) : WrittenPart :=
  { name := bytesOf kv.1, filename := none, content := bytesOf kv.2 }

/-- The part written for a file of a `MultipartData`. -/
def fileWritten (kf : String × File) : WrittenPart :=
  { name := bytesOf kf.1, filename := some (bytesOf kf.2.Name), content := kf.2.Data }

/-- The value of the `Content-Disposition` line the writer writes for a part, with
the escaped names. -/
def dispositionOf (p : WrittenPart) : List UInt8 :=
  match p.filename with
  | none => bytesOf "form-data; name=\"" ++ (escapeBytes p.name ++ [34])
  | some filename =>
    bytesOf "form-data; name=\"" ++ (escapeBytes p.name ++
      (bytesOf "\"; filename=\"" ++ (escapeBytes filename ++ [34])))

/-- The header lines and the empty line of a part as the writer lays them out: the
`Content-Disposition` line and, for a file, the `Content-Type` line. -/
def headerOf (p : WrittenPart) : List UInt8 :=
  bytesOf "Content-Disposition: " ++ (dispositionOf p ++ (crlf ++
    (match p.filename with
     | none => crlf
     | some _ => bytesOf "Content-Type: application/octet-stream" ++ (crlf ++ crlf))))

/-- The header of a written part as `readMIMEHeader` returns it. -/
def headerMapOf (p : WrittenPart) : MIMEHeader :=
  match p.filename with
  | none => [(bytesOf "Content-Disposition", [dispositionOf p])]
  | some _ =>
    [(bytesOf "Content-Disposition", [dispositionOf p]),
     (bytesOf "Content-Type", [bytesOf "application/octet-stream"])]

/-- The form after a written part has been read into it. -/
def Form.add (form : Form) (p : WrittenPart) : Form :=
  match p.filename with
  | none => { form with Value := form.Value.append p.name p.content }
  | some filename => { form with File := form.File.append p.name ⟨filename, p.content⟩ }

/-- A written part that is read back as written: its name is not empty and holds
valid header bytes, its file name, when it has one, is not empty and holds valid header
bytes and no slash, and its content cannot be taken for a delimiter. -/
def Readable (boundary : List UInt8) (p : WrittenPart) : Prop :=
  (p.name ≠ [] ∧ ∀ b ∈ p.name, validHeaderValueByte b = true) ∧
  (∀ filename, p.filename = some filename →
    (∀ b ∈ filename, validHeaderValueByte b = true) ∧ filename ≠ [] ∧
      (47 : UInt8) ∉ filename) ∧
  clearOf boundary p.content

/-- The reader of a form with the given boundary once `k` parts have been read, with
`buf` left to read. -/
def readerAt (boundary buf : List UInt8) (k : Nat) : Reader :=
  { buf := buf, nl := crlf, dashBoundary := 45 :: 45 :: boundary, partsRead := k }

/-- The bytes that follow the first delimiter of a form with the given parts. -/
def afterDelimiter (boundary : List UInt8) : List WrittenPart → List UInt8
  | [] => [45, 45, 13, 10]
  | p :: ps =>
    crlf ++ (headerOf p ++ (p.content ++ (delimiter boundary ++ afterDelimiter boundary ps)))


/-! ## Concrete inputs -/

/-- A concrete environment: the envelope `\x7b\x7d` decodes to the zero value and
nothing else decodes, maps are visited in the order written, every URL parses, and
the backend gives the same answer to every request. -/
def answering (resp : Except String Response) : Env where
  Unmarshal := fun _ _ s =>
    if s = "\x7b\x7d" then .ok default else .error "unexpected end of JSON input"
  rand := fun i => UInt8.ofNat (i * 37)
  order := fun _ m => m
  order_perm := fun _ _ => List.Perm.refl _
  parseURL := fun _ => none
  Do := fun _ => resp

/-- The envelopes of the examples below, read as JSON; any other text is not JSON. -/
def readEnvelope (s : String) : Except String GoValue :=
  if s = "\x7b\"user_id\":\"u1\",\"channel_id\":\"c1\",\"display_name\":\"Alice\"," ++
      "\"status\":\"typing\"\x7d" then
    .ok (.map [("user_id", .string "u1"), ("channel_id", .string "c1"),
      ("display_name", .string "Alice"), ("status", .string "typing")])
  else if s = "\x7b\"user_id\":\"u1\",\"server_id\":\"s1\"\x7d" then
    .ok (.map [("user_id", .string "u1"), ("server_id", .string "s1")])
  else if s = "\x7b\"channel_id\":\"c1\"\x7d" then
    .ok (.map [("channel_id", .string "c1")])
  else if s = "\x7b\"channel_id\":\"c1\",\"user_id\":\"u2\"\x7d" then
    .ok (.map [("channel_id", .string "c1"), ("user_id", .string "u2")])
  else if s = "\x7b\"channel_id\":\"\\n\"\x7d" then
    .ok (.map [("channel_id", .string "\n")])
  else .error "invalid character looking for beginning of value"

/-- A concrete environment that decodes the envelopes of `readEnvelope` into the
request structures, rejects a URL that holds an ASCII control character as
`url.Parse` does, visits maps in the order written, and gives the same answer to
every request. -/
def decoding (resp : Except String Response) : Env where
  Unmarshal := fun _ _ s => unmarshalValue (readEnvelope s)
  rand := fun i => UInt8.ofNat (i * 37)
  order := fun _ m => m
  order_perm := fun _ _ => List.Perm.refl _
  parseURL := fun url =>
    if url.data.any (fun c => c.toNat < 32 || c.toNat == 127) then
      some ("parse " ++ url.quote ++ ": net/url: invalid control character in URL")
    else none
  Do := fun _ => resp

/-- An environment whose backend cannot be reached. -/
def offline : Env :=
  answering (.error "dial tcp 127.0.0.1:8080: connect: connection refused")

/-- The session of scenario A. -/
def session123 : World :=
  { SessionId := "tok123", UserId := "u1", calls := [] }

/-- The state at process start. -/
def anonymous : World :=
  { SessionId := "", UserId := "", calls := [] }

/-- The request of scenario A. -/
def profileRequest : Request :=
  { Method := "GET", URL := "https://localhost:8080/profile",
    Header := [("X-User-Id", ["u1"]), ("Authorization", ["Bearer tok123"]),
      ("Content-Type", ["application/json"])],
    Body := [] }

/-- The request `SignIn` posts for an envelope. -/
def signInRequest (request : String) : Request :=
  { Method := "POST", URL := "https://localhost:8080/auth/signin",
    Header := [("Content-Type", ["application/json"])], Body := bytesOf request }

/-- A response that rejects a sign-in and still sets a cookie. -/
def rejectedWithCookie : Response :=
  { Status := "401 Unauthorized", Cookies := [{ Name := "session", Value := "abc" }],
    Body := .ok (.map [("message", .string "wrong password")]) }

/-- A response that accepts a sign-in: a session cookie and the user object. -/
def acceptedSignIn : Response :=
  { Status := "200 OK", Cookies := [{ Name := "session", Value := "tok123" }],
    Body := .ok (.map [("message", .string "success"),
      ("user", .map [("id", .string "u1"), ("username", .string "alice")])]) }

/-- A `200 OK` response whose body is the empty object. -/
def emptyObject : Response :=
  { Status := "200 OK", Cookies := [], Body := .ok (.map []) }

/-- A `200 OK` response whose message is `success` and which has no user object. -/
def successWithoutUser : Response :=
  { Status := "200 OK", Cookies := [], Body := .ok (.map [("message", .string "success")]) }

/-- A `200 OK` response whose user id is a number. -/
def numericUserId : Response :=
  { Status := "200 OK", Cookies := [],
    Body := .ok (.map [("message", .string "success"), ("user", .map [("id", .float64 "7")])]) }

/-- A `200 OK` response whose body is not JSON. -/
def notJSON : Response :=
  { Status := "200 OK", Cookies := [],
    Body := .error "invalid character \'<\' looking for beginning of value" }

/-! ## Lemmas on headers and on `authFetch` -/

theorem Header.values_filter_ne (h : Header) (key k : String) (hk : k ≠ key) :
    Header.values (h.filter (fun e => e.1 != key)) k = Header.values h k := by
  induction h with
  | nil => rfl
  | cons e rest ih =>
    obtain ⟨k0, vs⟩ := e
    by_cases he : k0 = key
    · subst he
      simp [List.filter_cons, Header.values, ih, Ne.symm hk]
    · simp [List.filter_cons, he, Header.values, ih]

theorem Header.values_Set (h : Header) (key value k : String) :
    Header.values (h.Set key value) k =
      if k = CanonicalMIMEHeaderKey key then some [value] else Header.values h k := by
  unfold Header.Set
  by_cases hk : k = CanonicalMIMEHeaderKey key
  · simp [Header.values, hk]
  · have : CanonicalMIMEHeaderKey key ≠ k := fun h => hk h.symm
    simp [Header.values, hk, this, Header.values_filter_ne _ _ _ hk]

theorem Header.values_foldl_Set (l : List (String × String)) (h : Header) (k : String) :
    Header.values (l.foldl (fun h kv => h.Set kv.1 kv.2) h) k =
      match lastOverride k l with
      | some v => some [v]
      | none => Header.values h k := by
  induction l generalizing h with
  | nil => rfl
  | cons kv rest ih =>
    rw [List.foldl_cons, ih, lastOverride]
    cases hr : lastOverride k rest with
    | some v => rfl
    | none =>
      by_cases hk : CanonicalMIMEHeaderKey kv.1 = k
      · simp [Header.values_Set, hk]
      · have : k ≠ CanonicalMIMEHeaderKey kv.1 := fun h => hk h.symm
        simp [Header.values_Set, hk, this]

theorem lastOverride_none (key : String) (l : List (String × String))
    (h : ∀ kv ∈ l, CanonicalMIMEHeaderKey kv.1 ≠ key) : lastOverride key l = none := by
  induction l with
  | nil => rfl
  | cons kv rest ih =>
    have h1 := ih (fun x hx => h x (List.mem_cons_of_mem _ hx))
    have h2 := h kv (List.mem_cons_self _ _)
    simp [lastOverride, h1, h2]

theorem order_nil (env : Env) (α : Type) : env.order α [] = [] :=
  List.Perm.eq_nil (env.order_perm α [])

theorem canon_Authorization : CanonicalMIMEHeaderKey "Authorization" = "Authorization" := by
  decide

theorem canon_XUserID : CanonicalMIMEHeaderKey "X-User-ID" = "X-User-Id" := by
  decide

theorem canon_ContentType : CanonicalMIMEHeaderKey "Content-Type" = "Content-Type" := by
  decide

theorem authFetchRequest_ok (env : Env) (w : World) (method url : String) (body : Payload)
    (headers : List (String × String)) (req : Request)
    (h : authFetchRequest env w method url body headers = .ok req) :
    ∃ req0 : Request, encodeRequest env method url body = .ok req0 ∧
      req = { req0 with Header := authHeaders env w headers req0.Header } := by
  unfold authFetchRequest at h
  split at h
  · cases h
  · rename_i req0 h0
    injection h with h
    exact ⟨req0, h0, h.symm⟩

theorem authHeaders_values (env : Env) (w : World) (headers : List (String × String))
    (header : Header) (k : String) :
    Header.values (authHeaders env w headers header) k =
      match lastOverride k (env.order String headers) with
      | some v => some [v]
      | none =>
        if k = "X-User-Id" then some [w.UserId]
        else if k = "Authorization" then some ["Bearer " ++ w.SessionId]
        else Header.values header k := by
  unfold authHeaders
  simp only [Header.values_foldl_Set, Header.values_Set, canon_XUserID, canon_Authorization]

theorem authFetch_calls (env : Env) (w : World) (method url : String) (body : Payload)
    (headers : List (String × String)) (req : Request)
    (h : authFetchRequest env w method url body headers = .ok req) :
    (authFetch env method url body headers w).2 = { w with calls := w.calls ++ [req] } := by
  unfold authFetch
  rw [h]
  simp only
  split <;> rfl

/-! ## The authentication headers -/

/-- C1: with no header overrides, every request `authFetch` builds carries
`Authorization` equal to `Bearer ` followed by the `SessionId` of the state at call
time and `X-User-ID` equal to the `UserId` of that same state, and that request is
the one handed to the HTTP client. -/
theorem authFetch_sends_session_headers (env : Env) (w : World) (method url : String)
    (body : Payload) (req : Request)
    (h : authFetchRequest env w method url body [] = .ok req) :
    req.Header.Get "Authorization" = "Bearer " ++ w.SessionId ∧
    req.Header.Get "X-User-ID" = w.UserId ∧
    (authFetch env method url body [] w).2.calls = w.calls ++ [req] := by
  obtain ⟨req0, -, rfl⟩ := authFetchRequest_ok env w method url body [] req h
  refine ⟨?_, ?_, ?_⟩
  · simp [Header.Get, authHeaders_values, order_nil, lastOverride, canon_Authorization]
  · simp [Header.Get, authHeaders_values, order_nil, lastOverride, canon_XUserID]
  · rw [authFetch_calls env w method url body [] _ h]

/-- Scenario A: after `SetSession("tok123","u1")`, a `GET` with no body carries
`Authorization: Bearer tok123` and `X-User-ID: u1`. -/
theorem authFetch_sends_session_headers_witness :
    authFetchRequest offline session123 "GET" "https://localhost:8080/profile" .none [] =
      .ok profileRequest ∧
    profileRequest.Header.Get "Authorization" = "Bearer tok123" ∧
    profileRequest.Header.Get "X-User-ID" = "u1" :=
  have h := authFetch_sends_session_headers offline session123 "GET"
    "https://localhost:8080/profile" .none profileRequest rfl
  ⟨rfl, h.1, h.2.1⟩

/-- C2, as stated, fails: an override map with the keys `authorization` and
`x-user-id` replaces both authentication headers of the request. -/
theorem override_replaces_session_headers :
    ∃ req, authFetchRequest offline session123 "GET" "https://localhost:8080/profile" .none
        [("authorization", "Bearer other"), ("x-user-id", "u2")] = .ok req ∧
      req.Header.Get "Authorization" = "Bearer other" ∧
      req.Header.Get "Authorization" ≠ "Bearer " ++ session123.SessionId ∧
      req.Header.Get "X-User-ID" = "u2" ∧
      req.Header.Get "X-User-ID" ≠ session123.UserId :=
  ⟨_, rfl, by decide, by decide, by decide, by decide⟩

/-- C2, amended: in the request `authFetch` builds, `Authorization` and `X-User-ID`
carry the value of the override visited last among those whose key has the canonical
form of the header, and the value derived from the session state when the override
map has no such key. -/
theorem authFetch_session_headers_with_overrides (env : Env) (w : World)
    (method url : String) (body : Payload) (headers : List (String × String))
    (req : Request) (h : authFetchRequest env w method url body headers = .ok req) :
    req.Header.Get "Authorization" =
      (lastOverride "Authorization" (env.order String headers)).getD
        ("Bearer " ++ w.SessionId) ∧
    req.Header.Get "X-User-ID" =
      (lastOverride "X-User-Id" (env.order String headers)).getD w.UserId ∧
    ((∀ kv ∈ headers, CanonicalMIMEHeaderKey kv.1 ≠ "Authorization") →
      req.Header.Get "Authorization" = "Bearer " ++ w.SessionId) ∧
    ((∀ kv ∈ headers, CanonicalMIMEHeaderKey kv.1 ≠ "X-User-Id") →
      req.Header.Get "X-User-ID" = w.UserId) := by
  obtain ⟨req0, -, rfl⟩ := authFetchRequest_ok env w method url body headers req h
  have ha : Header.Get (authHeaders env w headers req0.Header) "Authorization" =
      (lastOverride "Authorization" (env.order String headers)).getD
        ("Bearer " ++ w.SessionId) := by
    simp only [Header.Get, authHeaders_values, canon_Authorization]
    cases lastOverride "Authorization" (env.order String headers) <;> simp
  have hu : Header.Get (authHeaders env w headers req0.Header) "X-User-ID" =
      (lastOverride "X-User-Id" (env.order String headers)).getD w.UserId := by
    simp only [Header.Get, authHeaders_values, canon_XUserID]
    cases lastOverride "X-User-Id" (env.order String headers) <;> simp
  refine ⟨ha, hu, ?_, ?_⟩
  · intro hk
    rw [show ({ req0 with Header := authHeaders env w headers req0.Header } : Request).Header =
      authHeaders env w headers req0.Header from rfl, ha, lastOverride_none]
    · rfl
    · intro kv hkv
      exact hk kv ((env.order_perm String headers).mem_iff.mp hkv)
  · intro hk
    rw [show ({ req0 with Header := authHeaders env w headers req0.Header } : Request).Header =
      authHeaders env w headers req0.Header from rfl, hu, lastOverride_none]
    · rfl
    · intro kv hkv
      exact hk kv ((env.order_perm String headers).mem_iff.mp hkv)

/-- An override of the content type leaves both authentication headers as derived
from the session. -/
theorem authFetch_session_headers_with_overrides_witness :
    ∃ req, authFetchRequest offline session123 "GET" "https://localhost:8080/profile" .none
        [("content-type", "text/plain")] = .ok req ∧
      req.Header.Get "Authorization" = "Bearer tok123" ∧
      req.Header.Get "X-User-ID" = "u1" :=
  have h := authFetch_session_headers_with_overrides offline session123 "GET"
    "https://localhost:8080/profile" .none [("content-type", "text/plain")] _ rfl
  ⟨_, rfl, h.1, h.2.1⟩

/-! ## The encoding step -/

theorem NewRequest_eq (env : Env) (method url : String) (body : List UInt8) (req : Request)
    (h : NewRequest env method url body = .ok req) :
    req = { Method := if method = "" then "GET" else method, URL := url, Header := [],
            Body := body } := by
  unfold NewRequest at h
  simp only at h
  cases hp : env.parseURL url with
  | some e =>
    rw [hp] at h
    split_ifs at h
  | none =>
    rw [hp] at h
    split_ifs at h
    all_goals
      simp only [Except.ok.injEq] at h
      subst h
      simp_all

theorem NewRequest_ok (env : Env) (method url : String) (body : List UInt8) (req : Request)
    (h : NewRequest env method url body = .ok req) : req.Header = [] ∧ req.Body = body := by
  rw [NewRequest_eq env method url body req h]
  exact ⟨rfl, rfl⟩

/-- The writer after a sequence of parts. -/
theorem Writer.foldl_parts (ps : List FormPart) (w : Writer) :
    let w1 := ps.foldl (fun wr p => (wr.CreatePart p.1).Write p.2) w
    w1.boundary = w.boundary ∧ w1.buf = w.buf ++ partsBytes w.boundary w.lastpart ps ∧
      w1.lastpart = (w.lastpart || !ps.isEmpty) := by
  induction ps generalizing w with
  | nil => simp [partsBytes]
  | cons p ps ih =>
    have := ih ((w.CreatePart p.1).Write p.2)
    simp only [List.foldl_cons] at this ⊢
    obtain ⟨h1, h2, h3⟩ := this
    refine ⟨by rw [h1]; rfl, ?_, ?_⟩
    · rw [h2]
      simp only [Writer.Write, Writer.CreatePart, partsBytes, List.append_assoc]
      cases w.lastpart <;> simp
    · rw [h3]
      simp [Writer.Write, Writer.CreatePart]

theorem writeForm_eq (env : Env) (d : MultipartData) :
    (writeForm env d).boundary = randomBoundary env.rand ∧
    (writeForm env d).buf = formBody (randomBoundary env.rand)
      ((env.order String d.Fields).map fieldPart ++ (env.order File d.Files).map filePart) := by
  have hf : ∀ (l : List (String × String)) (w : Writer),
      l.foldl (fun wr kv => wr.WriteField kv.1 kv.2) w =
        (l.map fieldPart).foldl (fun wr p => (wr.CreatePart p.1).Write p.2) w := by
    intro l w
    rw [List.foldl_map]
    rfl
  have hg : ∀ (l : List (String × File)) (w : Writer),
      l.foldl (fun wr kf => (wr.CreateFormFile kf.1 kf.2.Name).Write kf.2.Data) w =
        (l.map filePart).foldl (fun wr p => (wr.CreatePart p.1).Write p.2) w := by
    intro l w
    rw [List.foldl_map]
    rfl
  unfold writeForm
  simp only [hf, hg, ← List.foldl_append]
  have := Writer.foldl_parts
    ((env.order String d.Fields).map fieldPart ++ (env.order File d.Files).map filePart)
    (NewWriter env.rand)
  simp only at this
  obtain ⟨h1, h2, -⟩ := this
  constructor
  · simp only [Writer.Close, h1]
    rfl
  · simp only [Writer.Close, h1, h2, formBody]
    rfl

theorem hexDigit_plain (n : Nat) (hn : n < 16) :
    hexDigit n ∉ ['(', ')', '<', '>', '@', ',', ';', ':', '\\', '"', '/', '[', ']', '?', '=', ' '] := by
  interval_cases n <;> decide

theorem randomBoundary_plain (rand : Nat → UInt8) :
    (randomBoundary rand).data.any (fun c => c ∈
      ['(', ')', '<', '>', '@', ',', ';', ':', '\\', '"', '/', '[', ']', '?', '=', ' ']) = false := by
  rw [List.any_eq_false]
  intro c hc
  simp only [randomBoundary, List.mem_flatMap, hexByte] at hc
  obtain ⟨i, -, hi⟩ := hc
  have h16 : (rand i).toNat / 16 < 16 := by
    have := (rand i).toNat_lt
    omega
  have hm : (rand i).toNat % 16 < 16 := Nat.mod_lt _ (by decide)
  simp only [List.mem_cons, List.mem_singleton, List.not_mem_nil, or_false] at hi
  rcases hi with rfl | rfl
  · simpa using hexDigit_plain _ h16
  · simpa using hexDigit_plain _ hm

theorem FormDataContentType_writeForm (env : Env) (d : MultipartData) :
    (writeForm env d).FormDataContentType =
      "multipart/form-data; boundary=" ++ randomBoundary env.rand := by
  unfold Writer.FormDataContentType
  simp only [(writeForm_eq env d).1, randomBoundary_plain]
  rfl

theorem encodeRequest_none (env : Env) (method url : String) (req : Request)
    (h : encodeRequest env method url .none = .ok req) :
    req.Body = [] ∧ req.Header = Header.Set [] "Content-Type" "application/json" := by
  unfold encodeRequest at h
  simp only at h
  cases hn : NewRequest env method url [] with
  | error e => rw [hn] at h; cases h
  | ok r =>
    rw [hn] at h
    obtain ⟨h1, h2⟩ := NewRequest_ok env method url [] r hn
    simp only [Except.ok.injEq] at h
    subst h
    exact ⟨h2, by rw [h1]⟩

theorem encodeRequest_value (env : Env) (method url : String) (v : GoValue) (req : Request)
    (h : encodeRequest env method url (.value v) = .ok req) :
    jsonMarshal v = .ok req.Body ∧
      req.Header = Header.Set [] "Content-Type" "application/json" := by
  unfold encodeRequest at h
  simp only at h
  cases hm : jsonMarshal v with
  | error e => rw [hm] at h; cases h
  | ok jsonBody =>
    rw [hm] at h
    simp only at h
    cases hn : NewRequest env method url jsonBody with
    | error e => rw [hn] at h; cases h
    | ok r =>
      rw [hn] at h
      obtain ⟨h1, h2⟩ := NewRequest_ok env method url jsonBody r hn
      simp only [Except.ok.injEq] at h
      subst h
      exact ⟨by rw [h2], by rw [h1]⟩

theorem encodeRequest_multipart (env : Env) (method url : String) (d : MultipartData)
    (req : Request) (h : encodeRequest env method url (.multipart d) = .ok req) :
    req.Body = (writeForm env d).buf ∧
      req.Header = Header.Set [] "Content-Type" (writeForm env d).FormDataContentType := by
  unfold encodeRequest at h
  simp only at h
  cases hn : NewRequest env method url (writeForm env d).buf with
  | error e => rw [hn] at h; cases h
  | ok r =>
    rw [hn] at h
    obtain ⟨h1, h2⟩ := NewRequest_ok env method url _ r hn
    simp only [Except.ok.injEq] at h
    subst h
    exact ⟨h2, by rw [h1]⟩

theorem authHeaders_ContentType (env : Env) (w : World) (value : String) :
    Header.Values (authHeaders env w [] (Header.Set [] "Content-Type" value)) "Content-Type" =
      [value] := by
  simp [Header.Values, authHeaders_values, order_nil, lastOverride, canon_ContentType,
    Header.values_Set]

/-! ## The body and its content type -/

/-- C3, as stated, fails: the request built for a call with no body and no override
has the empty body and the header `Content-Type: application/json`. -/
theorem no_body_request_has_content_type :
    ∃ req, authFetchRequest offline session123 "GET" "https://localhost:8080/profile" .none [] =
        .ok req ∧
      req.Body = [] ∧ Header.values req.Header "Content-Type" = some ["application/json"] :=
  ⟨_, rfl, rfl, rfl⟩

/-- C3, amended: for every method and URL, the request `authFetch` builds for a call
with no body and no header overrides has the empty body and carries exactly one
`Content-Type` value, `application/json`. -/
theorem authFetch_no_body (env : Env) (w : World) (method url : String) (req : Request)
    (h : authFetchRequest env w method url .none [] = .ok req) :
    req.Body = [] ∧ req.Header.Values "Content-Type" = ["application/json"] := by
  obtain ⟨req0, h0, rfl⟩ := authFetchRequest_ok env w method url .none [] req h
  obtain ⟨hb, hh⟩ := encodeRequest_none env method url req0 h0
  exact ⟨hb, by simp only [hh, authHeaders_ContentType]⟩

/-- The `POST` of the logout call has no body and the JSON content type. -/
theorem authFetch_no_body_witness :
    ∃ req, authFetchRequest offline session123 "POST"
        "https://localhost:8080/api/v1/user/logout" .none [] = .ok req ∧
      req.Body = [] ∧ req.Header.Values "Content-Type" = ["application/json"] :=
  ⟨_, rfl, authFetch_no_body offline session123 "POST"
    "https://localhost:8080/api/v1/user/logout" _ rfl⟩

/-- C4: with no header overrides, a request built from a JSON payload has the JSON
serialization of the value as its body and the single `Content-Type` value
`application/json`; a request built from a `MultipartData` has as its body the form
made of its fields and files delimited by a boundary `B`, and the single
`Content-Type` value `multipart/form-data; boundary=B` with that same `B`. The JSON
content type is not a multipart one and the multipart one is not the JSON one. -/
theorem authFetch_content_type_matches_payload (env : Env) (w : World) (method url : String)
    (body : Payload) (req : Request)
    (h : authFetchRequest env w method url body [] = .ok req) :
    (∀ v, body = .value v →
      jsonMarshal v = .ok req.Body ∧
      req.Header.Values "Content-Type" = ["application/json"] ∧
      ¬ "multipart/form-data".isPrefixOf (req.Header.Get "Content-Type")) ∧
    (∀ d, body = .multipart d →
      ∃ B, req.Body = formBody B ((env.order String d.Fields).map fieldPart ++
          (env.order File d.Files).map filePart) ∧
        req.Header.Values "Content-Type" = ["multipart/form-data; boundary=" ++ B] ∧
        req.Header.Get "Content-Type" ≠ "application/json") := by
  obtain ⟨req0, h0, rfl⟩ := authFetchRequest_ok env w method url body [] req h
  have hget : ∀ value, (authHeaders env w [] (Header.Set [] "Content-Type" value)).Get
      "Content-Type" = value := by
    intro value
    have := authHeaders_ContentType env w value
    simp only [Header.Values] at this
    simp only [Header.Get]
    cases hv : Header.values (authHeaders env w [] (Header.Set [] "Content-Type" value))
      (CanonicalMIMEHeaderKey "Content-Type") with
    | none => simp [hv] at this
    | some vs =>
      rw [hv] at this
      simp only [Option.getD_some] at this
      subst this
      rfl
  constructor
  · rintro v rfl
    obtain ⟨hb, hh⟩ := encodeRequest_value env method url v req0 h0
    refine ⟨hb, by simp only [hh, authHeaders_ContentType], ?_⟩
    simp only [hh, hget]
    decide
  · rintro d rfl
    obtain ⟨hb, hh⟩ := encodeRequest_multipart env method url d req0 h0
    refine ⟨randomBoundary env.rand, ?_, ?_, ?_⟩
    · simp only [hb, (writeForm_eq env d).2]
    · simp only [hh, authHeaders_ContentType, FormDataContentType_writeForm]
    · simp only [hh, hget, FormDataContentType_writeForm]
      intro hc
      have := congrArg String.data hc
      simp at this

/-- Scenario B: the payload with the single field `name` equal to `alice` gives the
body `{"name":"alice"}` and `Content-Type: application/json`. -/
theorem authFetch_content_type_matches_payload_witness :
    ∃ req, authFetchRequest offline session123 "POST" "https://localhost:8080/profile"
        (.value (.struct [("name", .string "alice")])) [] = .ok req ∧
      req.Body = bytesOf "\x7b\"name\":\"alice\"\x7d" ∧
      req.Header.Values "Content-Type" = ["application/json"] :=
  ⟨_, rfl, rfl, ((authFetch_content_type_matches_payload offline session123 "POST"
    "https://localhost:8080/profile" (.value (.struct [("name", .string "alice")])) _ rfl).1
      _ rfl).2.1⟩


/-! ## The session variables -/

theorem authFetch_session (env : Env) (method url : String) (body : Payload)
    (headers : List (String × String)) (w : World) :
    (authFetch env method url body headers w).2.SessionId = w.SessionId ∧
      (authFetch env method url body headers w).2.UserId = w.UserId := by
  unfold authFetch
  split
  · exact ⟨rfl, rfl⟩
  · split <;> exact ⟨rfl, rfl⟩

theorem httpPost_session (env : Env) (url contentType : String) (body : List UInt8)
    (w : World) :
    (httpPost env url contentType body w).2.SessionId = w.SessionId ∧
      (httpPost env url contentType body w).2.UserId = w.UserId := by
  unfold httpPost
  split
  · exact ⟨rfl, rfl⟩
  · simp only
    split <;> exact ⟨rfl, rfl⟩

theorem paired_of_session_eq (w w1 : World) (hs : w1.SessionId = w.SessionId)
    (hu : w1.UserId = w.UserId) (hw : paired w) : paired w1 := by
  unfold paired at *
  rw [hs, hu]
  exact hw

/-- C5, as stated, fails: from the state with both variables empty, a sign-in
answered `401 Unauthorized` with a cookie returns the decoded body and leaves
`SessionId` set to the cookie and `UserId` empty. -/
theorem signIn_rejected_with_cookie_breaks_pairing :
    paired anonymous ∧
    SignIn (answering (.ok rejectedWithCookie)) "\x7b\x7d" anonymous =
      (.ret (some [("message", .string "wrong password")]),
        { SessionId := "abc", UserId := "", calls := [signInRequest "\x7b\x7d"] }) ∧
    ¬ paired { SessionId := "abc", UserId := "", calls := [signInRequest "\x7b\x7d"] } := by
  refine ⟨Or.inl ⟨rfl, rfl⟩, rfl, ?_⟩
  unfold paired
  decide

theorem LogoutHudori_paired (env : Env) (w : World) (hw : paired w) :
    paired (LogoutHudori env w).2 := by
  have hs := authFetch_session env "POST" "https://localhost:8080/api/v1/user/logout" .none [] w
  unfold LogoutHudori
  simp only
  cases hr : authFetch env "POST" "https://localhost:8080/api/v1/user/logout" .none [] w with
  | mk r w1 =>
    rw [hr] at hs
    cases r with
    | error e => exact paired_of_session_eq w w1 hs.1 hs.2 hw
    | ok resp =>
      simp only
      split
      · exact paired_of_session_eq w w1 hs.1 hs.2 hw
      · exact Or.inl ⟨rfl, rfl⟩

theorem SignIn_paired (env : Env) (request : String) (w : World) (hw : paired w)
    (hc : unmarshalError env SigninRequest request = none →
      ∀ resp w1, httpPost env "https://localhost:8080/auth/signin" "application/json"
        (bytesOf request) w = (.ok resp, w1) → signInWhole resp) :
    paired (SignIn env request w).2 := by
  have hs := httpPost_session env "https://localhost:8080/auth/signin" "application/json"
    (bytesOf request) w
  unfold SignIn
  cases hu : env.Unmarshal SigninRequest request with
  | error e => exact hw
  | ok req =>
    simp only
    cases hr : httpPost env "https://localhost:8080/auth/signin" "application/json"
        (bytesOf request) w with
    | mk r w1 =>
      rw [hr] at hs
      cases r with
      | error e => exact paired_of_session_eq w w1 hs.1 hs.2 hw
      | ok resp =>
        have hwhole := hc (by simp only [unmarshalError, hu]) resp w1 hr
        simp only
        rcases hwhole with ⟨hst, hck⟩ | ⟨hst, ⟨c, cs, hck, hcv⟩, id, hid, hne⟩
        · simp only [hck, bne_iff_ne, ne_eq, hst, not_false_eq_true, ↓reduceIte]
          exact paired_of_session_eq w w1 hs.1 hs.2 hw
        · unfold userIdOf at hid
          simp only [hck, hst, bne_self_eq_false, Bool.false_eq_true, ↓reduceIte]
          split at hid
          · rename_i userInfos huser
            split at hid
            · rename_i id1 hid1
              simp only [Option.some.injEq] at hid
              subst hid
              simp only [huser, hid1]
              exact Or.inr ⟨hcv, hne⟩
            · cases hid
          · cases hid

theorem AuthVerify_paired (env : Env) (w : World) (hw : paired w)
    (hc : ∀ resp w1, authFetch env "GET" "https://localhost:8080/auth/verify" .none [] w =
      (.ok resp, w1) → verifyWhole w resp) :
    paired (AuthVerify env w).2 := by
  have hs := authFetch_session env "GET" "https://localhost:8080/auth/verify" .none [] w
  unfold AuthVerify
  cases hr : authFetch env "GET" "https://localhost:8080/auth/verify" .none [] w with
  | mk r w1 =>
    rw [hr] at hs
    cases r with
    | error e => exact paired_of_session_eq w w1 hs.1 hs.2 hw
    | ok resp =>
      have hwhole := hc resp w1 hr
      simp only
      rcases hwhole with hmsg | ⟨hsid, id, hid, hne⟩
      · split
        · rename_i hm
          exact absurd hm hmsg
        · exact paired_of_session_eq w w1 hs.1 hs.2 hw
      · split
        · unfold userIdOf at hid
          split at hid
          · rename_i userInfos huser
            split at hid
            · rename_i id1 hid1
              simp only [Option.some.injEq] at hid
              subst hid
              simp only [huser, hid1]
              exact Or.inr ⟨by rw [hs.1]; exact hsid, hne⟩
            · cases hid
          · cases hid
        · exact paired_of_session_eq w w1 hs.1 hs.2 hw

/-- C5, amended: starting from a state where `SessionId` and `UserId` are both empty
or both non-empty, they are so again after `LogoutHudori` for every backend response
or transport failure; after `SignIn` whenever the envelope does not decode, the
request fails, the response is not `200 OK` and has no cookie, or the response is
`200 OK` with a first cookie of non-empty value and a user object with a non-empty
string id; and after `AuthVerify` whenever the request fails, the message is not
`success`, or the session is non-empty and the user object has a non-empty string
id. -/
theorem session_pairing_preserved (env : Env) (call : SessionCall) (w : World)
    (hw : paired w) (hc : call.whole env w) : paired (call.run env w).2 := by
  cases call with
  | signIn request => exact SignIn_paired env request w hw hc
  | authVerify => exact AuthVerify_paired env w hw hc
  | logoutHudori => exact LogoutHudori_paired env w hw

/-- A sign-in answered `200 OK` with a cookie and a user object takes the state at
process start to a state with both variables non-empty. -/
theorem session_pairing_preserved_witness :
    paired anonymous ∧
    paired (SignIn (answering (.ok acceptedSignIn)) "\x7b\x7d" anonymous).2 ∧
    (SignIn (answering (.ok acceptedSignIn)) "\x7b\x7d" anonymous).2.SessionId = "tok123" :=
  ⟨Or.inl ⟨rfl, rfl⟩,
    session_pairing_preserved (answering (.ok acceptedSignIn)) (.signIn "\x7b\x7d") anonymous
      (Or.inl ⟨rfl, rfl⟩)
      (fun _ resp w1 h => by
        have hr : acceptedSignIn = resp :=
          Except.ok.inj (congrArg Prod.fst h : Except.ok acceptedSignIn = Except.ok resp)
        subst hr
        exact Or.inr ⟨rfl, ⟨_, _, rfl, by decide⟩, "u1", rfl, by decide⟩),
    rfl⟩


/-- C6, as stated, fails: with a non-empty `SessionId` and an empty `UserId`,
`IsAuthenticated` reports status `200`. -/
theorem isAuthenticated_with_one_variable_set :
    (IsAuthenticated { SessionId := "abc", UserId := "", calls := [] }).1 =
      .ret (some [("status", .string "200")]) :=
  rfl

/-- C6, amended: for every session state, `IsAuthenticated` reports status `401` if
and only if both `SessionId` and `UserId` are empty, and status `200` otherwise, that
is as soon as one of them is non-empty; it changes nothing. -/
theorem IsAuthenticated_status (w : World) :
    ((IsAuthenticated w).1 = .ret (some [("status", .string "401")]) ↔
      (w.SessionId = "" ∧ w.UserId = "")) ∧
    ((IsAuthenticated w).1 = .ret (some [("status", .string "200")]) ↔
      (w.SessionId ≠ "" ∨ w.UserId ≠ "")) ∧
    (IsAuthenticated w).2 = w := by
  by_cases hs : w.SessionId = "" <;> by_cases hu : w.UserId = "" <;>
    simp [IsAuthenticated, hs, hu]

/-- C7, as stated, fails: when the logout request cannot be sent, and when the
response body is not JSON, `LogoutHudori` returns and both session variables keep
their values. -/
theorem logout_keeps_session_on_failure :
    (LogoutHudori offline session123).1 =
      .ret (statusMessage 500 ("Failed to logout: error sending request: " ++
        "dial tcp 127.0.0.1:8080: connect: connection refused")) ∧
    (LogoutHudori offline session123).2.SessionId = "tok123" ∧
    (LogoutHudori offline session123).2.UserId = "u1" ∧
    (LogoutHudori (answering (.ok notJSON)) session123).1 =
      .ret (some [("error", .string "Failed to parse response")]) ∧
    (LogoutHudori (answering (.ok notJSON)) session123).2.SessionId = "tok123" ∧
    (LogoutHudori (answering (.ok notJSON)) session123).2.UserId = "u1" :=
  ⟨rfl, rfl, rfl, rfl, rfl, rfl⟩

/-- C7, amended: for every session state and every outcome of the logout call. When
the request was sent and the response body decoded without error, `LogoutHudori`
returns the decoded map and both `SessionId` and `UserId` are the empty string. When
the body did not decode it returns the map with the one key `error`, and when the
request failed the map with status 500 and the message of the failure; in both cases
`SessionId` and `UserId` keep the values they had. -/
theorem LogoutHudori_session (env : Env) (w w1 : World) (r : Except String Response)
    (h : authFetch env "POST" "https://localhost:8080/api/v1/user/logout" .none [] w =
      (r, w1)) :
    (∀ resp, r = .ok resp → (decodeMap resp.Body).2 = none →
      LogoutHudori env w =
        (.ret (decodeMap resp.Body).1, { w1 with SessionId := "", UserId := "" }) ∧
      (LogoutHudori env w).2.SessionId = "" ∧ (LogoutHudori env w).2.UserId = "") ∧
    (∀ resp, r = .ok resp → (decodeMap resp.Body).2 ≠ none →
      LogoutHudori env w =
        (.ret (some [("error", .string "Failed to parse response")]), w1) ∧
      (LogoutHudori env w).2.SessionId = w.SessionId ∧
        (LogoutHudori env w).2.UserId = w.UserId) ∧
    (∀ e, r = .error e →
      LogoutHudori env w = (.ret (statusMessage 500 ("Failed to logout: " ++ e)), w1) ∧
      (LogoutHudori env w).2.SessionId = w.SessionId ∧
        (LogoutHudori env w).2.UserId = w.UserId) := by
  have hs := authFetch_session env "POST" "https://localhost:8080/api/v1/user/logout" .none [] w
  rw [h] at hs
  unfold LogoutHudori
  simp only [h]
  refine ⟨?_, ?_, ?_⟩
  · rintro resp rfl hd
    simp only
    split
    · rename_i e he
      rw [he] at hd
      cases hd
    · rename_i result he
      rw [he]
      exact ⟨rfl, rfl, rfl⟩
  · rintro resp rfl hd
    simp only
    split
    · exact ⟨rfl, hs⟩
    · rename_i result he
      rw [he] at hd
      exact absurd rfl hd
  · rintro e rfl
    exact ⟨rfl, hs⟩

/-- A logout answered with the empty JSON object returns that object and clears both
session variables. -/
theorem LogoutHudori_session_witness :
    (LogoutHudori (answering (.ok emptyObject)) session123).1 = .ret (some []) ∧
    (LogoutHudori (answering (.ok emptyObject)) session123).2.SessionId = "" ∧
    (LogoutHudori (answering (.ok emptyObject)) session123).2.UserId = "" :=
  have h := (LogoutHudori_session (answering (.ok emptyObject)) session123 _ _ rfl).1
    emptyObject rfl rfl
  ⟨congrArg Prod.fst h.1, h.2⟩

/-- C8, at the failing inputs: `SignIn` answered `200 OK` with a body that has no
user object panics, as does `SignIn` with a user id that is not a string, and
`AuthVerify` answered with the message `success` and no user object; none returns
the decoded body. -/
theorem wrappers_panic_on_missing_user :
    SignIn (answering (.ok emptyObject)) "\x7b\x7d" anonymous =
      (.panic notAMap, { anonymous with calls := [signInRequest "\x7b\x7d"] }) ∧
    (SignIn (answering (.ok numericUserId)) "\x7b\x7d" anonymous).1 = .panic notAString ∧
    (AuthVerify (answering (.ok successWithoutUser)) session123).1 = .panic notAMap :=
  ⟨rfl, rfl, rfl⟩


/-! ## Envelopes -/

/-- C9, as stated, fails: for an envelope that does not decode, `ChangeAvatar`
returns status 400 with a message that ends with the text of the decoder's error,
not the map with the message `Invalid request format` alone. -/
theorem changeAvatar_message_has_decoder_error :
    unmarshalError offline AvatarChangeRequest "not json" =
      some "unexpected end of JSON input" ∧
    ChangeAvatar offline "not json" session123 =
      (.ret (statusMessage 400 "Invalid request format: unexpected end of JSON input"),
        session123) ∧
    (ChangeAvatar offline "not json" session123).1 ≠
      .ret (statusMessage 400 "Invalid request format") := by
  refine ⟨rfl, rfl, ?_⟩
  intro h
  have h1 : ChangeAvatar offline "not json" session123 =
      (.ret (statusMessage 400 "Invalid request format: unexpected end of JSON input"),
        session123) := rfl
  rw [h1] at h
  simp only [statusMessage, Outcome.ret.injEq, Option.some.injEq, List.cons.injEq,
    Prod.mk.injEq, GoValue.string.injEq] at h
  exact absurd h.2.1.2 (by decide)

/-- C9, amended: for every wrapper that takes a JSON string envelope and every
envelope that fails to decode into the wrapper's request structure, the wrapper
returns a map with status 400 and a message, issues no network call, and leaves
`SessionId` and `UserId` unchanged. The message is `Invalid request format`, and for
`ChangeAvatar`, `ChangeNameColor`, `DeleteChannel`, `CreateChannel`, `ChangeDPName`,
`ChangeUsername` and `ChangeEmail` it is `Invalid request format: ` followed by the
text of the decoder's error. -/
theorem envelope_decode_error (wr : EnvelopeWrapper) (env : Env) (request : String)
    (w : World) (e : String) (h : wr.decodeError env request = some e) :
    wr.run env request w =
      (.ret (some [("status", .int 400), ("message", .string
        (if wr.appendsError then "Invalid request format: " ++ e
         else "Invalid request format"))]), w) := by
  cases wr <;>
    (simp only [EnvelopeWrapper.decodeError, unmarshalError] at h
     split at h
     · rename_i e1 he
       simp only [Option.some.injEq] at h
       subst h
       simp [EnvelopeWrapper.run, EnvelopeWrapper.appendsError, invalidRequest, statusMessage,
         he, SignIn, GetFriends, GetServers, GetMessages, GetServer, IndicateTyping,
         SyncNotifications, GetNotifications, CreateInvitation, GetProfile, DeleteServer,
         QuitServer, JoinServer, CreateServer, CreateCategory, DeleteCategory, DeleteFriend,
         AcceptFriend, RefuseFriend, AddFriend, DeleteMessage, EditMessage, ChangeAvatar,
         ChangeNameColor, DeleteChannel, CreateChannel, ChangeDPName, ChangeUsername,
         ChangeEmail]
     · cases h)

/-- `GetFriends` on an envelope that is not JSON: status 400, no request sent, the
session as before. -/
theorem envelope_decode_error_witness :
    GetFriends offline "not json" session123 =
      (.ret (some [("status", .int 400), ("message", .string "Invalid request format")]),
        session123) :=
  envelope_decode_error .getFriends offline "not json" session123
    "unexpected end of JSON input" rfl

/-! ## Sign-in -/

theorem httpPost_ok (env : Env) (url contentType : String) (body : List UInt8)
    (w w1 : World) (resp : Response)
    (h : httpPost env url contentType body w = (.ok resp, w1)) :
    w1 = { w with calls := w.calls ++
      [{ Method := "POST", URL := url, Header := [("Content-Type", [contentType])],
         Body := body }] } := by
  unfold httpPost at h
  cases hn : NewRequest env "POST" url body with
  | error e =>
    rw [hn] at h
    simp only [Prod.mk.injEq] at h
    cases h.1
  | ok req =>
    rw [hn] at h
    simp only at h
    have hm : req = { Method := "POST", URL := url, Header := [], Body := body } :=
      NewRequest_eq env "POST" url body req hn
    subst hm
    split at h
    · simp only [Prod.mk.injEq] at h
      cases h.1
    · simp only [Prod.mk.injEq] at h
      rw [← h.2]
      rfl

/-- C10: for a `SignIn` call whose envelope decodes and whose request is answered,
when the status is `200 OK`, there is at least one cookie and the body holds a user
object with a string id, the call returns the decoded body, `SessionId` is the value
of the first cookie and `UserId` is that id; when the status is not `200 OK`, the
call returns the decoded body and `UserId` is unchanged. -/
theorem SignIn_response (env : Env) (request : String) (w w1 : World)
    (req : SigninRequest) (resp : Response)
    (hreq : env.Unmarshal SigninRequest request = .ok req)
    (hpost : httpPost env "https://localhost:8080/auth/signin" "application/json"
      (bytesOf request) w = (.ok resp, w1)) :
    (∀ c cs body user id, resp.Status = "200 OK" → resp.Cookies = c :: cs →
      resp.Body = .ok (.map body) → body.lookup "user" = some (.map user) →
      user.lookup "id" = some (.string id) →
      SignIn env request w = (.ret (some body),
        { SessionId := c.Value, UserId := id,
          calls := w.calls ++ [signInRequest request] })) ∧
    (resp.Status ≠ "200 OK" →
      (SignIn env request w).1 = .ret (decodeMap resp.Body).1 ∧
      (SignIn env request w).2.UserId = w.UserId) := by
  have hw1 := httpPost_ok env _ _ _ w w1 resp hpost
  constructor
  · intro c cs body user id hst hck hbody huser hid
    unfold SignIn
    simp only [hreq, hpost, hck, hst, hbody, decodeMap, mapIndex, huser, hid, hw1,
      Option.getD_some, bne_self_eq_false, Bool.false_eq_true, ↓reduceIte, signInRequest]
  · intro hst
    unfold SignIn
    simp only [hreq, hpost, bne_iff_ne, ne_eq, hst, not_false_eq_true, ↓reduceIte]
    refine ⟨trivial, ?_⟩
    rw [hw1]
    split <;> rfl

/-- The sign-in of the state at process start, answered `200 OK` with the cookie
`tok123` and the user `u1`. -/
theorem SignIn_response_witness :
    SignIn (answering (.ok acceptedSignIn)) "\x7b\x7d" anonymous =
      (.ret (some [("message", .string "success"),
          ("user", .map [("id", .string "u1"), ("username", .string "alice")])]),
        { SessionId := "tok123", UserId := "u1", calls := [signInRequest "\x7b\x7d"] }) :=
  (SignIn_response (answering (.ok acceptedSignIn)) "\x7b\x7d" anonymous _ default
    acceptedSignIn rfl rfl).1 _ _ _ _ _ rfl rfl rfl rfl rfl



/-! ## Header overrides -/

theorem lastOverride_some (key : String) (l : List (String × String)) (v : String)
    (h : lastOverride key l = some v) :
    ∃ kv ∈ l, CanonicalMIMEHeaderKey kv.1 = key ∧ kv.2 = v := by
  induction l with
  | nil => cases h
  | cons kv rest ih =>
    rw [lastOverride] at h
    cases hr : lastOverride key rest with
    | some v1 =>
      rw [hr] at h
      simp only [Option.some.injEq] at h
      subst h
      obtain ⟨x, hx, h1, h2⟩ := ih hr
      exact ⟨x, List.mem_cons_of_mem _ hx, h1, h2⟩
    | none =>
      rw [hr] at h
      simp only at h
      split_ifs at h with hk
      simp only [Option.some.injEq] at h
      exact ⟨kv, List.mem_cons_self _ _, hk, h⟩

theorem lastOverride_unique (key : String) (l : List (String × String)) (k v : String)
    (hmem : (k, v) ∈ l) (hk : CanonicalMIMEHeaderKey k = key)
    (huniq : ∀ kv ∈ l, CanonicalMIMEHeaderKey kv.1 = key → kv = (k, v)) :
    lastOverride key l = some v := by
  cases hl : lastOverride key l with
  | some v1 =>
    obtain ⟨x, hx, h1, h2⟩ := lastOverride_some key l v1 hl
    have := huniq x hx h1
    subst this
    simp only at h2
    rw [h2]
  | none =>
    exfalso
    have hnone : ∀ (l : List (String × String)), lastOverride key l = none →
        ∀ kv ∈ l, CanonicalMIMEHeaderKey kv.1 ≠ key := by
      intro l
      induction l with
      | nil => intro _ kv hkv; cases hkv
      | cons a rest ih =>
        intro h kv hkv
        rw [lastOverride] at h
        cases hr : lastOverride key rest with
        | some v1 => rw [hr] at h; cases h
        | none =>
          rw [hr] at h
          simp only at h
          rcases List.mem_cons.mp hkv with rfl | hin
          · intro hc
            simp [hc] at h
          · exact ih hr kv hin
    exact hnone l hl (k, v) hmem hk

/-- C12, as stated, fails: when the override map holds the keys `Content-Type` and
`content-type`, the request carries the value of the one visited last, and the value
of the other override is not carried. -/
theorem override_lost_to_same_header :
    (∃ req, authFetchRequest offline session123 "POST" "https://localhost:8080/profile" .none
        [("Content-Type", "text/plain"), ("content-type", "text/html")] = .ok req ∧
      req.Header.Values "Content-Type" = ["text/html"] ∧
      req.Header.Get "Content-Type" ≠ "text/plain") ∧
    (∃ req, authFetchRequest offline session123 "POST" "https://localhost:8080/profile" .none
        [("content-type", "text/html"), ("Content-Type", "text/plain")] = .ok req ∧
      req.Header.Values "content-type" = ["text/plain"] ∧
      req.Header.Get "content-type" ≠ "text/html") :=
  ⟨⟨_, rfl, rfl, by decide⟩, ⟨_, rfl, rfl, by decide⟩⟩

/-- C12, amended: for every payload and every header-override map, the built request
carries, for each override whose key shares its canonical form with no other key of
the map, the value of that override as the single value of the header; every header
whose canonical name is the canonical form of no override key has the values it has
in the request built without overrides; method, URL and body are those of the
request built without overrides. -/
theorem authFetch_overrides_applied_last (env : Env) (w : World) (method url : String)
    (body : Payload) (headers : List (String × String)) (req : Request)
    (h : authFetchRequest env w method url body headers = .ok req) :
    ∃ base, authFetchRequest env w method url body [] = .ok base ∧
      (∀ k v, (k, v) ∈ headers →
        (∀ kv ∈ headers, CanonicalMIMEHeaderKey kv.1 = CanonicalMIMEHeaderKey k →
          kv = (k, v)) →
        req.Header.Values k = [v] ∧ req.Header.Get k = v) ∧
      (∀ name, (∀ kv ∈ headers, CanonicalMIMEHeaderKey kv.1 ≠ CanonicalMIMEHeaderKey name) →
        req.Header.Values name = base.Header.Values name ∧
          req.Header.Get name = base.Header.Get name) ∧
      req.Method = base.Method ∧ req.URL = base.URL ∧ req.Body = base.Body := by
  obtain ⟨req0, h0, rfl⟩ := authFetchRequest_ok env w method url body headers req h
  refine ⟨{ req0 with Header := authHeaders env w [] req0.Header }, ?_, ?_, ?_, rfl, rfl, rfl⟩
  · simp only [authFetchRequest, h0]
  · intro k v hmem huniq
    have hl : lastOverride (CanonicalMIMEHeaderKey k) (env.order String headers) = some v := by
      apply lastOverride_unique _ _ k v ((env.order_perm String headers).mem_iff.mpr hmem) rfl
      intro kv hkv hc
      exact huniq kv ((env.order_perm String headers).mem_iff.mp hkv) hc
    simp only [Header.Values, Header.Get, authHeaders_values, hl, Option.getD_some, and_self]
  · intro name hname
    have hl : lastOverride (CanonicalMIMEHeaderKey name) (env.order String headers) = none := by
      apply lastOverride_none
      intro kv hkv
      exact hname kv ((env.order_perm String headers).mem_iff.mp hkv)
    simp only [Header.Values, Header.Get, authHeaders_values, hl, order_nil, lastOverride,
      and_self]

/-- An override of the content type on a JSON request: the request carries the
override, and the authentication headers are those of the request without it. -/
theorem authFetch_overrides_applied_last_witness :
    ∃ req, authFetchRequest offline session123 "POST" "https://localhost:8080/profile"
        (.value (.struct [("name", .string "alice")])) [("content-type", "text/plain")] =
        .ok req ∧
      req.Header.Values "content-type" = ["text/plain"] ∧
      req.Header.Get "Authorization" = "Bearer tok123" := by
  refine ⟨_, rfl, ?_, ?_⟩
  · obtain ⟨base, -, h1, -⟩ := authFetch_overrides_applied_last offline session123 "POST"
      "https://localhost:8080/profile" (.value (.struct [("name", .string "alice")]))
      [("content-type", "text/plain")] _ rfl
    exact (h1 "content-type" "text/plain" (List.mem_singleton.mpr rfl)
      (fun kv hkv _ => List.mem_singleton.mp hkv)).1
  · rfl


/-! ## `CreateMessage` -/

theorem messageForm_eq (env : Env) (jsonData : String) (files : List File) :
    (messageForm env jsonData files).boundary = randomBoundary env.rand ∧
    (messageForm env jsonData files).buf = formBody (randomBoundary env.rand)
      (fieldPart ("body", jsonData) :: files.enum.map attachmentPart) := by
  have hg : ∀ (l : List (Nat × File)) (w : Writer),
      l.foldl (fun wr ifile =>
        (wr.CreateFormFile ("file-" ++ toString ifile.1) ifile.2.Name).Write ifile.2.Data) w =
        (l.map attachmentPart).foldl (fun wr p => (wr.CreatePart p.1).Write p.2) w := by
    intro l w
    rw [List.foldl_map]
    rfl
  have hf : ∀ w : Writer, w.WriteField "body" jsonData =
      [fieldPart ("body", jsonData)].foldl (fun wr p => (wr.CreatePart p.1).Write p.2) w := by
    intro w
    rfl
  unfold messageForm
  simp only [hg, hf, ← List.foldl_append]
  have := Writer.foldl_parts
    ([fieldPart ("body", jsonData)] ++ files.enum.map attachmentPart) (NewWriter env.rand)
  simp only at this
  obtain ⟨h1, h2, -⟩ := this
  constructor
  · simp only [Writer.Close, h1]
    rfl
  · simp only [Writer.Close, h1, h2, formBody]
    rfl

theorem FormDataContentType_messageForm (env : Env) (jsonData : String) (files : List File) :
    (messageForm env jsonData files).FormDataContentType =
      "multipart/form-data; boundary=" ++ randomBoundary env.rand := by
  unfold Writer.FormDataContentType
  simp only [(messageForm_eq env jsonData files).1, randomBoundary_plain]
  rfl

/-- C13: for every set of arguments `CreateMessage` does the following. When
`json.Marshal` fails on the body map it returns the map with status 400 and sends
nothing. When the body marshals and `http.NewRequest` rejects the URL it returns the
map with status 400 and sends nothing. When the body marshals and the URL is
accepted it hands the client exactly one request, the `POST` whose form is the field
`body` followed by the file parts `file-0`, `file-1`, ... of the attachments in index
order, and returns the map with status 500 when the client fails and the nil map
when the client returns a response, whatever that response is. So it returns the nil
map exactly when the body marshalled, the URL was accepted and the client returned a
response. -/
theorem CreateMessage_result (env : Env) (author : GoValue) (channelId content : String)
    (mentions : Option (List String)) (replyTo : String) (privateMessage : Bool)
    (serverId : String) (files : List File) (w : World) :
    (∀ e, marshalValue (messageBody author channelId content mentions replyTo
        privateMessage) = .error e →
      CreateMessage env author channelId content mentions replyTo privateMessage
        serverId files w = (.ret (statusMessage 400 "Failed to marshal JSON body"), w)) ∧
    (∀ jsonData, marshalValue (messageBody author channelId content mentions replyTo
        privateMessage) = .ok jsonData →
      (∀ e, env.parseURL "https://localhost:8080/api/v1/messages/create" = some e →
        CreateMessage env author channelId content mentions replyTo privateMessage
          serverId files w = (.ret (statusMessage 400 "Failed to create request"), w)) ∧
      (env.parseURL "https://localhost:8080/api/v1/messages/create" = none →
        (messageRequest env w jsonData files).Body =
          formBody (randomBoundary env.rand)
            (fieldPart ("body", jsonData) :: files.enum.map attachmentPart) ∧
        (∀ e, env.Do (messageRequest env w jsonData files) = .error e →
          CreateMessage env author channelId content mentions replyTo privateMessage
            serverId files w = (.ret (statusMessage 500 "Failed to send request"),
              { w with calls := w.calls ++ [messageRequest env w jsonData files] })) ∧
        (∀ resp, env.Do (messageRequest env w jsonData files) = .ok resp →
          CreateMessage env author channelId content mentions replyTo privateMessage
            serverId files w = (.ret none,
              { w with calls := w.calls ++ [messageRequest env w jsonData files] })))) ∧
    ((CreateMessage env author channelId content mentions replyTo privateMessage
        serverId files w).1 = .ret none ↔
      ∃ jsonData resp, marshalValue (messageBody author channelId content mentions replyTo
          privateMessage) = .ok jsonData ∧
        env.parseURL "https://localhost:8080/api/v1/messages/create" = none ∧
        env.Do (messageRequest env w jsonData files) = .ok resp) := by
  unfold CreateMessage
  simp only
  have hbody : GoValue.map [("author", author), ("channel_id", .string channelId),
      ("content", .string content), ("mentions", stringsValue mentions),
      ("reply", .string replyTo), ("private_message", .bool privateMessage)] =
      messageBody author channelId content mentions replyTo privateMessage := rfl
  rw [hbody]
  cases hm : marshalValue (messageBody author channelId content mentions replyTo
      privateMessage) with
  | error e =>
    refine ⟨fun _ _ => rfl, fun jsonData hj => (by cases hj), ?_⟩
    simp [statusMessage]
  | ok jsonData =>
    simp only
    cases hn : NewRequest env "POST" "https://localhost:8080/api/v1/messages/create"
        (messageForm env jsonData files).buf with
    | error e0 =>
      have hp : env.parseURL "https://localhost:8080/api/v1/messages/create" ≠ none := by
        intro hp
        unfold NewRequest at hn
        simp only [hp] at hn
        cases hn
      refine ⟨fun _ h => (by cases h), ?_, ?_⟩
      · intro j hj
        cases hj
        exact ⟨fun _ _ => rfl, fun h => absurd h hp⟩
      · simp [statusMessage, hp]
    | ok req =>
      have hp : env.parseURL "https://localhost:8080/api/v1/messages/create" = none := by
        unfold NewRequest at hn
        cases hq : env.parseURL "https://localhost:8080/api/v1/messages/create" with
        | none => rfl
        | some e1 =>
          simp only [hq] at hn
          split_ifs at hn
      have hreq := NewRequest_eq env _ _ _ req hn
      simp only [String.reduceEq, ↓reduceIte] at hreq
      subst hreq
      simp only [FormDataContentType_messageForm, (messageForm_eq env jsonData files).2]
      have hreq : Request.mk "POST" "https://localhost:8080/api/v1/messages/create"
          (((Header.Set [] "Content-Type"
            ("multipart/form-data; boundary=" ++ randomBoundary env.rand)).Set "Authorization"
              ("Bearer " ++ w.SessionId)).Set "X-User-ID" w.UserId)
          (formBody (randomBoundary env.rand)
            (fieldPart ("body", jsonData) :: files.enum.map attachmentPart)) =
          messageRequest env w jsonData files := rfl
      simp only [hreq]
      cases hd : env.Do (messageRequest env w jsonData files) with
      | error e =>
        refine ⟨fun _ h => (by cases h), ?_, ?_⟩
        · intro j hj
          cases hj
          exact ⟨fun e1 h => (by rw [hp] at h; cases h),
            fun _ => ⟨rfl, fun _ _ => rfl, fun _ h => (by rw [hd] at h; cases h)⟩⟩
        · simp [statusMessage, hd]
      | ok resp =>
        refine ⟨fun _ h => (by cases h), ?_, ?_⟩
        · intro j hj
          cases hj
          exact ⟨fun e1 h => (by rw [hp] at h; cases h),
            fun _ => ⟨rfl, fun _ h => (by rw [hd] at h; cases h), fun _ _ => rfl⟩⟩
        · simp [hd, hp]

/-- A message with one attachment, sent in the session of scenario A to a backend
that answers: the nil map is returned and the one request handed to the client is
the `POST` of the form with the field `body` and the file part `file-0`. -/
theorem CreateMessage_result_witness :
    CreateMessage (answering (.ok emptyObject)) (.string "u1") "c1" "hello" none "" false "s1"
        [{ Name := "a.png", Data := [1, 2, 3] }] session123 =
      (.ret none, { session123 with calls := session123.calls ++
        [messageRequest (answering (.ok emptyObject)) session123
          "\x7b\"author\":\"u1\",\"channel_id\":\"c1\",\"content\":\"hello\",\"mentions\":null,\"private_message\":false,\"reply\":\"\"\x7d"
          [{ Name := "a.png", Data := [1, 2, 3] }]] }) :=
  ((CreateMessage_result (answering (.ok emptyObject)) (.string "u1") "c1" "hello" none ""
    false "s1" [{ Name := "a.png", Data := [1, 2, 3] }] session123).2.1 _ rfl).2 rfl
    |>.2.2 emptyObject rfl

/-! ## `GenerateRoomToken`, `IndicateTyping`, `CreateInvitation` -/

/-- C14, at a failing input: for the channel `c1` and the user `u1`,
`GenerateRoomToken` sends its request to the URL that ends in `/api/v1/rtc/c1/u1`
followed by a closing brace. -/
theorem generateRoomToken_url_ends_with_brace :
    (GenerateRoomToken offline "c1" "u1" session123).2.calls.map (fun r => (r.Method, r.URL)) =
      [("POST", "https://localhost:8080/api/v1/rtc/c1/u1\x7d")] ∧
    "https://localhost:8080/api/v1/rtc/c1/u1\x7d" ≠
      "https://localhost:8080" ++ "/api/v1/rtc/" ++ "c1" ++ "/" ++ "u1" :=
  ⟨rfl, by decide⟩

/-- C15, at the failing inputs: `IndicateTyping` decodes its envelope into a
`TypingRequest` and `CreateInvitation` into a `CreateInviteReq`, and each sends a
`POST` with the empty body, where the decoded structure marshals to a non-empty JSON
object. -/
theorem typing_and_invitation_send_no_body :
    (decoding (.ok emptyObject)).Unmarshal TypingRequest
        ("\x7b\"user_id\":\"u1\",\"channel_id\":\"c1\",\"display_name\":\"Alice\"," ++
          "\"status\":\"typing\"\x7d") =
      .ok { UserId := "u1", ChannelId := "c1", DisplayName := "Alice", Status := "typing" } ∧
    (IndicateTyping (decoding (.ok emptyObject))
        ("\x7b\"user_id\":\"u1\",\"channel_id\":\"c1\",\"display_name\":\"Alice\"," ++
          "\"status\":\"typing\"\x7d") session123).2.calls.map
        (fun r => (r.Method, r.URL, r.Body)) =
      [("POST", "https://localhost:8080/api/v1/channels/typing", [])] ∧
    jsonMarshal (TypingRequest.toValue
        { UserId := "u1", ChannelId := "c1", DisplayName := "Alice", Status := "typing" }) =
      .ok (bytesOf ("\x7b\"user_id\":\"u1\",\"channel_id\":\"c1\",\"display_name\":\"Alice\"," ++
          "\"status\":\"typing\"\x7d")) ∧
    (decoding (.ok emptyObject)).Unmarshal CreateInviteReq
        "\x7b\"user_id\":\"u1\",\"server_id\":\"s1\"\x7d" =
      .ok { UserId := "u1", ServerId := "s1" } ∧
    (CreateInvitation (decoding (.ok emptyObject))
        "\x7b\"user_id\":\"u1\",\"server_id\":\"s1\"\x7d" session123).2.calls.map
        (fun r => (r.Method, r.URL, r.Body)) =
      [("POST", "https://localhost:8080/api/v1/invites/create", [])] :=
  ⟨rfl, rfl, rfl, rfl, rfl⟩


/-! ## Errors of `authFetch` -/

theorem authFetch_error_calls (env : Env) (method url : String) (body : Payload)
    (headers : List (String × String)) (w w1 : World) (r : Except String Response)
    (h : authFetch env method url body headers w = (r, w1)) :
    w1.SessionId = w.SessionId ∧ w1.UserId = w.UserId ∧
      (w1.calls = w.calls ∨ ∃ req, w1.calls = w.calls ++ [req]) := by
  have hs := authFetch_session env method url body headers w
  rw [h] at hs
  refine ⟨hs.1, hs.2, ?_⟩
  unfold authFetch at h
  split at h
  · simp only [Prod.mk.injEq] at h
    rw [← h.2]
    exact Or.inl rfl
  · rename_i req _
    split at h <;>
      (simp only [Prod.mk.injEq] at h
       rw [← h.2]
       exact Or.inr ⟨req, rfl⟩)

theorem EnvelopeWrapper.run_of_fetch_error (wr : EnvelopeWrapper) (env : Env)
    (request : String) (w w1 : World) (m u e : String) (p : Payload)
    (hcall : wr.fetch env request = some (m, u, p))
    (herr : authFetch env m u p [] w = (.error e, w1)) :
    ∃ msg, wr.run env request w =
      (.ret (some [("status", .int 500), ("message", .string msg)]), w1) := by
  cases wr
  case signIn => cases hcall
  all_goals
    simp only [EnvelopeWrapper.fetch] at hcall
    split at hcall
    · cases hcall
    · rename_i req hu
      simp only [Option.some.injEq, Prod.mk.injEq] at hcall
      obtain ⟨rfl, rfl, rfl⟩ := hcall
      simp only [EnvelopeWrapper.run, statusMessage, hu,
        GetFriends, GetServers, GetMessages, GetServer, IndicateTyping,
        SyncNotifications, GetNotifications, CreateInvitation, GetProfile, DeleteServer,
        QuitServer, JoinServer, CreateServer, CreateCategory, DeleteCategory,
        DeleteFriend, AcceptFriend, RefuseFriend, AddFriend, DeleteMessage, EditMessage,
        ChangeAvatar, ChangeNameColor, DeleteChannel, CreateChannel, ChangeDPName,
        ChangeUsername, ChangeEmail]
      first
      | (simp only [herr]
         exact ⟨_, rfl⟩)
      | (split_ifs at herr ⊢ <;>
          (simp only [herr]
           exact ⟨_, rfl⟩))

/-- C16: for every wrapper that calls `authFetch` and every call in which `authFetch`
returns an error, the wrapper returns a map with status 500 and a message; the state
it leaves is the one `authFetch` left, with `SessionId` and `UserId` unchanged and at
most one request handed to the client. -/
theorem authFetch_error_gives_status_500 (call : FetchCall) (env : Env) (w w1 : World)
    (m u e : String) (p : Payload) (hcall : call.fetch env = some (m, u, p))
    (herr : authFetch env m u p [] w = (.error e, w1)) :
    (∃ msg, call.run env w =
      (.ret (some [("status", .int 500), ("message", .string msg)]), w1)) ∧
    w1.SessionId = w.SessionId ∧ w1.UserId = w.UserId ∧
    (w1.calls = w.calls ∨ ∃ req, w1.calls = w.calls ++ [req]) := by
  refine ⟨?_, authFetch_error_calls env m u p [] w w1 _ herr⟩
  cases call with
  | envelope wr request =>
    exact EnvelopeWrapper.run_of_fetch_error wr env request w w1 m u e p hcall herr
  | authVerify =>
    simp only [FetchCall.fetch, Option.some.injEq, Prod.mk.injEq] at hcall
    obtain ⟨rfl, rfl, rfl⟩ := hcall
    simp only [FetchCall.run, AuthVerify, herr, statusMessage]
    exact ⟨_, rfl⟩
  | changeBanner fileData fileName cropY cropX cropWidth cropHeight oldBanner =>
    simp only [FetchCall.fetch, Option.some.injEq, Prod.mk.injEq] at hcall
    obtain ⟨rfl, rfl, rfl⟩ := hcall
    simp only [FetchCall.run, ChangeBanner, herr, statusMessage]
    exact ⟨_, rfl⟩
  | logoutHudori =>
    simp only [FetchCall.fetch, Option.some.injEq, Prod.mk.injEq] at hcall
    obtain ⟨rfl, rfl, rfl⟩ := hcall
    simp only [FetchCall.run, LogoutHudori, herr, statusMessage]
    exact ⟨_, rfl⟩
  | generateRoomToken channelId userId =>
    simp only [FetchCall.fetch, Option.some.injEq, Prod.mk.injEq] at hcall
    obtain ⟨rfl, rfl, rfl⟩ := hcall
    simp only [FetchCall.run, GenerateRoomToken, herr, statusMessage]
    exact ⟨_, rfl⟩

/-- `GetFriends` with an unreachable backend: status 500, the session as before, one
request handed to the client. -/
theorem authFetch_error_gives_status_500_witness :
    GetFriends offline "\x7b\x7d" session123 =
      (.ret (some [("status", .int 500), ("message", .string "Failed to fetch friends")]),
        (authFetch offline "GET" "https://localhost:8080/api/v1/friends/" .none []
          session123).2) ∧
    (authFetch offline "GET" "https://localhost:8080/api/v1/friends/" .none []
      session123).2.SessionId = "tok123" :=
  have h := authFetch_error_gives_status_500 (.envelope .getFriends "\x7b\x7d") offline
    session123 _ "GET" "https://localhost:8080/api/v1/friends/" _ .none rfl rfl
  ⟨rfl, h.2.1⟩

/-! ## `GetMessages` -/

/-- C17, as stated, fails: for the envelope whose `channel_id` is a line feed, which
decodes, the URL does not parse and `GetMessages` issues no request. -/
theorem getMessages_issues_no_request_for_bad_url :
    (decoding (.ok emptyObject)).Unmarshal MessagesRequest
        "\x7b\"channel_id\":\"\\n\"\x7d" = .ok { ChannelId := "\n", UserID := "" } ∧
    GetMessages (decoding (.ok emptyObject)) "\x7b\"channel_id\":\"\\n\"\x7d" session123 =
      (.ret (statusMessage 500 "Failed to fetch messages"), session123) ∧
    session123.calls = [] :=
  ⟨rfl, rfl, rfl⟩

/-- C17, amended: for every envelope that decodes, the URL of `GetMessages` is the
origin followed by `/api/v1/messages/` and `channel_id` when `user_id` is empty, and
by `/api/v1/messages/`, `channel_id`, `/private/` and `user_id` otherwise. When that
URL parses, `GetMessages` hands the client exactly one request, a `GET` to that URL
with no body; when it does not, no request is issued and the map with status 500 is
returned. -/
theorem GetMessages_request (env : Env) (request : String) (w : World)
    (req : MessagesRequest) (hreq : env.Unmarshal MessagesRequest request = .ok req) :
    (env.parseURL (if req.UserID = "" then
          "https://localhost:8080" ++ "/api/v1/messages/" ++ req.ChannelId
        else "https://localhost:8080" ++ "/api/v1/messages/" ++ req.ChannelId ++
          "/private/" ++ req.UserID) = none →
      ∃ r, (GetMessages env request w).2.calls = w.calls ++ [r] ∧ r.Method = "GET" ∧
        r.URL = (if req.UserID = "" then
          "https://localhost:8080" ++ "/api/v1/messages/" ++ req.ChannelId
        else "https://localhost:8080" ++ "/api/v1/messages/" ++ req.ChannelId ++
          "/private/" ++ req.UserID) ∧
        r.Body = []) ∧
    (∀ e, env.parseURL (if req.UserID = "" then
          "https://localhost:8080" ++ "/api/v1/messages/" ++ req.ChannelId
        else "https://localhost:8080" ++ "/api/v1/messages/" ++ req.ChannelId ++
          "/private/" ++ req.UserID) = some e →
      GetMessages env request w =
        (.ret (statusMessage 500 "Failed to fetch messages"), w)) := by
  have hnew : ∀ url, NewRequest env "GET" url [] =
      match env.parseURL url with
      | some e => .error e
      | none => .ok { Method := "GET", URL := url, Header := [], Body := [] } := by
    intro url
    unfold NewRequest
    simp only [String.reduceEq, ↓reduceIte]
    rfl
  have hfetch : ∀ url, (env.parseURL url = none →
        ∃ r, (authFetch env "GET" url .none [] w).2.calls = w.calls ++ [r] ∧
          r.Method = "GET" ∧ r.URL = url ∧ r.Body = []) ∧
      (∀ e, env.parseURL url = some e → ∃ e1, authFetch env "GET" url .none [] w =
        (.error e1, w)) := by
    intro url
    constructor
    · intro hp
      have hb : authFetchRequest env w "GET" url .none [] =
          .ok { Method := "GET", URL := url,
                Header := authHeaders env w [] (Header.Set [] "Content-Type" "application/json"),
                Body := [] } := by
        simp only [authFetchRequest, encodeRequest, hnew, hp]
      refine ⟨{ Method := "GET", URL := url,
                Header := authHeaders env w [] (Header.Set [] "Content-Type" "application/json"),
                Body := [] }, ?_, rfl, rfl, rfl⟩
      rw [authFetch_calls env w "GET" url .none [] _ hb]
    · intro e hp
      refine ⟨"error creating request: " ++ e, ?_⟩
      simp only [authFetch, authFetchRequest, encodeRequest, hnew, hp]
  have hrun : GetMessages env request w =
      (match authFetch env "GET" (if req.UserID = "" then
          "https://localhost:8080" ++ "/api/v1/messages/" ++ req.ChannelId
        else "https://localhost:8080" ++ "/api/v1/messages/" ++ req.ChannelId ++
          "/private/" ++ req.UserID) .none [] w with
       | (.error _, w) => (.ret (statusMessage 500 "Failed to fetch messages"), w)
       | (.ok response, w) => (.ret (decodeMap response.Body).1, w)) := by
    unfold GetMessages
    simp only [hreq]
    split_ifs <;> rfl
  constructor
  · intro hp
    obtain ⟨r, hc, h1, h2, h3⟩ := (hfetch _).1 hp
    refine ⟨r, ?_, h1, h2, h3⟩
    rw [hrun, ← hc]
    split <;> (rename_i h; rw [h])
  · intro e hp
    obtain ⟨e1, he⟩ := (hfetch _).2 e hp
    rw [hrun, he]

/-- The envelope with a channel and a user: one `GET` to the private URL. -/
theorem GetMessages_request_witness :
    (GetMessages (decoding (.ok emptyObject))
        "\x7b\"channel_id\":\"c1\",\"user_id\":\"u2\"\x7d" session123).2.calls.map
        (fun r => (r.Method, r.URL, r.Body)) =
      [("GET", "https://localhost:8080/api/v1/messages/c1/private/u2", [])] ∧
    ∃ r, (GetMessages (decoding (.ok emptyObject))
        "\x7b\"channel_id\":\"c1\",\"user_id\":\"u2\"\x7d" session123).2.calls =
        session123.calls ++ [r] ∧ r.Method = "GET" ∧
      r.URL = "https://localhost:8080/api/v1/messages/c1/private/u2" ∧ r.Body = [] :=
  ⟨rfl, (GetMessages_request (decoding (.ok emptyObject))
    "\x7b\"channel_id\":\"c1\",\"user_id\":\"u2\"\x7d" session123
    { ChannelId := "c1", UserID := "u2" } rfl).1 rfl⟩



/-! ## Bytes of text -/

theorem bytesOf_append (a b : String) : bytesOf (a ++ b) = bytesOf a ++ bytesOf b := by
  simp only [bytesOf, String.data_append, List.flatMap_append]

theorem lor_high_bit (x k : UInt8) (hk : k = 0x80 ∨ k = 0xc0 ∨ k = 0xe0 ∨ k = 0xf0) :
    128 ≤ (x ||| k).toNat := by
  have h1 : (x ||| k).toNat = x.toNat ||| k.toNat := by
    show (x.toBitVec ||| k.toBitVec).toNat = _
    rw [BitVec.toNat_or]
    rfl
  rw [h1]
  have hbit : (x.toNat ||| k.toNat).testBit 7 = true := by
    rw [Nat.testBit_or]
    have : k.toNat.testBit 7 = true := by
      rcases hk with rfl | rfl | rfl | rfl <;> decide
    rw [this, Bool.or_true]
  exact Nat.testBit_implies_ge hbit

/-- An ASCII byte in the UTF-8 encoding of a character is that character. -/
theorem utf8EncodeChar_ascii (c : Char) (b : UInt8) (hb : b ∈ String.utf8EncodeChar c)
    (hlt : b.toNat < 128) : c = Char.ofNat b.toNat := by
  have key : ∀ (x k : UInt8), (k = 0x80 ∨ k = 0xc0 ∨ k = 0xe0 ∨ k = 0xf0) →
      b = x ||| k → False := by
    intro x k hk hx
    have := lor_high_bit x k hk
    rw [hx] at hlt
    omega
  unfold String.utf8EncodeChar at hb
  simp only at hb
  split_ifs at hb with h1 h2 h3
  · simp only [List.mem_singleton] at hb
    subst hb
    have hv : c.val.toNat ≤ 127 := h1
    have : c.val.toUInt8.toNat = c.val.toNat := by
      show c.val.toNat % 256 = c.val.toNat
      omega
    rw [this]
    exact (Char.ofNat_toNat c).symm
  · simp only [List.mem_cons, List.mem_singleton, List.not_mem_nil, or_false] at hb
    rcases hb with hb | hb
    · exact (key _ _ (by simp) hb).elim
    · exact (key _ _ (by simp) hb).elim
  · simp only [List.mem_cons, List.mem_singleton, List.not_mem_nil, or_false] at hb
    rcases hb with hb | hb | hb
    · exact (key _ _ (by simp) hb).elim
    · exact (key _ _ (by simp) hb).elim
    · exact (key _ _ (by simp) hb).elim
  · simp only [List.mem_cons, List.mem_singleton, List.not_mem_nil, or_false] at hb
    rcases hb with hb | hb | hb | hb
    · exact (key _ _ (by simp) hb).elim
    · exact (key _ _ (by simp) hb).elim
    · exact (key _ _ (by simp) hb).elim
    · exact (key _ _ (by simp) hb).elim

theorem bytesOf_escapeQuotes (s : String) :
    bytesOf (escapeQuotes s) = escapeBytes (bytesOf s) := by
  simp only [bytesOf, escapeQuotes, escapeBytes, List.flatMap_assoc]
  congr 1
  funext c
  by_cases h1 : c = '\\'
  · subst h1
    rfl
  by_cases h2 : c = '"'
  · subst h2
    rfl
  by_cases h3 : c = '\n'
  · subst h3
    rfl
  by_cases h4 : c = '\r'
  · subst h4
    rfl
  have hc : (String.utf8EncodeChar c).flatMap
      (fun b => if b = 92 ∨ b = 34 then [92, b]
        else if b = 10 then [37, 48, 65]
        else if b = 13 then [37, 48, 68]
        else [b]) = String.utf8EncodeChar c := by
    have : ∀ b ∈ String.utf8EncodeChar c,
        (if b = 92 ∨ b = 34 then [(92 : UInt8), b]
          else if b = 10 then [37, 48, 65]
          else if b = 13 then [37, 48, 68]
          else [b]) = [b] := by
      intro b hb
      have hne : ¬ (b = 92 ∨ b = 34) := by
        rintro (rfl | rfl)
        · exact h1 (utf8EncodeChar_ascii c 92 hb (by decide))
        · exact h2 (utf8EncodeChar_ascii c 34 hb (by decide))
      have h10 : b ≠ 10 := by
        rintro rfl
        exact h3 (utf8EncodeChar_ascii c 10 hb (by decide))
      have h13 : b ≠ 13 := by
        rintro rfl
        exact h4 (utf8EncodeChar_ascii c 13 hb (by decide))
      rw [if_neg hne, if_neg h10, if_neg h13]
    rw [List.flatMap_congr this]
    simp
  simp [h1, h2, h3, h4, hc]

theorem validHeaderValueByte_ne (b : UInt8) (h : validHeaderValueByte b = true) :
    b ≠ 10 ∧ b ≠ 13 := by
  constructor <;> rintro rfl <;> revert h <;> decide

theorem escapeBytes_cons (b : UInt8) (l : List UInt8) :
    escapeBytes (b :: l) =
      (if b = 92 ∨ b = 34 then [92, b]
        else if b = 10 then [37, 48, 65]
        else if b = 13 then [37, 48, 68]
        else [b]) ++ escapeBytes l := by
  simp [escapeBytes]

/-- The escaped form of a name of valid header bytes holds valid header bytes. -/
theorem escapeBytes_valid (l : List UInt8) (h : ∀ b ∈ l, validHeaderValueByte b = true) :
    ∀ b ∈ escapeBytes l, validHeaderValueByte b = true := by
  intro b hb
  simp only [escapeBytes, List.mem_flatMap] at hb
  obtain ⟨x, hx, hbx⟩ := hb
  split_ifs at hbx
  · simp only [List.mem_cons, List.mem_singleton, List.not_mem_nil, or_false] at hbx
    rcases hbx with rfl | rfl
    · decide
    · exact h _ hx
  · simp only [List.mem_cons, List.mem_singleton, List.not_mem_nil, or_false] at hbx
    rcases hbx with rfl | rfl | rfl <;> decide
  · simp only [List.mem_cons, List.mem_singleton, List.not_mem_nil, or_false] at hbx
    rcases hbx with rfl | rfl | rfl <;> decide
  · simp only [List.mem_singleton] at hbx
    rw [hbx]
    exact h _ hx

theorem hexDigit_bytes (n : Nat) (hn : n < 16) :
    ∀ b ∈ String.utf8EncodeChar (hexDigit n), isHexByte b = true := by
  interval_cases n <;> decide

theorem randomBoundary_hex (rand : Nat → UInt8) :
    ∀ b ∈ bytesOf (randomBoundary rand), isHexByte b = true := by
  intro b hb
  simp only [bytesOf, randomBoundary, List.mem_flatMap, hexByte] at hb
  obtain ⟨c, ⟨i, -, hc⟩, hbc⟩ := hb
  have h16 : (rand i).toNat / 16 < 16 := by
    have := (rand i).toNat_lt
    omega
  have hm : (rand i).toNat % 16 < 16 := Nat.mod_lt _ (by decide)
  simp only [List.mem_cons, List.mem_singleton, List.not_mem_nil, or_false] at hc
  rcases hc with rfl | rfl
  · exact hexDigit_bytes _ h16 b hbc
  · exact hexDigit_bytes _ hm b hbc

/-! ## The first occurrence of a pattern -/

theorem splitAtFirst_hit (pat l : List UInt8) : splitAtFirst pat (pat ++ l) = some ([], l) := by
  cases h : pat ++ l with
  | nil =>
    have h1 : pat = [] := (List.append_eq_nil.mp h).1
    have h2 : l = [] := (List.append_eq_nil.mp h).2
    subst h1 h2
    rfl
  | cons x xs =>
    have hp : pat.isPrefixOf (x :: xs) = true := by
      rw [← h, List.isPrefixOf_iff_prefix]
      exact List.prefix_append pat l
    simp only [splitAtFirst, hp, ↓reduceIte, Option.some.injEq, Prod.mk.injEq, true_and]
    rw [← h, List.drop_left]

theorem splitAtFirst_skip (pat : List UInt8) (x : UInt8) (l : List UInt8)
    (h : pat.isPrefixOf (x :: l) = false) :
    splitAtFirst pat (x :: l) = (splitAtFirst pat l).map (fun r => (x :: r.1, r.2)) := by
  simp only [splitAtFirst, h, Bool.false_eq_true, ↓reduceIte]

theorem splitAtFirst_skip_all (p0 : UInt8) (ps a l : List UInt8) (ha : p0 ∉ a) :
    splitAtFirst (p0 :: ps) (a ++ l) =
      (splitAtFirst (p0 :: ps) l).map (fun r => (a ++ r.1, r.2)) := by
  induction a with
  | nil => simp
  | cons x a ih =>
    have hx : x ≠ p0 := fun h => ha (by rw [h]; exact List.mem_cons_self _ _)
    have hp : (p0 :: ps).isPrefixOf (x :: (a ++ l)) = false := by
      simp only [List.isPrefixOf, Bool.and_eq_false_imp, beq_iff_eq]
      intro h
      exact absurd h.symm hx
    rw [List.cons_append, splitAtFirst_skip _ _ _ hp,
      ih (fun h => ha (List.mem_cons_of_mem _ h))]
    cases splitAtFirst (p0 :: ps) l <;> rfl

/-- A pattern whose first byte occurs nowhere in `a` is first found right after
`a`. -/
theorem splitAtFirst_after (p0 : UInt8) (ps a l : List UInt8) (ha : p0 ∉ a) :
    splitAtFirst (p0 :: ps) (a ++ ((p0 :: ps) ++ l)) = some (a, l) := by
  rw [splitAtFirst_skip_all p0 ps a _ ha, splitAtFirst_hit]
  simp

/-- A pattern whose first byte does not occur again in it, and which does not occur
in `a`, is first found right after `a`. -/
theorem splitAtFirst_of_not_infix (p0 : UInt8) (ps a l : List UInt8) (hp : p0 ∉ ps)
    (ha : ¬ (p0 :: ps) <:+: a) :
    splitAtFirst (p0 :: ps) (a ++ ((p0 :: ps) ++ l)) = some (a, l) := by
  induction a with
  | nil => simpa using splitAtFirst_hit (p0 :: ps) l
  | cons x a ih =>
    have hnp : (p0 :: ps).isPrefixOf (x :: (a ++ ((p0 :: ps) ++ l))) = false := by
      rw [Bool.eq_false_iff]
      intro hpre
      rw [List.isPrefixOf_iff_prefix] at hpre
      have h2 : (x :: a) <+: (x :: a) ++ ((p0 :: ps) ++ l) := List.prefix_append _ _
      rw [← List.cons_append] at hpre
      rcases List.prefix_or_prefix_of_prefix hpre h2 with h | h
      · exact ha h.isInfix
      · obtain ⟨t, ht⟩ := h
        have hpre1 : (x :: a) ++ t <+: (x :: a) ++ ((p0 :: ps) ++ l) := by
          rw [ht]
          exact hpre
        have h3 : t <+: (p0 :: ps) ++ l := (List.prefix_append_right_inj _).mp hpre1
        cases t with
        | nil =>
          rw [List.append_nil] at ht
          exact ha (ht ▸ List.infix_refl _)
        | cons t0 t1 =>
          have ht0 : t0 = p0 := by
            obtain ⟨u, hu⟩ := h3
            simp only [List.cons_append, List.cons.injEq] at hu
            exact hu.1
          have hmem : p0 ∈ ps := by
            have : x :: (a ++ t0 :: t1) = p0 :: ps := by simpa using ht
            simp only [List.cons.injEq] at this
            rw [← this.2, ht0]
            simp
          exact hp hmem
    rw [List.cons_append, splitAtFirst_skip _ _ _ hnp,
      ih (fun h => ha (List.infix_cons h))]
    rfl

/-- A header line that holds no CR, and is not followed by a dash, is skipped with
its line end when the delimiter is looked for. -/
theorem splitAtFirst_skip_line (boundary a l : List UInt8) (ha : (13 : UInt8) ∉ a)
    (hl : l.head? ≠ some 45) :
    splitAtFirst (delimiter boundary) (a ++ (crlf ++ l)) =
      (splitAtFirst (delimiter boundary) l).map (fun r => (a ++ (crlf ++ r.1), r.2)) := by
  have h1 : (delimiter boundary).isPrefixOf (13 :: 10 :: l) = false := by
    cases l with
    | nil => rfl
    | cons y l =>
      have hy : y ≠ 45 := fun h => hl (by rw [h]; rfl)
      simp only [delimiter, List.isPrefixOf, beq_self_eq_true, Bool.true_and,
        Bool.and_eq_false_imp, beq_iff_eq]
      intro h
      exact absurd h.symm hy
  have h2 : (delimiter boundary).isPrefixOf (10 :: l) = false := rfl
  unfold delimiter at *
  rw [splitAtFirst_skip_all 13 _ a _ ha]
  show Option.map _ (splitAtFirst _ (13 :: 10 :: l)) = _
  rw [splitAtFirst_skip _ _ _ h1, splitAtFirst_skip _ _ _ h2]
  cases splitAtFirst (13 :: 10 :: 45 :: 45 :: boundary) l <;> simp [crlf]

/-! ## The layout of a written form -/

theorem partsBytes_field (boundary : String) (kv : String × String) (ps : List FormPart) :
    partsBytes boundary true (fieldPart kv :: ps) =
      delimiter (bytesOf boundary) ++ (crlf ++ (headerOf (fieldWritten kv) ++
        ((fieldWritten kv).content ++ partsBytes boundary true ps))) := by
  simp only [partsBytes, fieldPart, List.map_cons, List.map_nil, String.join, List.foldl,
    ↓reduceIte, bytesOf_append, bytesOf_escapeQuotes, headerOf, dispositionOf, fieldWritten,
    delimiter, List.append_assoc]
  rfl

theorem partsBytes_file (boundary : String) (kf : String × File) (ps : List FormPart) :
    partsBytes boundary true (filePart kf :: ps) =
      delimiter (bytesOf boundary) ++ (crlf ++ (headerOf (fileWritten kf) ++
        ((fileWritten kf).content ++ partsBytes boundary true ps))) := by
  simp only [partsBytes, filePart, List.map_cons, List.map_nil, String.join, List.foldl,
    ↓reduceIte, bytesOf_append, bytesOf_escapeQuotes, headerOf, dispositionOf, fileWritten,
    delimiter, List.append_assoc]
  rfl

theorem partsBytes_started (boundary : String) (p : FormPart) (ps : List FormPart) :
    crlf ++ partsBytes boundary false (p :: ps) = partsBytes boundary true (p :: ps) := by
  simp only [partsBytes, ↓reduceIte, bytesOf_append, List.append_assoc, Bool.false_eq_true]
  rfl

theorem closing_bytes (boundary : String) :
    bytesOf ("\r\n--" ++ boundary ++ "--\r\n") =
      delimiter (bytesOf boundary) ++ afterDelimiter (bytesOf boundary) [] := by
  simp only [bytesOf_append, delimiter, afterDelimiter, List.append_assoc]
  rfl

/-- The bytes of a written form, from its first delimiter on, laid out part by
part. -/
theorem partsBytes_layout (boundary : String) (fields : List (String × String))
    (files : List (String × File)) :
    partsBytes boundary true (fields.map fieldPart ++ files.map filePart) ++
        bytesOf ("\r\n--" ++ boundary ++ "--\r\n") =
      delimiter (bytesOf boundary) ++
        afterDelimiter (bytesOf boundary)
          (fields.map fieldWritten ++ files.map fileWritten) := by
  induction fields with
  | nil =>
    induction files with
    | nil => simpa [partsBytes] using closing_bytes boundary
    | cons kf files ih =>
      simp only [List.map_nil, List.nil_append, List.map_cons] at ih ⊢
      rw [partsBytes_file, afterDelimiter]
      simp only [List.append_assoc]
      rw [ih]
  | cons kv fields ih =>
    simp only [List.map_cons, List.cons_append] at ih ⊢
    rw [partsBytes_field, afterDelimiter]
    simp only [List.append_assoc]
    rw [ih]

/-- A written form: for a form without parts a line end, then two dashes, the
boundary and the parts. -/
theorem formBody_layout (boundary : String) (fields : List (String × String))
    (files : List (String × File)) :
    formBody boundary (fields.map fieldPart ++ files.map filePart) =
      (if fields.map fieldWritten ++ files.map fileWritten = [] then crlf else []) ++
      (45 :: 45 :: bytesOf boundary ++
        afterDelimiter (bytesOf boundary)
          (fields.map fieldWritten ++ files.map fileWritten)) := by
  unfold formBody
  cases h : fields.map fieldPart ++ files.map filePart with
  | nil =>
    have hf : fields = [] := by
      cases fields with
      | nil => rfl
      | cons a l => simp at h
    have hg : files = [] := by
      cases files with
      | nil => rfl
      | cons a l => simp [hf] at h
    subst hf hg
    simp only [partsBytes, List.nil_append, ↓reduceIte, List.map_nil, List.append_nil]
    rw [closing_bytes]
    rfl
  | cons p ps =>
    have hne : fields.map fieldWritten ++ files.map fileWritten ≠ [] := by
      intro hw
      have hl := congrArg List.length hw
      have hl2 := congrArg List.length h
      simp only [List.length_append, List.length_map, List.length_nil,
        List.length_cons] at hl hl2
      omega
    rw [if_neg hne]
    refine @List.append_cancel_left _ crlf _ _ ?_
    rw [← List.append_assoc, partsBytes_started, ← h, partsBytes_layout]
    rfl

/-! ## Reading the header of a part -/

theorem readLineSlice_crlf (line rest : List UInt8) (h10 : (10 : UInt8) ∉ line) :
    readLineSlice (line ++ (crlf ++ rest)) = some (line, rest) := by
  have hsplit : splitAtFirst [10] (line ++ (crlf ++ rest)) = some (line ++ [13], rest) := by
    have h : (10 : UInt8) ∉ line ++ [13] := by
      simp only [List.mem_append, List.mem_singleton, not_or]
      exact ⟨h10, by decide⟩
    have := splitAtFirst_after 10 [] (line ++ [13]) rest h
    simpa [crlf, List.append_assoc] using this
  cases hb : line ++ (crlf ++ rest) with
  | nil => simp [crlf] at hb
  | cons x xs =>
    rw [hb] at hsplit
    simp [readLineSlice, hsplit]

theorem skipLWSPChar_cons (a : UInt8) (l : List UInt8) (ha : a ≠ 32 ∧ a ≠ 9) :
    skipLWSPChar (a :: l) = a :: l := by
  simp [skipLWSPChar, ha.1, ha.2]

/-- A line that neither starts nor ends with a space or a tab is its own trim. -/
theorem trim_eq_self (a z : UInt8) (l : List UInt8) (ha : a ≠ 32 ∧ a ≠ 9)
    (hz : z ≠ 32 ∧ z ≠ 9) : trim (a :: (l ++ [z])) = a :: (l ++ [z]) := by
  unfold trim
  rw [skipLWSPChar_cons a _ ha]
  have hrev : (a :: (l ++ [z])).reverse = z :: (l.reverse ++ [a]) := by simp
  rw [hrev, skipLWSPChar_cons z _ hz, ← hrev, List.reverse_reverse]

theorem readContinuation_none (fuel : Nat) (line : List UInt8) (c : UInt8)
    (rest : List UInt8) (hc : c ≠ 32 ∧ c ≠ 9) :
    readContinuation fuel line (c :: rest) = (line, c :: rest) := by
  cases fuel with
  | zero => rfl
  | succ fuel => simp [readContinuation, hc.1, hc.2]

/-- One header line read by `readMIMEHeader`: a canonical key, a colon, a space and
a value of valid bytes, followed by a line that is not a continuation. -/
theorem readMIMEHeaderLoop_line (fuel : Nat) (m : MIMEHeader) (k0 z c : UInt8)
    (key value rest : List UInt8) (hk0 : k0 ≠ 32 ∧ k0 ≠ 9) (hz : z ≠ 32 ∧ z ≠ 9)
    (hc : c ≠ 32 ∧ c ≠ 9) (hcolon : (58 : UInt8) ∉ k0 :: key)
    (hkey10 : (10 : UInt8) ∉ k0 :: key)
    (hcanon : canonicalMIMEHeaderKey (k0 :: key) = some (k0 :: key))
    (hvalid : ∀ b ∈ value ++ [z], validHeaderValueByte b = true) :
    readMIMEHeaderLoop (fuel + 1) m
        ((k0 :: key) ++ (58 :: 32 :: (value ++ [z])) ++ (crlf ++ (c :: rest))) =
      readMIMEHeaderLoop fuel (SliceMap.append m (k0 :: key) (skipLWSPChar (value ++ [z])))
        (c :: rest) := by
  have h10 : (10 : UInt8) ∉ (k0 :: key) ++ (58 :: 32 :: (value ++ [z])) := by
    intro h
    rcases List.mem_append.mp h with h | h
    · exact hkey10 h
    · simp only [List.mem_cons] at h
      rcases h with h | h | h
      · revert h
        decide
      · revert h
        decide
      · exact (validHeaderValueByte_ne _ (hvalid _ h)).1 rfl
  have hline : (k0 :: key) ++ (58 :: 32 :: (value ++ [z])) =
      k0 :: ((key ++ (58 :: 32 :: value)) ++ [z]) := by simp
  have hsplit : splitAtFirst [58] ((k0 :: key) ++ (58 :: 32 :: (value ++ [z]))) =
      some (k0 :: key, 32 :: (value ++ [z])) := by
    have := splitAtFirst_after 58 [] (k0 :: key) (32 :: (value ++ [z])) hcolon
    simpa using this
  have hall : (32 :: (value ++ [z])).all validHeaderValueByte = true := by
    rw [List.all_eq_true]
    intro b hb
    rcases List.mem_cons.mp hb with rfl | hb
    · decide
    · exact hvalid b hb
  have hcontains : ((k0 :: key) ++ (58 :: 32 :: (value ++ [z]))).contains 58 = true := by
    simp
  rw [readMIMEHeaderLoop, readLineSlice_crlf _ _ h10]
  simp only [hcontains, Bool.not_true, Bool.false_eq_true, ↓reduceIte]
  rw [if_neg (by simp)]
  conv_lhs => rw [hline, trim_eq_self k0 z _ hk0 hz, ← hline]
  rw [readContinuation_none _ _ c rest hc]
  simp only [hsplit, hcanon, hall, Bool.not_true, Bool.false_eq_true, ↓reduceIte]
  rw [if_neg (by simp)]
  congr 1

theorem readMIMEHeaderLoop_end (fuel : Nat) (m : MIMEHeader) (rest : List UInt8) :
    readMIMEHeaderLoop (fuel + 1) m (crlf ++ rest) = .ok (m, rest) := by
  have := readLineSlice_crlf [] rest (by simp)
  simp only [List.nil_append] at this
  rw [readMIMEHeaderLoop, this]
  rfl

theorem skipLWSPChar_disposition (q : List UInt8) :
    skipLWSPChar (bytesOf "form-data; name=\"" ++ q) = bytesOf "form-data; name=\"" ++ q :=
  rfl

theorem dispositionOf_valid (p : WrittenPart)
    (hname : ∀ b ∈ p.name, validHeaderValueByte b = true)
    (hfile : ∀ filename, p.filename = some filename →
      ∀ b ∈ filename, validHeaderValueByte b = true) :
    ∀ b ∈ dispositionOf p, validHeaderValueByte b = true := by
  intro b hb
  unfold dispositionOf at hb
  cases hf : p.filename with
  | none =>
    rw [hf] at hb
    simp only [List.mem_append, List.mem_singleton] at hb
    rcases hb with hb | hb | rfl
    · revert b
      decide
    · exact escapeBytes_valid _ hname b hb
    · decide
  | some filename =>
    rw [hf] at hb
    simp only [List.mem_append, List.mem_singleton] at hb
    rcases hb with hb | hb | hb | hb | rfl
    · revert b
      decide
    · exact escapeBytes_valid _ hname b hb
    · revert b
      decide
    · exact escapeBytes_valid _ (hfile filename hf) b hb
    · decide

/-- The value of a written `Content-Disposition` line, without its closing quote. -/
theorem dispositionOf_eq (p : WrittenPart) :
    ∃ value, dispositionOf p = (bytesOf "form-data; name=\"" ++ value) ++ [34] := by
  unfold dispositionOf
  cases p.filename with
  | none => exact ⟨escapeBytes p.name, by simp⟩
  | some filename =>
    exact ⟨escapeBytes p.name ++ (bytesOf "\"; filename=\"" ++ escapeBytes filename), by simp⟩

/-- The header the writer wrote for a part is read back line by line. -/
theorem readMIMEHeader_headerOf (p : WrittenPart) (rest : List UInt8)
    (hname : ∀ b ∈ p.name, validHeaderValueByte b = true)
    (hfile : ∀ filename, p.filename = some filename →
      ∀ b ∈ filename, validHeaderValueByte b = true) :
    readMIMEHeader (headerOf p ++ rest) = .ok (headerMapOf p, rest) := by
  obtain ⟨value, hvalue⟩ := dispositionOf_eq p
  have hvalid := dispositionOf_valid p hname hfile
  have hskip : skipLWSPChar (dispositionOf p) = dispositionOf p := by
    rw [hvalue, List.append_assoc]
    rfl
  have hkey : bytesOf "Content-Disposition: " =
      (67 :: (bytesOf "Content-Disposition").tail) ++ [58, 32] := rfl
  have hkey2 : bytesOf "Content-Type: application/octet-stream" =
      (67 :: (bytesOf "Content-Type").tail) ++
        (58 :: 32 :: (bytesOf "application/octet-strea" ++ [109])) := rfl
  have hlen : ∃ n, (headerOf p ++ rest).length = n + 3 := by
    refine ⟨(headerOf p ++ rest).length - 3, ?_⟩
    have : 3 ≤ (headerOf p ++ rest).length := by
      unfold headerOf
      simp only [hkey, List.length_append, List.length_cons]
      omega
    omega
  obtain ⟨n, hn⟩ := hlen
  have hfirst : ∀ tail : List UInt8, headerOf p ++ rest =
      67 :: tail → readMIMEHeader (headerOf p ++ rest) =
        readMIMEHeaderLoop (n + 3 + 1) [] (headerOf p ++ rest) := by
    intro tail ht
    rw [← hn]
    unfold readMIMEHeader
    rw [ht]
    simp
  have hhead : ∃ tail, headerOf p ++ rest = 67 :: tail := by
    unfold headerOf
    rw [hkey]
    exact ⟨_, rfl⟩
  obtain ⟨tail, ht⟩ := hhead
  rw [hfirst tail ht]
  unfold headerOf headerMapOf
  cases hf : p.filename with
  | none =>
    simp only
    have hbuf : bytesOf "Content-Disposition: " ++ (dispositionOf p ++ (crlf ++ crlf)) ++ rest =
        (67 :: (bytesOf "Content-Disposition").tail) ++
          (58 :: 32 :: ((bytesOf "form-data; name=\"" ++ value) ++ [34])) ++
          (crlf ++ (13 :: (10 :: rest))) := by
      rw [hkey, hvalue]
      simp [crlf]
    rw [hbuf, readMIMEHeaderLoop_line (n + 3) [] 67 34 13 _ _ _ (by decide) (by decide)
      (by decide) (by decide) (by decide) (by decide) (by rw [← hvalue]; exact hvalid)]
    rw [← hvalue, hskip]
    exact readMIMEHeaderLoop_end (n + 2) _ rest
  | some filename =>
    simp only
    have hbuf : bytesOf "Content-Disposition: " ++ (dispositionOf p ++ (crlf ++
        (bytesOf "Content-Type: application/octet-stream" ++ (crlf ++ crlf)))) ++ rest =
        (67 :: (bytesOf "Content-Disposition").tail) ++
          (58 :: 32 :: ((bytesOf "form-data; name=\"" ++ value) ++ [34])) ++
          (crlf ++ (67 :: ((bytesOf "Content-Type: application/octet-stream").tail ++
            (crlf ++ (crlf ++ rest))))) := by
      rw [hkey, hvalue]
      simp [crlf]
      rfl
    rw [hbuf, readMIMEHeaderLoop_line (n + 3) [] 67 34 67 _ _ _ (by decide) (by decide)
      (by decide) (by decide) (by decide) (by decide) (by rw [← hvalue]; exact hvalid)]
    rw [← hvalue, hskip]
    have hbuf2 : (67 :: ((bytesOf "Content-Type: application/octet-stream").tail ++
        (crlf ++ (crlf ++ rest)))) =
        (67 :: (bytesOf "Content-Type").tail) ++
          (58 :: 32 :: (bytesOf "application/octet-strea" ++ [109])) ++
          (crlf ++ (13 :: (10 :: rest))) := rfl
    rw [hbuf2, readMIMEHeaderLoop_line (n + 2) _ 67 109 13 _ _ _ (by decide) (by decide)
      (by decide) (by decide) (by decide) (by decide) (by decide)]
    exact readMIMEHeaderLoop_end (n + 1) _ rest

/-! ## Reading the names of a part -/

theorem consumeQuoted_close (tail : List UInt8) :
    consumeQuoted (34 :: tail) = some ([], tail) := by
  cases tail <;> rfl

/-- A quoted string written by `escapeQuotes` for a name of valid header bytes is
read back as the name. -/
theorem consumeQuoted_escapeBytes (name tail : List UInt8)
    (hname : ∀ b ∈ name, validHeaderValueByte b = true) :
    consumeQuoted (escapeBytes name ++ (34 :: tail)) = some (name, tail) := by
  induction name with
  | nil => exact consumeQuoted_close tail
  | cons x name ih =>
    have ih1 := ih (fun b hb => hname b (List.mem_cons_of_mem _ hb))
    obtain ⟨hx10, hx13⟩ := validHeaderValueByte_ne x (hname x (List.mem_cons_self _ _))
    rw [escapeBytes_cons, if_neg hx10, if_neg hx13]
    by_cases hx : x = 92 ∨ x = 34
    · rw [if_pos hx]
      have hsp : isTSpecial x = true := by
        rcases hx with rfl | rfl <;> decide
      show consumeQuoted (92 :: x :: (escapeBytes name ++ 34 :: tail)) = _
      simp only [consumeQuoted, hsp, and_self, ↓reduceIte, ih1, Option.map_some']
      rfl
    · rw [if_neg hx]
      obtain ⟨c, rest, hcr⟩ : ∃ c rest, escapeBytes name ++ 34 :: tail = c :: rest := by
        cases h : escapeBytes name ++ 34 :: tail with
        | nil => simp at h
        | cons c rest => exact ⟨c, rest, rfl⟩
      have hx34 : x ≠ 34 := fun h => hx (Or.inr h)
      have hx92 : x ≠ 92 := fun h => hx (Or.inl h)
      show consumeQuoted (x :: (escapeBytes name ++ 34 :: tail)) = _
      rw [hcr] at ih1 ⊢
      simp only [consumeQuoted, hx34, hx92, hx13, hx10, false_and, or_self, ↓reduceIte, ih1,
        Option.map_some']

theorem consumeMediaParam_name (q : List UInt8) :
    consumeMediaParam (59 :: 32 :: (bytesOf "name=\"" ++ q)) =
      if (consumeValue (34 :: q)).1.isEmpty ∧ (consumeValue (34 :: q)).2 = 34 :: q then
        ([], [], 59 :: 32 :: (bytesOf "name=\"" ++ q))
      else (bytesOf "name", (consumeValue (34 :: q)).1, (consumeValue (34 :: q)).2) := rfl

theorem consumeMediaParam_filename (q : List UInt8) :
    consumeMediaParam (59 :: 32 :: (bytesOf "filename=\"" ++ q)) =
      if (consumeValue (34 :: q)).1.isEmpty ∧ (consumeValue (34 :: q)).2 = 34 :: q then
        ([], [], 59 :: 32 :: (bytesOf "filename=\"" ++ q))
      else (bytesOf "filename", (consumeValue (34 :: q)).1, (consumeValue (34 :: q)).2) := rfl

theorem consumeValue_escapeBytes (name tail : List UInt8)
    (hname : ∀ b ∈ name, validHeaderValueByte b = true) :
    consumeValue (34 :: (escapeBytes name ++ (34 :: tail))) = (name, tail) ∧
    ¬ ((name, tail).1.isEmpty ∧ (name, tail).2 = 34 :: (escapeBytes name ++ (34 :: tail))) := by
  constructor
  · simp [consumeValue, consumeQuoted_escapeBytes name tail hname]
  · rintro ⟨-, h⟩
    have := congrArg List.length h
    simp at this
    omega

/-- One parameter written by the writer, read by the loop of `ParseMediaType`. -/
theorem mediaParams_quoted (fuel : Nat) (key name tail : List UInt8)
    (params : List (List UInt8 × List UInt8))
    (hkey : ∀ q, consumeMediaParam (59 :: 32 :: (key ++ (61 :: 34 :: q))) =
      if (consumeValue (34 :: q)).1.isEmpty ∧ (consumeValue (34 :: q)).2 = 34 :: q then
        ([], [], 59 :: 32 :: (key ++ (61 :: 34 :: q)))
      else (key, (consumeValue (34 :: q)).1, (consumeValue (34 :: q)).2))
    (hne : key.isEmpty = false) (hstar : key.contains 42 = false)
    (hlook : List.lookup key params = none)
    (hname : ∀ b ∈ name, validHeaderValueByte b = true) :
    mediaParams (fuel + 1) (59 :: 32 :: (key ++ (61 :: 34 :: (escapeBytes name ++ (34 :: tail)))))
        params =
      mediaParams fuel tail (params ++ [(key, name)]) := by
  obtain ⟨hv, hnot⟩ := consumeValue_escapeBytes name tail hname
  have hparam := hkey (escapeBytes name ++ (34 :: tail))
  rw [hv, if_neg hnot] at hparam
  have htrim : trimLeftSpace (59 :: 32 :: (key ++ (61 :: 34 :: (escapeBytes name ++
      (34 :: tail))))) = 59 :: 32 :: (key ++ (61 :: 34 :: (escapeBytes name ++ (34 :: tail)))) :=
    rfl
  rw [mediaParams, htrim]
  simp only [hparam, hne, hstar, hlook, Bool.false_eq_true, ↓reduceIte]

theorem mediaParams_nil (fuel : Nat) (params : List (List UInt8 × List UInt8)) :
    mediaParams (fuel + 1) [] params = some params := rfl

theorem ParseMediaType_formData (q : List UInt8) :
    ParseMediaType (bytesOf "form-data; name=\"" ++ q) =
      (mediaParams ((bytesOf "form-data; name=\"" ++ q).length + 1)
        (59 :: 32 :: (bytesOf "name" ++ (61 :: 34 :: q))) []).map
        (fun ps => (bytesOf "form-data", ps)) := by
  rfl

/-- The `Content-Disposition` value of a written part parses into its names. -/
theorem ParseMediaType_dispositionOf (p : WrittenPart)
    (hname : ∀ b ∈ p.name, validHeaderValueByte b = true)
    (hfile : ∀ filename, p.filename = some filename →
      ∀ b ∈ filename, validHeaderValueByte b = true) :
    ParseMediaType (dispositionOf p) =
      some (bytesOf "form-data",
        match p.filename with
        | none => [(bytesOf "name", p.name)]
        | some filename => [(bytesOf "name", p.name), (bytesOf "filename", filename)]) := by
  unfold dispositionOf
  cases hf : p.filename with
  | none =>
    simp only
    rw [ParseMediaType_formData]
    have hl : (bytesOf "form-data; name=\"" ++ (escapeBytes p.name ++ [34])).length + 1 =
        (bytesOf "form-data; name=\"" ++ (escapeBytes p.name ++ [34])).length - 1 + 1 + 1 := by
      simp only [List.length_append, List.length_singleton]
      omega
    rw [hl, mediaParams_quoted _ (bytesOf "name") p.name [] []
      (fun q => consumeMediaParam_name q) rfl rfl rfl hname, mediaParams_nil]
    rfl
  | some filename =>
    simp only
    rw [ParseMediaType_formData]
    have hl : (bytesOf "form-data; name=\"" ++ (escapeBytes p.name ++
        (bytesOf "\"; filename=\"" ++ (escapeBytes filename ++ [34])))).length + 1 =
        (bytesOf "form-data; name=\"" ++ (escapeBytes p.name ++
        (bytesOf "\"; filename=\"" ++ (escapeBytes filename ++ [34])))).length - 2 + 1 + 1 + 1 := by
      simp only [List.length_append]
      have : 2 ≤ (bytesOf "form-data; name=\"").length := by decide
      omega
    have htail : bytesOf "\"; filename=\"" ++ (escapeBytes filename ++ [34]) =
        34 :: 59 :: 32 :: (bytesOf "filename" ++ (61 :: 34 :: (escapeBytes filename ++
          (34 :: [])))) := rfl
    have hlook : List.lookup (bytesOf "filename") ([] ++ [(bytesOf "name", p.name)]) = none :=
      rfl
    rw [hl, htail, mediaParams_quoted _ (bytesOf "name") p.name _ []
      (fun q => consumeMediaParam_name q) rfl rfl rfl hname,
      mediaParams_quoted _ (bytesOf "filename") filename [] ([] ++ [(bytesOf "name", p.name)])
      (fun q => consumeMediaParam_filename q) rfl rfl hlook (hfile filename hf),
      mediaParams_nil]
    rfl

theorem Get_headerMapOf (p : WrittenPart) :
    MIMEHeader.Get (headerMapOf p) (bytesOf "Content-Disposition") = dispositionOf p := by
  unfold headerMapOf
  cases p.filename <;> simp [MIMEHeader.Get, List.lookup]

theorem FormName_headerMapOf (p : WrittenPart)
    (hname : ∀ b ∈ p.name, validHeaderValueByte b = true)
    (hfile : ∀ filename, p.filename = some filename →
      ∀ b ∈ filename, validHeaderValueByte b = true) :
    FormName (headerMapOf p) = p.name := by
  rw [FormName, Get_headerMapOf, ParseMediaType_dispositionOf p hname hfile]
  cases p.filename <;> rfl

/-- `filepath.Base` leaves a name without a slash as it is. -/
theorem Base_eq_self (path : List UInt8) (hne : path ≠ []) (hs : (47 : UInt8) ∉ path) :
    Base path = path := by
  have h1 : path.reverse.dropWhile (fun b => b == 47) = path.reverse := by
    cases hr : path.reverse with
    | nil => rfl
    | cons a t =>
      have ha : a ∈ path := by
        rw [← List.mem_reverse, hr]
        exact List.mem_cons_self _ _
      have : a ≠ 47 := fun h => hs (h ▸ ha)
      have hb : (a == 47) = false := by simpa using this
      rw [List.dropWhile_cons, hb]
      rfl
  have h2 : path.reverse.takeWhile (fun b => b != 47) = path.reverse := by
    rw [List.takeWhile_eq_self_iff]
    intro x hx
    have : x ≠ 47 := fun h => hs (h ▸ List.mem_reverse.mp hx)
    simp [this]
  have h3 : path.isEmpty = false := by
    cases path with
    | nil => exact absurd rfl hne
    | cons _ _ => rfl
  simp only [Base, h3, h1, List.reverse_reverse, h2, Bool.false_eq_true, ↓reduceIte]

theorem FileName_headerMapOf (p : WrittenPart)
    (hname : ∀ b ∈ p.name, validHeaderValueByte b = true)
    (hfile : ∀ filename, p.filename = some filename →
      (∀ b ∈ filename, validHeaderValueByte b = true) ∧ filename ≠ [] ∧
        (47 : UInt8) ∉ filename) :
    FileName (headerMapOf p) = p.filename.getD [] := by
  rw [FileName, Get_headerMapOf,
    ParseMediaType_dispositionOf p hname (fun f hf => (hfile f hf).1)]
  cases hf : p.filename with
  | none => rfl
  | some filename =>
    obtain ⟨-, hne, hs⟩ := hfile filename hf
    have h3 : filename.isEmpty = false := by
      cases filename with
      | nil => exact absurd rfl hne
      | cons _ _ => rfl
    have hl : List.lookup (bytesOf "filename")
        [(bytesOf "name", p.name), (bytesOf "filename", filename)] = some filename := rfl
    simp only [hl, Option.getD_some, h3, Bool.false_eq_true, ↓reduceIte,
      Base_eq_self filename hne hs]

/-! ## Reading the body of a part and the delimiter after it -/

theorem matchAfterPrefix_afterDelimiter (boundary : List UInt8) (ps : List WrittenPart) :
    matchAfterPrefix (afterDelimiter boundary ps) = true := by
  cases ps <;> rfl

theorem isPrefixOf_append (a l : List UInt8) : a.isPrefixOf (a ++ l) = true := by
  rw [List.isPrefixOf_iff_prefix]
  exact List.prefix_append _ _

/-- The body of a written part is read up to the delimiter that follows it. -/
theorem readBody_content (boundary content after : List UInt8) (k : Nat)
    (hb : (13 : UInt8) ∉ boundary) (hclear : clearOf boundary content)
    (hafter : matchAfterPrefix after = true) :
    Reader.readBody (readerAt boundary (content ++ (delimiter boundary ++ after)) k) =
      some (content, readerAt boundary (delimiter boundary ++ after) k) := by
  have hdash : ((45 : UInt8) :: 45 :: boundary).isPrefixOf
      (content ++ (delimiter boundary ++ after)) = false := by
    rw [Bool.eq_false_iff]
    intro hpre
    rw [List.isPrefixOf_iff_prefix] at hpre
    rcases List.prefix_or_prefix_of_prefix hpre (List.prefix_append content _) with h | h
    · apply hclear
      obtain ⟨t, ht⟩ := h
      exact ⟨[], t, by simp [delimiter, crlf, ← ht]⟩
    · obtain ⟨t, ht⟩ := h
      have hpre1 : content ++ t <+: content ++ (delimiter boundary ++ after) := by
        rw [ht]
        exact hpre
      have h3 : t <+: delimiter boundary ++ after := (List.prefix_append_right_inj _).mp hpre1
      cases t with
      | nil =>
        apply hclear
        rw [List.append_nil] at ht
        exact ⟨[], [], by simp [delimiter, crlf, ht]⟩
      | cons t0 t1 =>
        have ht0 : t0 = 13 := by
          obtain ⟨u, hu⟩ := h3
          simp only [delimiter, List.cons_append, List.cons.injEq] at hu
          exact hu.1
        have hmem : (13 : UInt8) ∈ (45 : UInt8) :: 45 :: boundary := by
          rw [← ht, ← ht0]
          simp
        simp only [List.mem_cons] at hmem
        rcases hmem with h | h | h
        · revert h
          decide
        · revert h
          decide
        · exact hb h
  have htail : (13 : UInt8) ∉ (10 :: 45 :: 45 :: boundary) := by
    simp only [List.mem_cons, not_or]
    exact ⟨by decide, by decide, by decide, hb⟩
  have hnot : ¬ delimiter boundary <:+: content := by
    intro h
    apply hclear
    obtain ⟨s, t, hst⟩ := h
    exact ⟨crlf ++ s, t, by simp [← hst]⟩
  have hsplit : splitAtFirst (delimiter boundary) (content ++ (delimiter boundary ++ after)) =
      some (content, after) :=
    splitAtFirst_of_not_infix 13 _ content after htail hnot
  have hnl : ∀ buf, (readerAt boundary buf k).nlDashBoundary = delimiter boundary :=
    fun _ => rfl
  simp only [Reader.readBody, hnl]
  simp only [readerAt, hdash, Bool.false_eq_true, ↓reduceIte, scanUntilBoundary,
    hsplit, hafter, Option.map_some']

theorem readSlice_line (line rest : List UInt8) (h10 : (10 : UInt8) ∉ line) :
    readSlice (line ++ (10 :: rest)) = some (line ++ [10], rest) := by
  have := splitAtFirst_after 10 [] line rest h10
  simp only [List.singleton_append] at this
  simp [readSlice, this]

theorem not_mem_dashBoundary (boundary : List UInt8) (b : UInt8) (hb : b ∉ boundary)
    (h45 : b ≠ 45) : b ∉ (45 : UInt8) :: 45 :: boundary := by
  simp only [List.mem_cons, not_or]
  exact ⟨h45, h45, hb⟩

/-- A delimiter line followed by the header of a written part: the next part. -/
theorem nextPartLoop_delimiter (fuel : Nat) (expect : Bool) (k : Nat)
    (boundary rest : List UInt8) (p : WrittenPart) (hb : (10 : UInt8) ∉ boundary)
    (hname : ∀ b ∈ p.name, validHeaderValueByte b = true)
    (hfile : ∀ filename, p.filename = some filename →
      ∀ b ∈ filename, validHeaderValueByte b = true) :
    Reader.nextPartLoop (fuel + 1) expect
        (readerAt boundary ((45 :: 45 :: boundary) ++ (crlf ++ (headerOf p ++ rest))) k) =
      .ok (headerMapOf p, readerAt boundary rest (k + 1)) := by
  have hline : (10 : UInt8) ∉ (45 :: 45 :: boundary) ++ [13] := by
    simp only [List.mem_append, List.mem_singleton, not_or]
    exact ⟨not_mem_dashBoundary boundary 10 hb (by decide), by decide⟩
  have hslice : readSlice ((45 :: 45 :: boundary) ++ (crlf ++ (headerOf p ++ rest))) =
      some ((45 :: 45 :: boundary) ++ crlf, headerOf p ++ rest) := by
    have := readSlice_line _ (headerOf p ++ rest) hline
    simpa [crlf, List.append_assoc] using this
  have hdelim : ∀ buf, Reader.isBoundaryDelimiterLine (readerAt boundary buf k)
      ((45 :: 45 :: boundary) ++ crlf) = (true, readerAt boundary buf k) := by
    intro buf
    have hd : ((45 :: 45 :: boundary) ++ crlf).drop (45 :: 45 :: boundary).length = crlf :=
      List.drop_left _ _
    simp only [Reader.isBoundaryDelimiterLine, readerAt, isPrefixOf_append, ↓reduceIte, hd]
    simp [crlf, skipLWSPChar]
  rw [Reader.nextPartLoop]
  simp only [show (readerAt boundary ((45 :: 45 :: boundary) ++ (crlf ++ (headerOf p ++ rest)))
    k).buf = (45 :: 45 :: boundary) ++ (crlf ++ (headerOf p ++ rest)) from rfl, hslice, hdelim,
    ↓reduceIte, readMIMEHeader_headerOf p rest hname hfile]
  rfl

/-- The line end before a delimiter: skipped before the first part, and after a part
the announcement of a new part. -/
theorem nextPartLoop_lineEnd (fuel k : Nat) (boundary rest : List UInt8) :
    Reader.nextPartLoop (fuel + 1) false (readerAt boundary (crlf ++ rest) k) =
      Reader.nextPartLoop fuel (decide (k ≠ 0)) (readerAt boundary rest k) := by
  have hslice : readSlice (crlf ++ rest) = some (crlf, rest) := by
    have := readSlice_line [13] rest (by decide)
    simpa [crlf] using this
  have hdelim : ∀ buf, Reader.isBoundaryDelimiterLine (readerAt boundary buf k) crlf =
      (false, readerAt boundary buf k) := fun _ => rfl
  have hfinal : ∀ buf, Reader.isFinalBoundary (readerAt boundary buf k) crlf = false :=
    fun _ => rfl
  rw [Reader.nextPartLoop]
  simp only [show (readerAt boundary (crlf ++ rest) k).buf = crlf ++ rest from rfl, hslice,
    hdelim, hfinal, Bool.false_eq_true, ↓reduceIte]
  by_cases hk : k = 0
  · subst hk
    simp [readerAt]
  · simp [readerAt, hk]

/-- The final delimiter line: the end of the form. -/
theorem nextPartLoop_final (fuel : Nat) (expect : Bool) (k : Nat) (boundary : List UInt8)
    (hb : (10 : UInt8) ∉ boundary) :
    Reader.nextPartLoop (fuel + 1) expect
        (readerAt boundary ((45 :: 45 :: boundary) ++ [45, 45, 13, 10]) k) =
      .error .EOF := by
  have hline : (10 : UInt8) ∉ (45 :: 45 :: boundary) ++ [45, 45, 13] := by
    simp only [List.mem_append, not_or]
    exact ⟨not_mem_dashBoundary boundary 10 hb (by decide), by decide⟩
  have hslice : readSlice ((45 :: 45 :: boundary) ++ [45, 45, 13, 10]) =
      some ((45 :: 45 :: boundary) ++ [45, 45, 13, 10], []) := by
    have := readSlice_line _ [] hline
    simpa [List.append_assoc] using this
  have hd : ((45 :: 45 :: boundary) ++ [45, 45, 13, 10]).drop (45 :: 45 :: boundary).length =
      [45, 45, 13, 10] := List.drop_left _ _
  have hdelim : ∀ buf, Reader.isBoundaryDelimiterLine (readerAt boundary buf k)
      ((45 :: 45 :: boundary) ++ [45, 45, 13, 10]) = (false, readerAt boundary buf k) := by
    intro buf
    simp only [Reader.isBoundaryDelimiterLine, readerAt, isPrefixOf_append, ↓reduceIte, hd]
    simp [crlf, skipLWSPChar]
  have hfinal : ∀ buf, Reader.isFinalBoundary (readerAt boundary buf k)
      ((45 :: 45 :: boundary) ++ [45, 45, 13, 10]) = true := by
    intro buf
    have hp : ((45 :: 45 :: boundary) ++ [45, 45]).isPrefixOf
        ((45 :: 45 :: boundary) ++ [45, 45, 13, 10]) = true := by
      have := isPrefixOf_append ((45 :: 45 :: boundary) ++ [45, 45]) [13, 10]
      simp
    have hd2 : ((45 :: 45 :: boundary) ++ [45, 45, 13, 10]).drop
        ((45 :: 45 :: boundary).length + 2) = [13, 10] := by
      have := List.drop_left ((45 :: 45 :: boundary) ++ [45, 45]) [13, 10]
      simp only [List.length_append, List.length_cons, List.length_nil] at this
      rw [List.append_assoc] at this
      exact this
    simp only [Reader.isFinalBoundary, readerAt, hp, ↓reduceIte, hd2]
    rfl
  rw [Reader.nextPartLoop]
  simp only [show (readerAt boundary ((45 :: 45 :: boundary) ++ [45, 45, 13, 10]) k).buf =
    (45 :: 45 :: boundary) ++ [45, 45, 13, 10] from rfl, hslice, hdelim, hfinal,
    Bool.false_eq_true, ↓reduceIte]

/-! ## Reading a written form back -/

theorem length_afterDelimiter (boundary : List UInt8) (ps : List WrittenPart) :
    ps.length + 3 < (afterDelimiter boundary ps).length := by
  induction ps with
  | nil => simp [afterDelimiter]
  | cons p ps ih =>
    simp only [afterDelimiter, List.length_append, List.length_cons, crlf, List.length_nil]
    omega

/-- After a delimiter of a written form: the next part, or the end of the form. -/
theorem nextPart_afterDelimiter (boundary : List UInt8) (ps : List WrittenPart) (k : Nat)
    (hne : boundary ≠ []) (hb : (10 : UInt8) ∉ boundary)
    (hps : ∀ p ∈ ps, Readable boundary p) :
    (readerAt boundary (delimiter boundary ++ afterDelimiter boundary ps) k).nextPart =
      match ps with
      | [] => .error .EOF
      | p :: ps =>
        .ok (headerMapOf p, readerAt boundary
          (p.content ++ (delimiter boundary ++ afterDelimiter boundary ps)) (k + 1)) := by
  have hdash : (readerAt boundary (delimiter boundary ++ afterDelimiter boundary ps)
      k).dashBoundary ≠ [45, 45] := by
    intro h
    simp only [readerAt, List.cons.injEq, true_and] at h
    exact hne h
  have hbuf : (readerAt boundary (delimiter boundary ++ afterDelimiter boundary ps) k).buf =
      crlf ++ ((45 :: 45 :: boundary) ++ afterDelimiter boundary ps) := rfl
  obtain ⟨n, hn⟩ : ∃ n, (crlf ++ ((45 :: 45 :: boundary) ++
      afterDelimiter boundary ps)).length + 1 = n + 2 := ⟨_, by simp [crlf]; rfl⟩
  rw [Reader.nextPart, if_neg hdash, hbuf, hn]
  have hr : readerAt boundary (delimiter boundary ++ afterDelimiter boundary ps) k =
      readerAt boundary (crlf ++ ((45 :: 45 :: boundary) ++ afterDelimiter boundary ps)) k :=
    rfl
  rw [hr, nextPartLoop_lineEnd]
  cases ps with
  | nil => exact nextPartLoop_final n _ k boundary hb
  | cons p ps =>
    obtain ⟨⟨-, hname⟩, hfile, -⟩ := hps p (List.mem_cons_self _ _)
    simp only [afterDelimiter]
    exact nextPartLoop_delimiter n _ k boundary _ p hb hname (fun f hf => (hfile f hf).1)

/-- At the start of a written form that has a part: the first part. -/
theorem nextPart_first (boundary : List UInt8) (p : WrittenPart) (ps : List WrittenPart)
    (hne : boundary ≠ []) (hb : (10 : UInt8) ∉ boundary) (hp : Readable boundary p) :
    (readerAt boundary ((45 :: 45 :: boundary) ++ afterDelimiter boundary (p :: ps))
        0).nextPart =
      .ok (headerMapOf p, readerAt boundary
        (p.content ++ (delimiter boundary ++ afterDelimiter boundary ps)) 1) := by
  have hdash : (readerAt boundary ((45 :: 45 :: boundary) ++
      afterDelimiter boundary (p :: ps)) 0).dashBoundary ≠ [45, 45] := by
    intro h
    simp only [readerAt, List.cons.injEq, true_and] at h
    exact hne h
  obtain ⟨⟨-, hname⟩, hfile, -⟩ := hp
  rw [Reader.nextPart, if_neg hdash]
  simp only [afterDelimiter]
  exact nextPartLoop_delimiter _ _ 0 boundary _ p hb hname (fun f hf => (hfile f hf).1)

/-- One turn of the loop of `ReadForm` on a written part. -/
theorem readFormLoop_step (fuel maxParts k : Nat) (r : Reader) (boundary : List UInt8)
    (p : WrittenPart) (ps : List WrittenPart) (form : Form)
    (hb : (13 : UInt8) ∉ boundary) (hp : Readable boundary p)
    (hnext : r.nextPart = .ok (headerMapOf p, readerAt boundary
      (p.content ++ (delimiter boundary ++ afterDelimiter boundary ps)) k)) :
    Reader.readFormLoop (fuel + 1) (maxParts + 1) r form =
      Reader.readFormLoop fuel maxParts
        (readerAt boundary (delimiter boundary ++ afterDelimiter boundary ps) k)
        (form.add p) := by
  obtain ⟨⟨hne, hname⟩, hfile, hclear⟩ := hp
  have hbody := readBody_content boundary p.content (afterDelimiter boundary ps) k hb hclear
    (matchAfterPrefix_afterDelimiter boundary ps)
  have hform := FormName_headerMapOf p hname (fun f hf => (hfile f hf).1)
  have hfn := FileName_headerMapOf p hname hfile
  have hne1 : p.name.isEmpty = false := by
    cases hn : p.name with
    | nil => exact absurd hn hne
    | cons _ _ => rfl
  rw [Reader.readFormLoop, hnext]
  simp only [Nat.add_one_ne_zero, ↓reduceIte, hbody, hform, hfn, hne1, Bool.false_eq_true,
    Nat.add_sub_cancel]
  unfold Form.add
  cases hf : p.filename with
  | none => rfl
  | some filename =>
    have hne2 : filename.isEmpty = false := by
      cases hx : filename with
      | nil => exact absurd hx (hfile filename hf).2.1
      | cons _ _ => rfl
    simp only [Option.getD_some, hne2, Bool.false_eq_true, ↓reduceIte]

/-- The loop of `ReadForm` from a delimiter of a written form on: every part is
added to the form. -/
theorem readFormLoop_afterDelimiter (boundary : List UInt8) (ps : List WrittenPart)
    (fuel maxParts k : Nat) (form : Form) (hne : boundary ≠ [])
    (hb10 : (10 : UInt8) ∉ boundary) (hb13 : (13 : UInt8) ∉ boundary)
    (hps : ∀ p ∈ ps, Readable boundary p) (hfuel : ps.length < fuel)
    (hmax : ps.length ≤ maxParts) :
    Reader.readFormLoop fuel maxParts
        (readerAt boundary (delimiter boundary ++ afterDelimiter boundary ps) k) form =
      .ok (ps.foldl Form.add form) := by
  induction ps generalizing fuel maxParts k form with
  | nil =>
    cases fuel with
    | zero => cases hfuel
    | succ fuel =>
      rw [Reader.readFormLoop, nextPart_afterDelimiter boundary [] k hne hb10 hps]
      rfl
  | cons p ps ih =>
    cases fuel with
    | zero => cases hfuel
    | succ fuel =>
      cases maxParts with
      | zero => cases hmax
      | succ maxParts =>
        rw [readFormLoop_step fuel maxParts (k + 1) _ boundary p ps form hb13
          (hps p (List.mem_cons_self _ _))
          (nextPart_afterDelimiter boundary (p :: ps) k hne hb10 hps)]
        exact ih fuel maxParts (k + 1) _ (fun x hx => hps x (List.mem_cons_of_mem _ hx))
          (by simpa using hfuel) (by simpa using hmax)

/-- A written form of at most 1000 readable parts is read part by part. -/
theorem ReadForm_formBody (boundary : String) (fields : List (String × String))
    (files : List (String × File)) (hne : bytesOf boundary ≠ [])
    (hb10 : (10 : UInt8) ∉ bytesOf boundary) (hb13 : (13 : UInt8) ∉ bytesOf boundary)
    (hps : ∀ p ∈ fields.map fieldWritten ++ files.map fileWritten,
      Readable (bytesOf boundary) p)
    (hmax : (fields.map fieldWritten ++ files.map fileWritten).length ≤ 1000) :
    ReadForm (bytesOf boundary)
        (formBody boundary (fields.map fieldPart ++ files.map filePart)) =
      .ok ((fields.map fieldWritten ++ files.map fileWritten).foldl Form.add ⟨[], []⟩) := by
  have hlen := length_afterDelimiter (bytesOf boundary)
    (fields.map fieldWritten ++ files.map fileWritten)
  rw [ReadForm, formBody_layout]
  cases hw : fields.map fieldWritten ++ files.map fileWritten with
  | nil =>
    rw [hw] at hlen
    simp only [↓reduceIte]
    exact readFormLoop_afterDelimiter (bytesOf boundary) [] _ 1000 0 _ hne hb10 hb13
      (by simp) (by simp) (by simp)
  | cons p ps =>
    rw [hw] at hlen hps hmax
    simp only [reduceCtorEq, ↓reduceIte, List.nil_append]
    have hstep := readFormLoop_step
      (((45 : UInt8) :: 45 :: bytesOf boundary ++
        afterDelimiter (bytesOf boundary) (p :: ps)).length) 999 1
      (readerAt (bytesOf boundary) ((45 :: 45 :: bytesOf boundary) ++
        afterDelimiter (bytesOf boundary) (p :: ps)) 0) (bytesOf boundary) p ps ⟨[], []⟩ hb13
      (hps p (List.mem_cons_self _ _))
      (nextPart_first (bytesOf boundary) p ps hne hb10 (hps p (List.mem_cons_self _ _)))
    have hnew : NewReader ((45 : UInt8) :: 45 :: bytesOf boundary ++
        afterDelimiter (bytesOf boundary) (p :: ps)) (bytesOf boundary) =
        readerAt (bytesOf boundary) ((45 :: 45 :: bytesOf boundary) ++
          afterDelimiter (bytesOf boundary) (p :: ps)) 0 := rfl
    rw [hnew, hstep]
    apply readFormLoop_afterDelimiter (bytesOf boundary) ps _ 999 1 _ hne hb10 hb13
      (fun x hx => hps x (List.mem_cons_of_mem _ hx))
    · simp only [List.length_append, List.length_cons] at hlen ⊢
      omega
    · simp only [List.length_cons] at hmax
      omega

/-! ## The form read back -/

theorem SliceMap.append_new {β : Type} (m : SliceMap β) (key : List UInt8) (v : β)
    (h : key ∉ m.map Prod.fst) : SliceMap.append m key v = m ++ [(key, [v])] := by
  induction m with
  | nil => rfl
  | cons e m ih =>
    obtain ⟨k, vs⟩ := e
    simp only [List.map_cons, List.mem_cons, not_or] at h
    have hk : k ≠ key := fun hk => h.1 hk.symm
    simp only [SliceMap.append, hk, ↓reduceIte, ih h.2, List.cons_append]

/-- Fields with distinct names are stored one entry each, in the order read. -/
theorem foldl_add_fields (fields : List (String × String)) (form : Form)
    (h : (form.Value.map Prod.fst ++ fields.map (fun kv => bytesOf kv.1)).Nodup) :
    (fields.map fieldWritten).foldl Form.add form =
      { form with Value := form.Value ++ fields.map valueEntry } := by
  induction fields generalizing form with
  | nil => simp
  | cons kv fields ih =>
    have hnew : bytesOf kv.1 ∉ form.Value.map Prod.fst := by
      intro hm
      rw [List.nodup_append] at h
      exact h.2.2 hm (List.mem_cons_self _ _)
    have hadd : form.add (fieldWritten kv) =
        { form with Value := form.Value ++ [valueEntry kv] } := by
      simp only [Form.add, fieldWritten, SliceMap.append_new _ _ _ hnew, valueEntry]
    rw [List.map_cons, List.foldl_cons, hadd, ih]
    · simp
    · simp only [List.map_append, List.map_cons, List.map_nil, valueEntry, List.append_assoc,
        List.singleton_append]
      simpa using h

/-- Files with distinct part names are stored one entry each, in the order read. -/
theorem foldl_add_files (files : List (String × File)) (form : Form)
    (h : (form.File.map Prod.fst ++ files.map (fun kf => bytesOf kf.1)).Nodup) :
    (files.map fileWritten).foldl Form.add form =
      { form with File := form.File ++ files.map fileEntry } := by
  induction files generalizing form with
  | nil => simp
  | cons kf files ih =>
    have hnew : bytesOf kf.1 ∉ form.File.map Prod.fst := by
      intro hm
      rw [List.nodup_append] at h
      exact h.2.2 hm (List.mem_cons_self _ _)
    have hadd : form.add (fileWritten kf) =
        { form with File := form.File ++ [fileEntry kf] } := by
      simp only [Form.add, fileWritten, SliceMap.append_new _ _ _ hnew, fileEntry]
    rw [List.map_cons, List.foldl_cons, hadd, ih]
    · simp
    · simp only [List.map_append, List.map_cons, List.map_nil, fileEntry, List.append_assoc,
        List.singleton_append]
      simpa using h

theorem foldl_add_written (fields : List (String × String)) (files : List (String × File))
    (hfields : (fields.map (fun kv => bytesOf kv.1)).Nodup)
    (hfiles : (files.map (fun kf => bytesOf kf.1)).Nodup) :
    (fields.map fieldWritten ++ files.map fileWritten).foldl Form.add ⟨[], []⟩ =
      ⟨fields.map valueEntry, files.map fileEntry⟩ := by
  rw [List.foldl_append, foldl_add_fields fields ⟨[], []⟩ (by simpa using hfields),
    foldl_add_files files _ (by simpa using hfiles)]
  simp

/-! ## The boundary announced in the content type -/

theorem not_mem_of_hex (l : List UInt8) (h : ∀ b ∈ l, isHexByte b = true) (b : UInt8)
    (hb : isHexByte b = false) : b ∉ l := by
  intro hm
  rw [h b hm] at hb
  cases hb

set_option maxRecDepth 100000 in
theorem isTokenChar_of_hex (b : UInt8) (h : isHexByte b = true) : isTokenChar b = true := by
  have key : ∀ n, n < 256 → isHexByte (UInt8.ofNat n) = true →
      isTokenChar (UInt8.ofNat n) = true := by
    decide
  have hb : UInt8.ofNat b.toNat = b := by
    cases b
    simp [UInt8.ofNat, UInt8.toNat]
  have := key b.toNat b.toNat_lt
  rw [hb] at this
  exact this h

theorem consumeToken_hex (l : List UInt8) (h : ∀ b ∈ l, isHexByte b = true) :
    consumeToken l = (l, []) := by
  induction l with
  | nil => rfl
  | cons b l ih =>
    have hb : isTokenChar b = true := isTokenChar_of_hex b (h b (List.mem_cons_self _ _))
    simp only [consumeToken, hb, ↓reduceIte, ih (fun x hx => h x (List.mem_cons_of_mem _ hx)),
      List.cons]

theorem randomBoundary_ne_nil (rand : Nat → UInt8) : bytesOf (randomBoundary rand) ≠ [] := by
  obtain ⟨c, cs, hc⟩ : ∃ c cs, (randomBoundary rand).data = c :: cs := ⟨_, _, rfl⟩
  intro h
  have hlen := congrArg List.length h
  simp only [bytesOf, hc, List.flatMap_cons, List.length_append,
    String.length_utf8EncodeChar, List.length_nil] at hlen
  have := Char.utf8Size_pos c
  omega

theorem consumeMediaParam_boundary (q : List UInt8) :
    consumeMediaParam (59 :: 32 :: (bytesOf "boundary=" ++ q)) =
      if (consumeValue (trimLeftSpace q)).1.isEmpty ∧
          (consumeValue (trimLeftSpace q)).2 = trimLeftSpace q then
        ([], [], 59 :: 32 :: (bytesOf "boundary=" ++ q))
      else (bytesOf "boundary", (consumeValue (trimLeftSpace q)).1,
        (consumeValue (trimLeftSpace q)).2) := rfl

theorem ParseMediaType_formDataType (q : List UInt8) :
    ParseMediaType (bytesOf "multipart/form-data; boundary=" ++ q) =
      (mediaParams ((bytesOf "multipart/form-data; boundary=" ++ q).length + 1)
        (59 :: 32 :: (bytesOf "boundary=" ++ q)) []).map
        (fun ps => (bytesOf "multipart/form-data", ps)) := by
  rfl

/-- The boundary announced by the content type the writer gives is the boundary of
the writer. -/
theorem boundaryOf_formData (rand : Nat → UInt8) :
    boundaryOf ("multipart/form-data; boundary=" ++ randomBoundary rand) =
      some (bytesOf (randomBoundary rand)) := by
  have hhex := randomBoundary_hex rand
  have hne := randomBoundary_ne_nil rand
  rw [boundaryOf, bytesOf_append, ParseMediaType_formDataType]
  cases hl : bytesOf (randomBoundary rand) with
  | nil => exact absurd hl hne
  | cons h0 hs =>
    rw [hl] at hhex
    have h0hex := hhex h0 (List.mem_cons_self _ _)
    have hsp : isSpace h0 = false := by
      have : ∀ b, isHexByte b = true → isSpace b = false := by
        intro b hb
        by_contra hc
        have hs : isSpace b = true := by simpa using hc
        simp only [isSpace, Bool.or_eq_true, decide_eq_true_eq] at hs
        rcases hs with ((((rfl | rfl) | rfl) | rfl) | rfl) | rfl <;> revert hb <;> decide
      exact this h0 h0hex
    have h34 : h0 ≠ 34 := by
      rintro rfl
      exact absurd h0hex (by decide)
    have htok := consumeToken_hex (h0 :: hs) hhex
    have htrim : trimLeftSpace (h0 :: hs) = h0 :: hs := by
      simp [trimLeftSpace, List.dropWhile, hsp]
    have hval : consumeValue (h0 :: hs) = (h0 :: hs, []) := by
      simp only [consumeValue, h34, ↓reduceIte, htok]
    have hparam := consumeMediaParam_boundary (h0 :: hs)
    rw [htrim, hval] at hparam
    simp only [List.isEmpty_cons, Bool.false_eq_true, false_and, ↓reduceIte] at hparam
    have hv : trimLeftSpace (59 :: 32 :: (bytesOf "boundary=" ++ h0 :: hs)) =
        59 :: 32 :: (bytesOf "boundary=" ++ h0 :: hs) := rfl
    have hlen : (bytesOf "multipart/form-data; boundary=" ++ h0 :: hs).length + 1 =
        (bytesOf "multipart/form-data; boundary=" ++ hs).length + 1 + 1 := by
      simp only [List.length_append, List.length_cons]
      omega
    have hstar : (bytesOf "boundary").contains 42 = false := rfl
    have hemp : (bytesOf "boundary").isEmpty = false := rfl
    rw [hlen, mediaParams, hv]
    simp only [hparam, hemp, hstar, Bool.false_eq_true, ↓reduceIte, List.lookup,
      mediaParams_nil, List.nil_append, Option.map_some']
    rfl

/-! ## The round trip of a multipart request -/

theorem authHeaders_Get_ContentType (env : Env) (w : World) (value : String) :
    (authHeaders env w [] (Header.Set [] "Content-Type" value)).Get "Content-Type" = value := by
  simp [Header.Get, authHeaders_values, order_nil, lastOverride, canon_ContentType,
    Header.values_Set]

/-- The request built for a `MultipartData`: its body and its content type. -/
theorem authFetchRequest_multipart (env : Env) (w : World) (method url : String)
    (d : MultipartData) (req : Request)
    (h : authFetchRequest env w method url (.multipart d) [] = .ok req) :
    req.Body = formBody (randomBoundary env.rand)
      ((env.order String d.Fields).map fieldPart ++ (env.order File d.Files).map filePart) ∧
    req.Header.Get "Content-Type" =
      "multipart/form-data; boundary=" ++ randomBoundary env.rand := by
  obtain ⟨req0, h0, rfl⟩ := authFetchRequest_ok env w method url _ [] req h
  obtain ⟨hb, hh⟩ := encodeRequest_multipart env method url d req0 h0
  constructor
  · simp only [hb, (writeForm_eq env d).2]
  · simp only [hh, authHeaders_Get_ContentType, FormDataContentType_writeForm]

set_option maxRecDepth 1000000 in
/-- C11, as stated, fails. The banner form of a file named `d/a.png` is read back
with the file name `a.png`: the reader keeps the base name only. The banner form of
a file with the empty name is read back with the file content as the value of a
field `banner` and with no file. A form with a field whose name is empty is read
back without that field. -/
theorem form_is_not_read_back_as_written :
    (∃ req, authFetchRequest offline session123 "POST"
        "https://localhost:8080/api/v1/user/change_banner"
        (.multipart (bannerForm [1, 2, 3] "d/a.png" 0 0 10 10 "old.png")) [] = .ok req ∧
      boundaryOf (req.Header.Get "Content-Type") =
        some (bytesOf (randomBoundary offline.rand)) ∧
      ReadForm (bytesOf (randomBoundary offline.rand)) req.Body =
        .ok ⟨[valueEntry ("cropY", "0"), valueEntry ("cropX", "0"),
            valueEntry ("cropWidth", "10"), valueEntry ("cropHeight", "10"),
            valueEntry ("old_banner", "old.png")],
          [(bytesOf "banner", [⟨bytesOf "a.png", [1, 2, 3]⟩])]⟩) ∧
    (∃ req, authFetchRequest offline session123 "POST"
        "https://localhost:8080/api/v1/user/change_banner"
        (.multipart (bannerForm [1, 2, 3] "" 0 0 10 10 "old.png")) [] = .ok req ∧
      ReadForm (bytesOf (randomBoundary offline.rand)) req.Body =
        .ok ⟨[valueEntry ("cropY", "0"), valueEntry ("cropX", "0"),
            valueEntry ("cropWidth", "10"), valueEntry ("cropHeight", "10"),
            valueEntry ("old_banner", "old.png"), (bytesOf "banner", [[1, 2, 3]])],
          []⟩) ∧
    (∃ req, authFetchRequest offline session123 "POST"
        "https://localhost:8080/api/v1/user/change_banner"
        (.multipart ⟨[("", "v"), ("k", "w")], []⟩) [] = .ok req ∧
      ReadForm (bytesOf (randomBoundary offline.rand)) req.Body =
        .ok ⟨[valueEntry ("k", "w")], []⟩) :=
  ⟨⟨_, rfl, rfl, rfl⟩, ⟨_, rfl, rfl⟩, ⟨_, rfl, rfl⟩⟩

/-- C11, amended: for every `MultipartData` of at most 1000 parts whose field names
are distinct and whose part names are distinct, whose field names and part names are
not empty, whose file names are not empty and hold no slash, whose names and file
names hold only bytes valid in a header value (no control character other than the
tab, so no CR and no LF), and whose field values and file contents, each preceded by a
line end, do not contain the delimiter (CR LF, two dashes, the boundary): the
`Content-Type` of the request `authFetch` builds announces the boundary, and the
body read with `ReadForm` yields a form whose values are exactly the fields, one
value per name, and whose files are exactly the files, one per part name, with the
file name and the content of each. -/
theorem multipart_round_trip (env : Env) (w : World) (method url : String)
    (d : MultipartData) (req : Request)
    (h : authFetchRequest env w method url (.multipart d) [] = .ok req)
    (hcount : d.Fields.length + d.Files.length ≤ 1000)
    (hdistinct : (d.Fields.map (fun kv => bytesOf kv.1)).Nodup ∧
      (d.Files.map (fun kf => bytesOf kf.1)).Nodup)
    (hfields : ∀ kv ∈ d.Fields, plainName kv.1 ∧
      clearOf (bytesOf (randomBoundary env.rand)) (bytesOf kv.2))
    (hfiles : ∀ kf ∈ d.Files, plainName kf.1 ∧ plainFileName kf.2.Name ∧
      clearOf (bytesOf (randomBoundary env.rand)) kf.2.Data) :
    boundaryOf (req.Header.Get "Content-Type") = some (bytesOf (randomBoundary env.rand)) ∧
    ∃ form, ReadForm (bytesOf (randomBoundary env.rand)) req.Body = .ok form ∧
      form.Value = (env.order String d.Fields).map valueEntry ∧
      form.File = (env.order File d.Files).map fileEntry ∧
      form.Value.Perm (d.Fields.map valueEntry) ∧
      form.File.Perm (d.Files.map fileEntry) := by
  obtain ⟨hbody, hct⟩ := authFetchRequest_multipart env w method url d req h
  have hpf := env.order_perm String d.Fields
  have hpg := env.order_perm File d.Files
  have hhex := randomBoundary_hex env.rand
  refine ⟨by rw [hct]; exact boundaryOf_formData env.rand,
    ⟨(env.order String d.Fields).map valueEntry, (env.order File d.Files).map fileEntry⟩,
    ?_, rfl, rfl, hpf.map _, hpg.map _⟩
  rw [hbody, ReadForm_formBody (randomBoundary env.rand) _ _ (randomBoundary_ne_nil env.rand)
    (not_mem_of_hex _ hhex 10 (by decide)) (not_mem_of_hex _ hhex 13 (by decide)),
    foldl_add_written _ _ ((hpf.map _).nodup_iff.mpr hdistinct.1)
      ((hpg.map _).nodup_iff.mpr hdistinct.2)]
  · intro p hp
    rcases List.mem_append.mp hp with hp | hp
    · obtain ⟨kv, hkv, rfl⟩ := List.mem_map.mp hp
      obtain ⟨hn, hc⟩ := hfields kv (hpf.mem_iff.mp hkv)
      exact ⟨hn, fun _ hfn => (by cases hfn), hc⟩
    · obtain ⟨kf, hkf, rfl⟩ := List.mem_map.mp hp
      obtain ⟨hn, ⟨⟨hne, hv⟩, hs⟩, hc⟩ := hfiles kf (hpg.mem_iff.mp hkf)
      refine ⟨hn, fun filename hf => ?_, hc⟩
      simp only [fileWritten, Option.some.injEq] at hf
      subst hf
      exact ⟨hv, hne, hs⟩
  · simp only [List.length_append, List.length_map, hpf.length_eq, hpg.length_eq]
    exact hcount

set_option maxRecDepth 1000000 in
/-- The banner form of a file named `a.png` is read back: five fields and one
file. -/
theorem multipart_round_trip_witness :
    ∃ req, authFetchRequest offline session123 "POST"
        "https://localhost:8080/api/v1/user/change_banner"
        (.multipart (bannerForm [1, 2, 3] "a.png" 0 0 10 10 "old.png")) [] = .ok req ∧
      ReadForm (bytesOf (randomBoundary offline.rand)) req.Body =
        .ok ⟨[valueEntry ("cropY", "0"), valueEntry ("cropX", "0"),
            valueEntry ("cropWidth", "10"), valueEntry ("cropHeight", "10"),
            valueEntry ("old_banner", "old.png")],
          [fileEntry ("banner", { Name := "a.png", Data := [1, 2, 3] })]⟩ := by
  have short : ∀ content : List UInt8, content.length < 60 →
      clearOf (bytesOf (randomBoundary offline.rand)) content := by
    intro content hlen hinf
    have h1 := hinf.length_le
    have h2 : (delimiter (bytesOf (randomBoundary offline.rand))).length = 64 := by decide
    simp only [h2, List.length_append, crlf, List.length_cons, List.length_nil] at h1
    omega
  have hrt := multipart_round_trip offline session123 "POST"
    "https://localhost:8080/api/v1/user/change_banner"
    (bannerForm [1, 2, 3] "a.png" 0 0 10 10 "old.png") _ rfl (by decide)
    ⟨by decide, by decide⟩
    (by
      intro kv hkv
      simp only [bannerForm, List.mem_cons, List.mem_singleton, List.not_mem_nil,
        or_false] at hkv
      rcases hkv with rfl | rfl | rfl | rfl | rfl <;>
        exact ⟨by unfold plainName; decide, short _ (by decide)⟩)
    (by
      intro kf hkf
      simp only [bannerForm, List.mem_singleton] at hkf
      subst hkf
      exact ⟨by unfold plainName; decide, by unfold plainFileName plainName; decide,
        short _ (by decide)⟩)
  obtain ⟨-, form, hread, hvalue, hfile, -⟩ := hrt
  refine ⟨_, rfl, ?_⟩
  rw [hread]
  congr 1
  cases form
  simp only at hvalue hfile
  rw [hvalue, hfile]
  rfl

end DesktopHud
